import Mathlib

/-!
# Batch renderer (`engine::Renderer`): shallow embedding and verified properties

Source: `src/vendor/engine/src/renderer.cpp`, `src/vendor/engine/include/graphics/renderer.h`.

Conventions of the embedding

* C++ `float` is idealised as an exact scalar field `α` (`ℚ` when a run is evaluated, `ℝ` where
  trigonometry is needed); rounding is not modelled.
* `uint32_t` counters are naturals reduced modulo `2 ^ 32` at every increment (`u32`).
* The two process-wide storages `s_Data` and `s_3DData` are the fields of one record,
  `RendererState`, which every operation receives and returns.
* The vertex arena and the texture-slot table are memories indexed by a natural offset; the
  C++ code performs no bounds check on either, so every store is recorded in a log together with
  the graphics-API calls, and bounds are properties proved (or refuted) about that log.
  A store outside the arena (offset `MAXVERTICES` or above) or outside the slot table (index
  `MAXTEXTURESLOTS` or above) is undefined behaviour in C++: from such a store on, the state of
  the embedding no longer describes the program. Statements about texture slots therefore carry
  a hypothesis under which no store leaves the table, and conclude that none did.
* A subscript outside an attribute vector in `loadModel` is undefined behaviour as well. The
  embedding follows a run up to the first such read and records it (`Fault.outOfBoundsRead`);
  it says nothing about what the program does after it.
-/

namespace engine

/-! ## glm vectors and matrices -/

/-- The type `glm::vec2`. -/
structure Vec2 (α : Type) where
  x : α
  y : α
deriving DecidableEq

/-- The type `glm::vec3`. -/
structure Vec3 (α : Type) where
  x : α
  y : α
  z : α
deriving DecidableEq

/-- The type `glm::vec4`. -/
structure Vec4 (α : Type) where
  x : α
  y : α
  z : α
  w : α
deriving DecidableEq

/-- The type `glm::mat4`, column-major: `c0 .. c3` are the columns `m[0] .. m[3]`. -/
structure Mat4 (α : Type) where
  c0 : Vec4 α
  c1 : Vec4 α
  c2 : Vec4 α
  c3 : Vec4 α
deriving DecidableEq

section glm

variable {α : Type} [Field α]

/-- Component-wise sum of two `vec4`. -/
def Vec4.add (a b : Vec4 α) : Vec4 α := ⟨a.x + b.x, a.y + b.y, a.z + b.z, a.w + b.w⟩

/-- Product of a `vec4` by a scalar, `v * s`. -/
def Vec4.smul (v : Vec4 α) (s : α) : Vec4 α := ⟨v.x * s, v.y * s, v.z * s, v.w * s⟩

/-- Conversion `vec3(vec4)`: the assignment of `transform * corner` to a `vec3` drops `w`. -/
def Vec4.xyz (v : Vec4 α) : Vec3 α := ⟨v.x, v.y, v.z⟩

/-- Component-wise sum of two `vec3`. -/
def Vec3.add (a b : Vec3 α) : Vec3 α := ⟨a.x + b.x, a.y + b.y, a.z + b.z⟩

/-- The matrix `glm::mat4(1.0f)`. -/
def Mat4.identity : Mat4 α := ⟨⟨1, 0, 0, 0⟩, ⟨0, 1, 0, 0⟩, ⟨0, 0, 1, 0⟩, ⟨0, 0, 0, 1⟩⟩

/-- The function `glm::translate(m, v)`: `Result[3] = m[0]*v.x + m[1]*v.y + m[2]*v.z + m[3]`. -/
def translate (m : Mat4 α) (v : Vec3 α) : Mat4 α :=
  { m with c3 := (((m.c0.smul v.x).add (m.c1.smul v.y)).add (m.c2.smul v.z)).add m.c3 }

/-- The function `glm::scale(m, v)`: column `i` of `m` times `v[i]`, last column kept. -/
def scale (m : Mat4 α) (v : Vec3 α) : Mat4 α :=
  ⟨m.c0.smul v.x, m.c1.smul v.y, m.c2.smul v.z, m.c3⟩

/-- The trigonometric functions of the maths library (`cos`, `sin`, `glm::radians`). -/
structure Trig (α : Type) where
  cos : α → α
  sin : α → α
  radians : α → α

/-- The function `glm::rotate(m, angle, axis)` for an axis of unit length (every call site
passes `{0, 0, 1}`, on which glm's `normalize` is the identity). -/
def rotate (T : Trig α) (m : Mat4 α) (angle : α) (axis : Vec3 α) : Mat4 α :=
  let c := T.cos angle
  let s := T.sin angle
  let temp : Vec3 α := ⟨(1 - c) * axis.x, (1 - c) * axis.y, (1 - c) * axis.z⟩
  let r00 := c + temp.x * axis.x
  let r01 := temp.x * axis.y + s * axis.z
  let r02 := temp.x * axis.z - s * axis.y
  let r10 := temp.y * axis.x - s * axis.z
  let r11 := c + temp.y * axis.y
  let r12 := temp.y * axis.z + s * axis.x
  let r20 := temp.z * axis.x + s * axis.y
  let r21 := temp.z * axis.y - s * axis.x
  let r22 := c + temp.z * axis.z
  ⟨((m.c0.smul r00).add (m.c1.smul r01)).add (m.c2.smul r02),
   ((m.c0.smul r10).add (m.c1.smul r11)).add (m.c2.smul r12),
   ((m.c0.smul r20).add (m.c1.smul r21)).add (m.c2.smul r22),
   m.c3⟩

/-- The product `mat4 * vec4` of glm: `(m[0]*v.x + m[1]*v.y) + (m[2]*v.z + m[3]*v.w)`. -/
def Mat4.mulVec (m : Mat4 α) (v : Vec4 α) : Vec4 α :=
  ((m.c0.smul v.x).add (m.c1.smul v.y)).add ((m.c2.smul v.z).add (m.c3.smul v.w))

/-- The product `mat4 * mat4` of glm: column `j` of the result is `a * b[j]` summed left to
right. -/
def Mat4.mul (a b : Mat4 α) : Mat4 α :=
  let col (v : Vec4 α) : Vec4 α :=
    (((a.c0.smul v.x).add (a.c1.smul v.y)).add (a.c2.smul v.z)).add (a.c3.smul v.w)
  ⟨col b.c0, col b.c1, col b.c2, col b.c3⟩

end glm

/-! ## Vertex records, textures and the call log -/

/-- The struct `QuadVertex` of `renderer.h`. -/
structure QuadVertex (α : Type) where
  position : Vec3 α
  color : Vec4 α
  texCoord : Vec2 α
  texID : α
  tileCount : α
deriving DecidableEq

/-- The struct `PolyVertex` of `renderer.h`. -/
structure PolyVertex (α : Type) where
  position : Vec3 α
  normal : Vec3 α
  color : Vec4 α
  texCoord : Vec2 α
  texID : α
deriving DecidableEq

/-- Modelled from the spec: `texture.h` is not part of the sources. A texture object carries the
renderer ID given by the graphics API and its pixel size (`Texture(1, 1)` in the constructor). -/
structure Texture where
  rendererID : Nat
  width : Nat
  height : Nat
deriving DecidableEq

/-- Modelled from the spec: `Texture::operator==`, which the renderer documents as "custom
Texture object operator to compare renderer IDs". -/
def Texture.sameID (a b : Texture) : Bool := a.rendererID == b.rendererID

/-- The shader objects the renderer binds. -/
inductive ShaderRef where
  | textureShader
  | lightingShader
  | custom (id : Nat)
deriving DecidableEq

/-- One observable action: a call into the graphics API, or a store into one of the two
fixed-size tables of `RendererStorage`. -/
inductive Event (α : Type) where
  /-- The call `shader->bind()`. -/
  | shaderBind (shader : ShaderRef)
  /-- The call `shader->addUniformMat4("u_ViewProjection", m)`. -/
  | uniformMat4 (shader : ShaderRef) (m : Mat4 α)
  /-- The call `textureSlots[slot]->bind(slot)`. -/
  | textureBind (texture : Texture) (slot : Nat)
  /-- The call `s_RenderAPI->drawIndexed(vertexArray[, indexCount])`. -/
  | drawIndexed (indexCount : Option Nat)
  /-- The call `glBufferData` of `compileModel`, uploading `count` vertices. -/
  | bufferData (count : Nat)
  /-- The call `s_RenderAPI->drawVAO(VAO, vertexCount)`. -/
  | drawVAO (vertexCount : Nat)
  /-- A store through `quadVertexBufferPtr`, `offset` vertices after `quadVertexBufferStore`. -/
  | vertexStore (offset : Nat)
  /-- A store `textureSlots[index] = texture`. -/
  | slotStore (index : Nat)
deriving DecidableEq

/-- Whether the event is an indexed (2D quad) draw call. -/
def Event.isDrawIndexed {α : Type} : Event α → Bool
  | .drawIndexed _ => true
  | _ => false

/-- Whether the event is a non-indexed (3D) draw call. -/
def Event.isDrawVAO {α : Type} : Event α → Bool
  | .drawVAO _ => true
  | _ => false

/-- Whether the event is a store into the vertex arena. -/
def Event.isVertexStore {α : Type} : Event α → Bool
  | .vertexStore _ => true
  | _ => false

/-- Whether the event is a draw call of either kind. -/
def Event.isDraw {α : Type} (e : Event α) : Bool := e.isDrawIndexed || e.isDrawVAO

/-! ## Storage -/

/-- Reduction of a counter to `uint32_t`. -/
def u32 (n : Nat) : Nat := n % 4294967296

/-- The constant `RendererStorage::QUADVERTEXCOUNT`. -/
def QUADVERTEXCOUNT : Nat := 4
/-- The constant `RendererStorage::MAXTEXTURESLOTS`. -/
def MAXTEXTURESLOTS : Nat := 32
/-- The constant `RendererStorage::MAXQUADS`. -/
def MAXQUADS : Nat := 1000000
/-- The constant `RendererStorage::MAXVERTICES`. -/
def MAXVERTICES : Nat := MAXQUADS * 4
/-- The constant `RendererStorage::MAXINDICES`. -/
def MAXINDICES : Nat := MAXQUADS * 6

/-- The null pointer as a value of the write cursor. The cursor is kept as an offset, in
vertices, from `quadVertexBufferStore`; the null pointer is no position of the arena, and is
represented by an offset that no position of the arena takes (the arena ends at `MAXVERTICES`),
so that a store through it is recorded outside the arena. -/
def nullCursor : Nat := 18446744073709551616

/-- The mutable fields of `RendererStorage` (`s_Data`) and `RendererStorage3D` (`s_3DData`), and
the log of actions performed so far. `quadVertexBufferPtr` is the offset, in vertices, of the
write cursor from `quadVertexBufferStore` (`nullCursor` for the null pointer). `textureSlots` is
the `std::array` of `MAXTEXTURESLOTS` entries, as a memory: only the entries below
`MAXTEXTURESLOTS` exist in the program. -/
structure RendererState (α : Type) where
  quadIndexCount : Nat
  quadVertexBufferStore : Nat → QuadVertex α
  quadVertexBufferPtr : Nat
  textureSlots : Nat → Texture
  textureSlotIndex : Nat
  whiteTexture : Texture
  viewProjectionMatrix : Mat4 α
  vertices : List (PolyVertex α)
  vertexCount : Nat
  log : List (Event α)

section storage

variable {α : Type} [Field α]

/-- The table `RendererStorage::textureCoordMapping`. -/
def textureCoordMapping : Nat → Vec2 α
  | 0 => ⟨0, 0⟩
  | 1 => ⟨1, 0⟩
  | 2 => ⟨1, 1⟩
  | _ => ⟨0, 1⟩

/-- The constant `RendererStorage::DEFAULTCOLOR`. -/
def DEFAULTCOLOR : Vec4 α := ⟨1, 1, 1, 1⟩

/-- The table `s_Data.quadVertexPositions`, assigned once by the constructor and never
changed. -/
def quadVertexPositions : Nat → Vec4 α
  | 0 => ⟨-0.5, -0.5, 0, 1⟩
  | 1 => ⟨0.5, -0.5, 0, 1⟩
  | 2 => ⟨0.5, 0.5, 0, 1⟩
  | _ => ⟨-0.5, 0.5, 0, 1⟩

end storage

/-! ## Cameras -/

/-- Modelled from the spec: `camera/orthographic-camera.h` is not part of the sources; the
renderer only reads `getViewProjectionMatrix()`. -/
structure OrthographicCamera (α : Type) where
  viewProjectionMatrix : Mat4 α

/-- Modelled from the spec: `camera/perspective-camera.h` is not part of the sources; the
renderer only reads `getViewProjectionMatrix()`. -/
structure PerspectiveCamera (α : Type) where
  viewProjectionMatrix : Mat4 α

namespace Renderer

section scene

variable {α : Type} [Field α]

/-- Appends actions to the log. -/
def emit (es : List (Event α)) (s : RendererState α) : RendererState α :=
  { s with log := s.log ++ es }

/-- The state left by the constructor `Renderer::Renderer()`: the members at their
initialisers (`quadIndexCount = 0`, `quadVertexBufferPtr = nullptr`, `textureSlotIndex = 1`), the
view-projection matrix of the zero-initialised static storage, slot 0 holding the white 1x1
texture. The constructor allocates the arena but does not point the cursor at it: that is done
by `beginScene`, so a draw call issued before the first `beginScene` stores through the null
pointer. The arena is uninitialised memory and the slots above 0 are null pointers, none of
them read before it is written; they are represented by a zero vertex and the white texture. -/
def init (whiteTexture : Texture) : RendererState α :=
  { quadIndexCount := 0
    quadVertexBufferStore := fun _ => ⟨⟨0, 0, 0⟩, ⟨0, 0, 0, 0⟩, ⟨0, 0⟩, 0, 0⟩
    quadVertexBufferPtr := nullCursor
    textureSlots := fun _ => whiteTexture
    textureSlotIndex := 1
    whiteTexture := whiteTexture
    viewProjectionMatrix := ⟨⟨0, 0, 0, 0⟩, ⟨0, 0, 0, 0⟩, ⟨0, 0, 0, 0⟩, ⟨0, 0, 0, 0⟩⟩
    vertices := []
    vertexCount := 0
    log := [] }

/-- The index array built by the constructor: its contents by position, and the positions the
loop stored to, in order. -/
structure QuadIndices where
  data : Nat → Nat
  stores : List Nat

/-- The loop `for (uint32_t i = 0; i < MAXINDICES; i += 6)` of the constructor, entered with
the loop variable `i` and the running `offset`: six stores at `i + 0 .. i + 5`, then
`offset += 4`. -/
def fillQuadIndices (i offset : Nat) (quadIndices : QuadIndices) : QuadIndices :=
  if i < MAXINDICES then
    fillQuadIndices (u32 (i + 6)) (u32 (offset + 4))
      { data :=
          Function.update (Function.update (Function.update (Function.update (Function.update
            (Function.update quadIndices.data (i + 0) (offset + 0)) (i + 1) (offset + 1))
            (i + 2) (offset + 2)) (i + 3) (offset + 2)) (i + 4) (offset + 3))
            (i + 5) (offset + 0)
        stores := quadIndices.stores ++ [i + 0, i + 1, i + 2, i + 3, i + 4, i + 5] }
  else quadIndices
termination_by MAXINDICES - i
decreasing_by
  simp only [u32, MAXINDICES, MAXQUADS] at *
  omega

/-- The index array `quadIndices` handed to the index buffer by the constructor: the loop run
from `i = 0`, `offset = 0` on the freshly allocated array (whose cells are represented by 0). -/
def quadIndices : QuadIndices := fillQuadIndices 0 0 ⟨fun _ => 0, []⟩

/-- The function `Renderer::beginScene(OrthographicCamera&)`. -/
def beginScene (camera : OrthographicCamera α) (s : RendererState α) : RendererState α :=
  let s := { s with viewProjectionMatrix := camera.viewProjectionMatrix }
  let s := emit [Event.shaderBind ShaderRef.textureShader,
                 Event.uniformMat4 ShaderRef.textureShader camera.viewProjectionMatrix] s
  { s with quadIndexCount := 0, quadVertexBufferPtr := 0, textureSlotIndex := 1 }

/-- The function `Renderer::beginScene(PerspectiveCamera&)`. -/
def beginScene_perspective (camera : PerspectiveCamera α) (s : RendererState α) :
    RendererState α :=
  let s := { s with viewProjectionMatrix := camera.viewProjectionMatrix }
  let s := emit [Event.shaderBind ShaderRef.lightingShader,
                 Event.uniformMat4 ShaderRef.lightingShader camera.viewProjectionMatrix] s
  let s := emit [Event.shaderBind ShaderRef.textureShader,
                 Event.uniformMat4 ShaderRef.textureShader camera.viewProjectionMatrix] s
  { s with quadIndexCount := 0, quadVertexBufferPtr := 0, textureSlotIndex := 1 }

/-- The camera argument of `beginScene`, one constructor per overload. -/
inductive SceneCamera (α : Type) where
  | orthographic (camera : OrthographicCamera α)
  | perspective (camera : PerspectiveCamera α)

/-- The call `Renderer::beginScene(camera)`, resolved to the overload of the camera type. -/
def beginSceneWith (camera : SceneCamera α) (s : RendererState α) : RendererState α :=
  match camera with
  | .orthographic c => beginScene c s
  | .perspective c => beginScene_perspective c s

/-- The function `Renderer::compileModel`, called on `s_3DData.vertices`: uploads the list and
records its length in `s_3DData.vertexCount` (an `unsigned int`). The returned handle is not
modelled. -/
def compileModel (s : RendererState α) : RendererState α :=
  let s := emit [Event.bufferData s.vertices.length] s
  { s with vertexCount := u32 s.vertices.length }

/-- The function `Renderer::submit(shader, VAO)`: binds the shader, draws `vertexCount` vertices
without indices, resets `vertexCount`. -/
def submit (shader : ShaderRef) (s : RendererState α) : RendererState α :=
  let s := emit [Event.shaderBind shader] s
  let s := emit [Event.drawVAO s.vertexCount] s
  { s with vertexCount := 0 }

/-- The function `Renderer::submit(shader, vertexArray, transform)`: the non-batched path. -/
def submit_vertexArray (shader : ShaderRef) (s : RendererState α) : RendererState α :=
  let s := emit [Event.shaderBind shader] s
  let s := emit [Event.uniformMat4 shader s.viewProjectionMatrix] s
  emit [Event.drawIndexed none] s

/-- The function `Renderer::endScene`. The block that uploaded the quad arena and called
`drawIndexed(quadVertexArray, quadIndexCount)` is commented out in the source, so the active
body is: bind slots `0 .. textureSlotIndex - 1`, compile and submit the 3D list, clear it, reset
the quad cursors. -/
def endScene (s : RendererState α) : RendererState α :=
  if s.quadIndexCount = 0 ∧ s.vertices.length = 0 then s
  else
    let s := emit ((List.range s.textureSlotIndex).map
      (fun i => Event.textureBind (s.textureSlots i) i)) s
    let s := compileModel s
    let s := submit ShaderRef.lightingShader s
    let s := { s with vertices := [] }
    { s with quadIndexCount := 0, quadVertexBufferPtr := 0, textureSlotIndex := 1 }

/-- One iteration body of the vertex loops: stores a vertex through the cursor and advances
it. -/
def pushVertex (v : QuadVertex α) (s : RendererState α) : RendererState α :=
  { s with
    quadVertexBufferStore := Function.update s.quadVertexBufferStore s.quadVertexBufferPtr v
    quadVertexBufferPtr := s.quadVertexBufferPtr + 1
    log := s.log ++ [Event.vertexStore s.quadVertexBufferPtr] }

/-- The loop `for (i = 0; i < QUADVERTEXCOUNT; i++)` shared by the four quad functions. -/
def writeQuad (transform : Mat4 α) (color : Vec4 α) (texID tileCount : α)
    (s : RendererState α) : RendererState α :=
  (List.range QUADVERTEXCOUNT).foldl
    (fun s i => pushVertex
      { position := (transform.mulVec (quadVertexPositions i)).xyz
        color := color
        texCoord := textureCoordMapping i
        texID := texID
        tileCount := tileCount } s) s

/-- The overflow guard opening every quad function:
`if (quadIndexCount >= MAXINDICES) endScene();`. -/
def flushIfFull (s : RendererState α) : RendererState α :=
  if s.quadIndexCount ≥ MAXINDICES then endScene s else s

/-- The statement `quadIndexCount += 6` on a `uint32_t`. -/
def bumpIndexCount (s : RendererState α) : RendererState α :=
  { s with quadIndexCount := u32 (s.quadIndexCount + 6) }

/-- The function `Renderer::drawQuad(vec3 position, vec2 size, vec4 color)`. -/
def drawQuad (position : Vec3 α) (size : Vec2 α) (color : Vec4 α)
    (s : RendererState α) : RendererState α :=
  let texID : α := 0
  let tileCount : α := 1
  let s := flushIfFull s
  let transform := (translate Mat4.identity position).mul
    (scale Mat4.identity ⟨size.x, size.y, 1⟩)
  let s := writeQuad transform color texID tileCount s
  bumpIndexCount s

/-- The function `Renderer::drawQuad(vec2 position, vec2 size, vec4 color)`. -/
def drawQuad_vec2 (position : Vec2 α) (size : Vec2 α) (color : Vec4 α)
    (s : RendererState α) : RendererState α :=
  drawQuad ⟨position.x, position.y, 0⟩ size color s

/-- The function `Renderer::drawRotatedQuad(vec3 position, vec2 size, float rotation,
vec4 color)`. -/
def drawRotatedQuad (T : Trig α) (position : Vec3 α) (size : Vec2 α) (rotation : α)
    (color : Vec4 α) (s : RendererState α) : RendererState α :=
  let texID : α := 0
  let tileCount : α := 1
  let s := flushIfFull s
  let transform := ((translate Mat4.identity position).mul
    (rotate T Mat4.identity (T.radians rotation) ⟨0, 0, 1⟩)).mul
    (scale Mat4.identity ⟨size.x, size.y, 1⟩)
  let s := writeQuad transform color texID tileCount s
  bumpIndexCount s

/-- The function `Renderer::drawRotatedQuad(vec2 position, vec2 size, float rotation,
vec4 color)`. -/
def drawRotatedQuad_vec2 (T : Trig α) (position : Vec2 α) (size : Vec2 α) (rotation : α)
    (color : Vec4 α) (s : RendererState α) : RendererState α :=
  drawRotatedQuad T ⟨position.x, position.y, 0⟩ size rotation color s

end scene

section textured

variable {α : Type} [Field α] [DecidableEq α]

/-- The loop `for (i = 1; i < textureSlotIndex; i++) if (*textureSlots[i] == *texture)
{ texID = (float)i; break; }`, started at slot `i` with `n` slots left to visit; yields the
value of `texID` after the loop (`0.f` when nothing matched). -/
def scanSlots (slots : Nat → Texture) (texture : Texture) : Nat → Nat → α
  | _, 0 => 0
  | i, n + 1 => if (slots i).sameID texture then (i : α) else scanSlots slots texture (i + 1) n

/-- Texture-slot resolution of the textured quad functions: the scan over slots
`1 .. textureSlotIndex - 1`, then, when `texID == 0.f`, the store of the texture at
`textureSlots[textureSlotIndex]` and the increment of `textureSlotIndex` (a `uint32_t`). Yields
the `texID` to write.

The store is unchecked in the source, and so it is here: it is made, and recorded as
`Event.slotStore`, whatever the index. With `textureSlotIndex = MAXTEXTURESLOTS` it leaves the
`std::array` (in the program it overwrites the members laid out after the table, among them
`textureSlotIndex` itself), which is undefined behaviour: the state returned then, and every
state after it, does not describe the program. A run is described exactly as long as its log
satisfies `StoresInSlotTable`. -/
def resolveTexture (texture : Texture) (s : RendererState α) : α × RendererState α :=
  let texID : α := scanSlots s.textureSlots texture 1 (s.textureSlotIndex - 1)
  if texID = 0 then
    ((s.textureSlotIndex : α),
      { s with
        textureSlots := Function.update s.textureSlots s.textureSlotIndex texture
        textureSlotIndex := u32 (s.textureSlotIndex + 1)
        log := s.log ++ [Event.slotStore s.textureSlotIndex] })
  else (texID, s)

/-- The function `Renderer::drawQuad(vec3 position, vec2 size, texture, float tileCount,
vec4 tintColor)`. -/
def drawQuad_textured (position : Vec3 α) (size : Vec2 α) (texture : Texture) (tileCount : α)
    (_tintColor : Vec4 α) (s : RendererState α) : RendererState α :=
  let s := flushIfFull s
  let r := resolveTexture texture s
  let texID := r.1
  let s := r.2
  let transform := (translate Mat4.identity position).mul
    (scale Mat4.identity ⟨size.x, size.y, 1⟩)
  let s := writeQuad transform DEFAULTCOLOR texID tileCount s
  bumpIndexCount s

/-- The function `Renderer::drawQuad(vec2 position, vec2 size, texture, float tileCount,
vec4 tintColor)`. -/
def drawQuad_vec2_textured (position : Vec2 α) (size : Vec2 α) (texture : Texture)
    (tileCount : α) (tintColor : Vec4 α) (s : RendererState α) : RendererState α :=
  drawQuad_textured ⟨position.x, position.y, 0⟩ size texture tileCount tintColor s

/-- The function `Renderer::drawRotatedQuad(vec3 position, vec2 size, float rotation, texture,
float tileCount, vec4 tintColor)`. -/
def drawRotatedQuad_textured (T : Trig α) (position : Vec3 α) (size : Vec2 α) (rotation : α)
    (texture : Texture) (tileCount : α) (_tintColor : Vec4 α)
    (s : RendererState α) : RendererState α :=
  let s := flushIfFull s
  let r := resolveTexture texture s
  let texID := r.1
  let s := r.2
  let transform := ((translate Mat4.identity position).mul
    (rotate T Mat4.identity (T.radians rotation) ⟨0, 0, 1⟩)).mul
    (scale Mat4.identity ⟨size.x, size.y, 1⟩)
  let s := writeQuad transform DEFAULTCOLOR texID tileCount s
  bumpIndexCount s

/-- The function `Renderer::drawRotatedQuad(vec2 position, vec2 size, float rotation, texture,
float tileCount, vec4 tintColor)`. -/
def drawRotatedQuad_vec2_textured (T : Trig α) (position : Vec2 α) (size : Vec2 α)
    (rotation : α) (texture : Texture) (tileCount : α) (tintColor : Vec4 α)
    (s : RendererState α) : RendererState α :=
  drawRotatedQuad_textured T ⟨position.x, position.y, 0⟩ size rotation texture tileCount
    tintColor s

end textured

section circle

variable {α : Type} [Field α]

/-- The function `Renderer::drawCircle(vec3 position, vec2 size, vec4 color)`: the loop
`for (i = 0; i < angleShift; i++) drawRotatedQuad(position, size, rotation + i, color)` with
`angleShift = 3` and `rotation = 0.f`. -/
def drawCircle (T : Trig α) (position : Vec3 α) (size : Vec2 α) (color : Vec4 α)
    (s : RendererState α) : RendererState α :=
  let angleShift : Nat := 3
  let rotation : α := 0
  (List.range angleShift).foldl
    (fun s i => drawRotatedQuad T position size (rotation + (i : α)) color s) s

/-- The function `Renderer::drawCircle(vec2 position, vec2 size, vec4 color)`. -/
def drawCircle_vec2 (T : Trig α) (position : Vec2 α) (size : Vec2 α) (color : Vec4 α)
    (s : RendererState α) : RendererState α :=
  let angleShift : Nat := 3
  let rotation : α := 0
  (List.range angleShift).foldl
    (fun s i => drawRotatedQuad_vec2 T position size (rotation + (i : α)) color s) s

variable [DecidableEq α]

/-- The function `Renderer::drawCircle(vec3 position, vec2 size, texture)`; `tintColor` takes
its default `glm::vec4(1.0f)`. -/
def drawCircle_textured (T : Trig α) (position : Vec3 α) (size : Vec2 α) (texture : Texture)
    (s : RendererState α) : RendererState α :=
  let angleShift : Nat := 3
  let rotation : α := 0
  (List.range angleShift).foldl
    (fun s i => drawRotatedQuad_textured T position size (rotation + (i : α)) texture 1
      ⟨1, 1, 1, 1⟩ s) s

/-- The function `Renderer::drawCircle(vec2 position, vec2 size, texture)`. -/
def drawCircle_vec2_textured (T : Trig α) (position : Vec2 α) (size : Vec2 α)
    (texture : Texture) (s : RendererState α) : RendererState α :=
  let angleShift : Nat := 3
  let rotation : α := 0
  (List.range angleShift).foldl
    (fun s i => drawRotatedQuad_vec2_textured T position size (rotation + (i : α)) texture 1
      ⟨1, 1, 1, 1⟩ s) s

end circle

end Renderer

/-! ## Programs: sequences of calls made inside a scene -/

/-- One call of the drawing interface between `beginScene` and the end of the frame. -/
inductive Op (α : Type) where
  | drawQuad (position : Vec3 α) (size : Vec2 α) (color : Vec4 α)
  | drawQuad_vec2 (position : Vec2 α) (size : Vec2 α) (color : Vec4 α)
  | drawQuad_textured (position : Vec3 α) (size : Vec2 α) (texture : Texture) (tileCount : α)
      (tintColor : Vec4 α)
  | drawQuad_vec2_textured (position : Vec2 α) (size : Vec2 α) (texture : Texture)
      (tileCount : α) (tintColor : Vec4 α)
  | drawRotatedQuad (position : Vec3 α) (size : Vec2 α) (rotation : α) (color : Vec4 α)
  | drawRotatedQuad_vec2 (position : Vec2 α) (size : Vec2 α) (rotation : α) (color : Vec4 α)
  | drawRotatedQuad_textured (position : Vec3 α) (size : Vec2 α) (rotation : α)
      (texture : Texture) (tileCount : α) (tintColor : Vec4 α)
  | drawRotatedQuad_vec2_textured (position : Vec2 α) (size : Vec2 α) (rotation : α)
      (texture : Texture) (tileCount : α) (tintColor : Vec4 α)
  | drawCircle (position : Vec3 α) (size : Vec2 α) (color : Vec4 α)
  | drawCircle_vec2 (position : Vec2 α) (size : Vec2 α) (color : Vec4 α)
  | drawCircle_textured (position : Vec3 α) (size : Vec2 α) (texture : Texture)
  | drawCircle_vec2_textured (position : Vec2 α) (size : Vec2 α) (texture : Texture)
  | endScene

section programs

variable {α : Type} [Field α] [DecidableEq α]

/-- Executes one call. -/
def Op.exec (T : Trig α) : Op α → RendererState α → RendererState α
  | .drawQuad p sz c => Renderer.drawQuad p sz c
  | .drawQuad_vec2 p sz c => Renderer.drawQuad_vec2 p sz c
  | .drawQuad_textured p sz t n tint => Renderer.drawQuad_textured p sz t n tint
  | .drawQuad_vec2_textured p sz t n tint => Renderer.drawQuad_vec2_textured p sz t n tint
  | .drawRotatedQuad p sz r c => Renderer.drawRotatedQuad T p sz r c
  | .drawRotatedQuad_vec2 p sz r c => Renderer.drawRotatedQuad_vec2 T p sz r c
  | .drawRotatedQuad_textured p sz r t n tint => Renderer.drawRotatedQuad_textured T p sz r t n tint
  | .drawRotatedQuad_vec2_textured p sz r t n tint =>
      Renderer.drawRotatedQuad_vec2_textured T p sz r t n tint
  | .drawCircle p sz c => Renderer.drawCircle T p sz c
  | .drawCircle_vec2 p sz c => Renderer.drawCircle_vec2 T p sz c
  | .drawCircle_textured p sz t => Renderer.drawCircle_textured T p sz t
  | .drawCircle_vec2_textured p sz t => Renderer.drawCircle_vec2_textured T p sz t
  | .endScene => Renderer.endScene

/-- Executes a sequence of calls, first to last. -/
def run (T : Trig α) (ops : List (Op α)) (s : RendererState α) : RendererState α :=
  ops.foldl (fun s op => op.exec T s) s

/-- The actions a sequence of calls performs when started in `s`. -/
def trace (T : Trig α) (ops : List (Op α)) (s : RendererState α) : List (Event α) :=
  (run T ops { s with log := [] }).log

end programs

/-! ## Model loading -/

/-- The struct `tinyobj::index_t`: one corner of a face; `-1` marks a missing attribute. The
`int` members are integers; the products `index * 3` and `index * 2` formed by `loadModel` are
not reduced, signed overflow being undefined in C++. -/
structure MeshIndex where
  vertex_index : Int
  normal_index : Int
  texcoord_index : Int
deriving DecidableEq

/-- The struct `tinyobj::shape_t`, reduced to `mesh.indices`, the only member read. -/
structure Shape where
  indices : List MeshIndex
deriving DecidableEq

/-- The struct `tinyobj::attrib_t`, reduced to the three flat arrays read by `loadModel`. -/
structure Attrib (α : Type) where
  vertices : List α
  normals : List α
  texcoords : List α

/-- Modelled from the spec: `object-library.h` is not part of the sources. A raw shape is built
by `loadShape` as `RawShape(attrib, shapes, materials)` and read through `attrib` and
`shapes`. -/
structure RawShape (α : Type) where
  attrib : Attrib α
  shapes : List Shape

/-- The three attribute arrays. -/
inductive AttribArray where
  | vertices
  | normals
  | texcoords
deriving DecidableEq

/-- The undefined behaviour a run of `loadModel` can reach: `std::vector::operator[]` is
unchecked, so the subscript `array[index]` with the index outside an array of `size` elements is
performed as a read outside the array. Nothing is reported to the caller, and what the program
does from that read on is undefined (compiled code typically goes on with the bytes it finds
there and returns). `Except.error (Fault.outOfBoundsRead ..)` as the outcome of a run therefore
means: the run has performed this read, and the embedding does not follow it further. It does
not mean that the call reports an error or fails to return. -/
inductive Fault where
  | outOfBoundsRead (array : AttribArray) (index : Int) (size : Nat)
deriving DecidableEq

namespace Renderer

section model

variable {α : Type} [Field α]

/-- The subscript `array[index]` on one of the attribute vectors: the element when the index is
inside the array, the record of the read outside it otherwise. -/
def readAttrib (which : AttribArray) (array : List α) (index : Int) : Except Fault α :=
  if 0 ≤ index then
    match array.get? index.toNat with
    | some v => Except.ok v
    | none => Except.error (Fault.outOfBoundsRead which index array.length)
  else Except.error (Fault.outOfBoundsRead which index array.length)

/-- The body of the inner loop of `loadModel` for one mesh index. -/
def loadVertex (s : RawShape α) (position : Vec3 α) (color : Vec4 α) (texID : Int)
    (meshIndex : MeshIndex) : Except Fault (PolyVertex α) := do
  let vx ← readAttrib AttribArray.vertices s.attrib.vertices (meshIndex.vertex_index * 3)
  let vy ← readAttrib AttribArray.vertices s.attrib.vertices (meshIndex.vertex_index * 3 + 1)
  let vz ← readAttrib AttribArray.vertices s.attrib.vertices (meshIndex.vertex_index * 3 + 2)
  let vertice : Vec3 α := ⟨vx + position.x, vy + position.y, vz + position.z⟩
  let nx ← readAttrib AttribArray.normals s.attrib.normals (meshIndex.normal_index * 3)
  let ny ← readAttrib AttribArray.normals s.attrib.normals (meshIndex.normal_index * 3 + 1)
  let nz ← readAttrib AttribArray.normals s.attrib.normals (meshIndex.normal_index * 3 + 2)
  let normal : Vec3 α := ⟨nx, ny, nz⟩
  let tu ← readAttrib AttribArray.texcoords s.attrib.texcoords (meshIndex.texcoord_index * 2)
  let tv ← readAttrib AttribArray.texcoords s.attrib.texcoords (meshIndex.texcoord_index * 2 + 1)
  let textureCoordinate : Vec2 α := ⟨tu, tv⟩
  pure
    { position := vertice
      normal := normal
      texCoord := textureCoordinate
      color := color
      texID := (texID : α) }

/-- The inner loop of `loadModel`: `for (auto meshIndex : shape.mesh.indices)`, pushing one
vertex per index. -/
def loadMesh (s : RawShape α) (position : Vec3 α) (color : Vec4 α) (texID : Int) :
    List MeshIndex → List (PolyVertex α) → Except Fault (List (PolyVertex α))
  | [], vertices => Except.ok vertices
  | meshIndex :: rest, vertices =>
    match loadVertex s position color texID meshIndex with
    | Except.ok vertex => loadMesh s position color texID rest (vertices ++ [vertex])
    | Except.error e => Except.error e

/-- The outer loop of `loadModel`: `for (auto shape : s.shapes)`. -/
def loadShapes (s : RawShape α) (position : Vec3 α) (color : Vec4 α) (texID : Int) :
    List Shape → List (PolyVertex α) → Except Fault (List (PolyVertex α))
  | [], vertices => Except.ok vertices
  | shape :: rest, vertices =>
    match loadMesh s position color texID shape.indices vertices with
    | Except.ok vertices => loadShapes s position color texID rest vertices
    | Except.error e => Except.error e

/-- The function `Renderer::loadModel(path, name, vertices, position, color, texID)`. The object
library (`s_ObjectLibrary->get(name)`, not part of the sources) is the map `library`; `vertices`
is the caller's list, returned extended. -/
def loadModel (library : String → RawShape α) (_path : String) (name : String)
    (vertices : List (PolyVertex α)) (position : Vec3 α) (color : Vec4 α) (texID : Int) :
    Except Fault (List (PolyVertex α)) :=
  let s := library name
  loadShapes s position color texID s.shapes vertices

/-- The function `Renderer::draw3DObject`: `loadModel` into `s_3DData.vertices` with
`texID = 0`; `size` and `rotation` are not used. -/
def draw3DObject (library : String → RawShape α) (position : Vec3 α) (_size : Vec3 α)
    (_rotation : Vec3 α) (color : Vec4 α) (path : String) (objectName : String)
    (s : RendererState α) : Except Fault (RendererState α) :=
  match loadModel library path objectName s.vertices position color 0 with
  | Except.ok vertices => Except.ok { s with vertices := vertices }
  | Except.error e => Except.error e

end model

end Renderer

/-! ## Specification predicates -/

section predicates

variable {α : Type} [Field α] [DecidableEq α]

/-- The cursor invariant of the quad batch: the cursor is four vertices per recorded quad, the
index count is a multiple of six and does not exceed the capacity. -/
def CursorInv (s : RendererState α) : Prop :=
  s.quadVertexBufferPtr = 4 * (s.quadIndexCount / 6) ∧ 6 ∣ s.quadIndexCount ∧
    s.quadIndexCount ≤ MAXINDICES

/-- Every recorded store into the vertex arena lies inside it. -/
def StoresInArena (log : List (Event α)) : Prop :=
  ∀ offset, Event.vertexStore offset ∈ log → offset < MAXVERTICES

/-- The number of draw calls of either kind in a log. -/
def drawCalls (log : List (Event α)) : Nat := log.countP Event.isDraw

/-- The number of non-indexed draw calls in a log. `endScene` issues one each time it runs past
the nothing-to-draw test, and no other function of a scene issues any. -/
def flushCount (log : List (Event α)) : Nat := log.countP Event.isDrawVAO

/-- The number of stores into the vertex arena in a log. -/
def vertexStores (log : List (Event α)) : Nat := log.countP Event.isVertexStore

/-- The table `[0, 1, 2, 2, 3, 0]`: the corners of the two triangles `(0,1,2)` and `(2,3,0)` of
a quad. -/
def quadCornerOrder : Nat → Nat
  | 0 => 0
  | 1 => 1
  | 2 => 2
  | 3 => 2
  | 4 => 3
  | _ => 0

/-- The number of indexed (2D quad) draw calls in a log. -/
def indexedDrawCalls (log : List (Event α)) : Nat := log.countP Event.isDrawIndexed

/-- The sequence of `n` identical coloured `drawQuad` calls followed by `endScene`. -/
def quadsThenEnd (n : Nat) (position : Vec3 α) (size : Vec2 α) (color : Vec4 α) :
    List (Op α) :=
  List.replicate n (Op.drawQuad position size color) ++ [Op.endScene]

/-- One quad submission: what distinguishes the four quad functions from each other is whether
a texture is resolved, and the transform, colour and tile count written. -/
structure QuadCall (α : Type) where
  texture : Option Texture
  transform : Mat4 α
  color : Vec4 α
  tileCount : α

/-- The common shape of the four quad functions: overflow guard, texture resolution when there
is a texture (`texID = 0` otherwise), the loop of four stores, `quadIndexCount += 6`. -/
def Renderer.submitQuad (q : QuadCall α) (s : RendererState α) : RendererState α :=
  match q.texture with
  | none =>
    Renderer.bumpIndexCount
      (Renderer.writeQuad q.transform q.color 0 q.tileCount (Renderer.flushIfFull s))
  | some t =>
    Renderer.bumpIndexCount
      (Renderer.writeQuad q.transform q.color
        (Renderer.resolveTexture t (Renderer.flushIfFull s)).1 q.tileCount
        (Renderer.resolveTexture t (Renderer.flushIfFull s)).2)

/-- The transform `translate * scale` of the unrotated quad functions. -/
def quadTransform (position : Vec3 α) (size : Vec2 α) : Mat4 α :=
  (translate Mat4.identity position).mul (scale Mat4.identity ⟨size.x, size.y, 1⟩)

/-- The transform `translate * rotate * scale` of the rotated quad functions. -/
def rotatedQuadTransform (T : Trig α) (position : Vec3 α) (size : Vec2 α) (rotation : α) :
    Mat4 α :=
  ((translate Mat4.identity position).mul
    (rotate T Mat4.identity (T.radians rotation) ⟨0, 0, 1⟩)).mul
    (scale Mat4.identity ⟨size.x, size.y, 1⟩)

/-- The quad submissions a call expands to, in order: one for the quad functions, three for
the circle functions, none for `endScene`. -/
def Op.calls (T : Trig α) : Op α → List (QuadCall α)
  | .drawQuad p sz c => [⟨none, quadTransform p sz, c, 1⟩]
  | .drawQuad_vec2 p sz c => [⟨none, quadTransform ⟨p.x, p.y, 0⟩ sz, c, 1⟩]
  | .drawQuad_textured p sz t n _ => [⟨some t, quadTransform p sz, DEFAULTCOLOR, n⟩]
  | .drawQuad_vec2_textured p sz t n _ =>
      [⟨some t, quadTransform ⟨p.x, p.y, 0⟩ sz, DEFAULTCOLOR, n⟩]
  | .drawRotatedQuad p sz r c => [⟨none, rotatedQuadTransform T p sz r, c, 1⟩]
  | .drawRotatedQuad_vec2 p sz r c => [⟨none, rotatedQuadTransform T ⟨p.x, p.y, 0⟩ sz r, c, 1⟩]
  | .drawRotatedQuad_textured p sz r t n _ =>
      [⟨some t, rotatedQuadTransform T p sz r, DEFAULTCOLOR, n⟩]
  | .drawRotatedQuad_vec2_textured p sz r t n _ =>
      [⟨some t, rotatedQuadTransform T ⟨p.x, p.y, 0⟩ sz r, DEFAULTCOLOR, n⟩]
  | .drawCircle p sz c =>
      (List.range 3).map (fun i => ⟨none, rotatedQuadTransform T p sz (0 + (i : α)), c, 1⟩)
  | .drawCircle_vec2 p sz c =>
      (List.range 3).map
        (fun i => ⟨none, rotatedQuadTransform T ⟨p.x, p.y, 0⟩ sz (0 + (i : α)), c, 1⟩)
  | .drawCircle_textured p sz t =>
      (List.range 3).map
        (fun i => ⟨some t, rotatedQuadTransform T p sz (0 + (i : α)), DEFAULTCOLOR, 1⟩)
  | .drawCircle_vec2_textured p sz t =>
      (List.range 3).map
        (fun i => ⟨some t, rotatedQuadTransform T ⟨p.x, p.y, 0⟩ sz (0 + (i : α)),
          DEFAULTCOLOR, 1⟩)
  | .endScene => []

/-- The number of quads a call submits. -/
def Op.quads : Op α → Nat
  | .drawCircle _ _ _ => 3
  | .drawCircle_vec2 _ _ _ => 3
  | .drawCircle_textured _ _ _ => 3
  | .drawCircle_vec2_textured _ _ _ => 3
  | .endScene => 0
  | _ => 1

/-- The texture argument of a call, for the textured overloads. -/
def Op.texture? : Op α → Option Texture
  | .drawQuad_textured _ _ t _ _ => some t
  | .drawQuad_vec2_textured _ _ t _ _ => some t
  | .drawRotatedQuad_textured _ _ _ t _ _ => some t
  | .drawRotatedQuad_vec2_textured _ _ _ t _ _ => some t
  | .drawCircle_textured _ _ t => some t
  | .drawCircle_vec2_textured _ _ t => some t
  | _ => none

/-- Whether the call is `endScene`. -/
def Op.isEndScene : Op α → Bool
  | .endScene => true
  | _ => false

/-- Whether the call is a textured `drawQuad` or `drawRotatedQuad` (either position type) whose
texture has the renderer ID `id`. -/
def Op.isTexturedQuadOf (id : Nat) : Op α → Prop
  | .drawQuad_textured _ _ t _ _ => t.rendererID = id
  | .drawQuad_vec2_textured _ _ t _ _ => t.rendererID = id
  | .drawRotatedQuad_textured _ _ _ t _ _ => t.rendererID = id
  | .drawRotatedQuad_vec2_textured _ _ _ t _ _ => t.rendererID = id
  | _ => False

/-- Slot `j` is one of the bound slots `1 .. textureSlotIndex - 1` and holds a texture of
renderer ID `id`. -/
def InSlot (s : RendererState α) (id : Nat) (j : Nat) : Prop :=
  1 ≤ j ∧ j < s.textureSlotIndex ∧ (s.textureSlots j).rendererID = id

/-- The bound slots `1 .. textureSlotIndex - 1` hold pairwise distinct texture identities. -/
def SlotsDistinct (s : RendererState α) : Prop :=
  ∀ i j, 1 ≤ i → i < j → j < s.textureSlotIndex →
    (s.textureSlots i).rendererID ≠ (s.textureSlots j).rendererID

/-- The invariant of a scene in progress: the cursor invariant, a slot index that is at least
1 and at most one more than the number of quads in the batch, and distinct bound slots. -/
def SceneInv (s : RendererState α) : Prop :=
  CursorInv s ∧ 1 ≤ s.textureSlotIndex ∧ s.textureSlotIndex ≤ s.quadIndexCount / 6 + 1 ∧
    SlotsDistinct s

/-- The renderer IDs of the textures a sequence of calls submits. -/
def textureIDs (ops : List (Op α)) : List Nat :=
  (ops.filterMap Op.texture?).map Texture.rendererID

/-- The number of quads a sequence of calls submits. -/
def totalQuads (ops : List (Op α)) : Nat := (ops.map Op.quads).sum

/-- The `texID` of the vertex stored `a` cells below the cursor at the moment call number `i`
of `ops` returns; the vertices the call stored are the `4 * quads` cells below the cursor. -/
def texIDWritten (T : Trig α) (ops : List (Op α)) (s : RendererState α) (i a : Nat) : α :=
  ((run T (ops.take (i + 1)) s).quadVertexBufferStore
    ((run T (ops.take (i + 1)) s).quadVertexBufferPtr - 1 - a)).texID

/-- Slot assignment is stable over `ops` started in `s`: any two textured calls of the same
texture identity write the same `texID` in all their vertices. -/
def StableTexIDs (T : Trig α) (ops : List (Op α)) (s : RendererState α) : Prop :=
  ∀ (i j : Nat) (opi opj : Op α) (ti tj : Texture),
    ops[i]? = some opi → ops[j]? = some opj →
    opi.texture? = some ti → opj.texture? = some tj → ti.rendererID = tj.rendererID →
    ∀ a b, a < 4 * opi.quads → b < 4 * opj.quads →
      texIDWritten T ops s i a = texIDWritten T ops s j b

/-- The renderer IDs held by the bound slots `1 .. textureSlotIndex - 1` all belong to `ids`. -/
def SlotIDsIn (ids : List Nat) (s : RendererState α) : Prop :=
  ∀ i, 1 ≤ i → i < s.textureSlotIndex → (s.textureSlots i).rendererID ∈ ids

/-- Every recorded store into the texture-slot table lies inside it. -/
def StoresInSlotTable (log : List (Event α)) : Prop :=
  ∀ index, Event.slotStore index ∈ log → index < MAXTEXTURESLOTS

/-- The three indices of a mesh index reference entries inside the attribute arrays: every
subscript `loadModel` forms from it is non-negative and below the size of its array. -/
def MeshIndex.inRange (a : Attrib α) (m : MeshIndex) : Prop :=
  (0 ≤ m.vertex_index ∧ m.vertex_index * 3 + 2 < a.vertices.length) ∧
  (0 ≤ m.normal_index ∧ m.normal_index * 3 + 2 < a.normals.length) ∧
  (0 ≤ m.texcoord_index ∧ m.texcoord_index * 2 + 1 < a.texcoords.length)

instance MeshIndex.decidableInRange (a : Attrib α) (m : MeshIndex) : Decidable (m.inRange a) := by
  unfold MeshIndex.inRange
  infer_instance

/-- All mesh indices of all shapes of a raw shape are in range. -/
def RawShape.allInRange (s : RawShape α) : Prop :=
  ∀ shape ∈ s.shapes, ∀ m ∈ shape.indices, m.inRange s.attrib

instance RawShape.decidableAllInRange (s : RawShape α) : Decidable s.allInRange := by
  unfold RawShape.allInRange
  infer_instance

/-- The vertex the specification assigns to a mesh index: position
`(vertices[3*vi], vertices[3*vi+1], vertices[3*vi+2])` plus the world position, normal
`normals[3*ni .. 3*ni+2]`, texture coordinate `texcoords[2*ti .. 2*ti+1]`, the supplied colour
and texture id. -/
def specVertex (s : RawShape α) (position : Vec3 α) (color : Vec4 α) (texID : Int)
    (m : MeshIndex) : PolyVertex α :=
  { position := Vec3.add
      ⟨s.attrib.vertices.getD (3 * m.vertex_index.toNat) 0,
       s.attrib.vertices.getD (3 * m.vertex_index.toNat + 1) 0,
       s.attrib.vertices.getD (3 * m.vertex_index.toNat + 2) 0⟩ position
    normal :=
      ⟨s.attrib.normals.getD (3 * m.normal_index.toNat) 0,
       s.attrib.normals.getD (3 * m.normal_index.toNat + 1) 0,
       s.attrib.normals.getD (3 * m.normal_index.toNat + 2) 0⟩
    color := color
    texCoord :=
      ⟨s.attrib.texcoords.getD (2 * m.texcoord_index.toNat) 0,
       s.attrib.texcoords.getD (2 * m.texcoord_index.toNat + 1) 0⟩
    texID := (texID : α) }

/-- The vertices the specification assigns to a raw shape: one per mesh index, shapes in order,
indices in order. -/
def specVertices (s : RawShape α) (position : Vec3 α) (color : Vec4 α) (texID : Int) :
    List (PolyVertex α) :=
  s.shapes.flatMap (fun shape => shape.indices.map (specVertex s position color texID))

/-- One subscript formed by `loadModel`: the array, the index and the size of the array. -/
structure Subscript where
  array : AttribArray
  index : Int
  size : Nat
deriving DecidableEq

/-- The subscript is outside its array: negative, or not below the size. -/
def Subscript.outOfBounds (x : Subscript) : Bool :=
  decide (x.index < 0 ∨ (x.size : Int) ≤ x.index)

/-- The read outside the array made by a subscript. -/
def Subscript.fault (x : Subscript) : Fault := Fault.outOfBoundsRead x.array x.index x.size

/-- The eight subscripts the body of the inner loop of `loadModel` forms for one mesh index, in
the order of the source text: three on `attrib.vertices`, three on `attrib.normals`, two on
`attrib.texcoords`. -/
def MeshIndex.subscripts (a : Attrib α) (m : MeshIndex) : List Subscript :=
  [⟨AttribArray.vertices, m.vertex_index * 3, a.vertices.length⟩,
   ⟨AttribArray.vertices, m.vertex_index * 3 + 1, a.vertices.length⟩,
   ⟨AttribArray.vertices, m.vertex_index * 3 + 2, a.vertices.length⟩,
   ⟨AttribArray.normals, m.normal_index * 3, a.normals.length⟩,
   ⟨AttribArray.normals, m.normal_index * 3 + 1, a.normals.length⟩,
   ⟨AttribArray.normals, m.normal_index * 3 + 2, a.normals.length⟩,
   ⟨AttribArray.texcoords, m.texcoord_index * 2, a.texcoords.length⟩,
   ⟨AttribArray.texcoords, m.texcoord_index * 2 + 1, a.texcoords.length⟩]

/-- The subscripts formed over a list of mesh indices, in iteration order. -/
def meshSubscripts (a : Attrib α) (indices : List MeshIndex) : List Subscript :=
  indices.flatMap (MeshIndex.subscripts a)

/-- The subscripts formed over a list of shapes, in iteration order. -/
def shapesSubscripts (a : Attrib α) (shapes : List Shape) : List Subscript :=
  shapes.flatMap (fun shape => meshSubscripts a shape.indices)

/-- All subscripts `loadModel` forms on a raw shape, in iteration order: shapes in order, mesh
indices in order, the eight subscripts of each index in order. -/
def RawShape.subscripts (s : RawShape α) : List Subscript := shapesSubscripts s.attrib s.shapes

/-- The first subscript, in iteration order, that is outside its array, if there is one. -/
def RawShape.firstOutOfBounds (s : RawShape α) : Option Subscript :=
  s.subscripts.find? Subscript.outOfBounds

/-- The run reaches a read outside an attribute array: the subscript is negative or not below
the size of the array. -/
def ReadsPastBound {β : Type} (r : Except Fault β) : Prop :=
  ∃ array index size, r = Except.error (Fault.outOfBoundsRead array index size) ∧
    (index < 0 ∨ (size : Int) ≤ index)

end predicates

/-! ## Sample inputs -/

/-- A stand-in for the trigonometric functions over `ℚ`, for runs that do not rotate. -/
def sampleTrig : Trig ℚ := ⟨fun _ => 1, fun _ => 0, fun d => d⟩

/-- The white placeholder texture of the sample runs. -/
def sampleWhite : Texture := ⟨1, 1, 1⟩

/-- An orthographic camera with the identity view-projection matrix. -/
def sampleCamera : Renderer.SceneCamera ℚ := Renderer.SceneCamera.orthographic ⟨Mat4.identity⟩

/-- The renderer right after construction. -/
def sampleState : RendererState ℚ := Renderer.init sampleWhite

/-- The renderer right after construction and `beginScene`. -/
def sampleScene : RendererState ℚ := Renderer.beginSceneWith sampleCamera sampleState

/-- A scene holding `n` copies of one vertex in its 3D list. -/
def sceneWithVertices (n : Nat) : RendererState ℚ :=
  { sampleScene with
    vertices := List.replicate n ⟨⟨0, 0, 0⟩, ⟨0, 0, 1⟩, ⟨1, 1, 1, 1⟩, ⟨0, 0⟩, 0⟩ }

/-- Two textured quads of the same texture identity, one plain and one rotated. -/
def sampleTexturedPair : List (Op ℚ) :=
  [Op.drawQuad_textured ⟨0, 0, 0⟩ ⟨1, 1⟩ ⟨7, 2, 2⟩ 1 ⟨1, 1, 1, 1⟩,
   Op.drawRotatedQuad_textured ⟨1, 0, 0⟩ ⟨1, 1⟩ 0 ⟨7, 2, 2⟩ 1 ⟨1, 1, 1, 1⟩]

/-- A raw shape with a single triangle over three positions, one normal and one texture
coordinate. -/
def sampleTriangle : RawShape ℚ :=
  { attrib :=
      { vertices := [0, 0, 0, 1, 0, 0, 0, 1, 0]
        normals := [0, 0, 1]
        texcoords := [0, 0] }
    shapes := [⟨[⟨0, 0, 0⟩, ⟨1, 0, 0⟩, ⟨2, 0, 0⟩]⟩] }

/-- The raw shape `sampleTriangle` with the third corner referencing position 3 of 3. -/
def brokenTriangle : RawShape ℚ :=
  { attrib := sampleTriangle.attrib
    shapes := [⟨[⟨0, 0, 0⟩, ⟨1, 0, 0⟩, ⟨3, 0, 0⟩]⟩] }

/-- A scene of `n` textured quads with pairwise distinct textures (renderer IDs `100 ..`). -/
def manyTextures (n : Nat) : List (Op ℚ) :=
  (List.range n).map
    (fun i => Op.drawQuad_textured ⟨0, 0, 0⟩ ⟨1, 1⟩ ⟨100 + i, 2, 2⟩ 1 ⟨1, 1, 1, 1⟩)

/-- Two textured quads of one texture (renderer ID 500) that is not among those of
`manyTextures`. -/
def lateTexturePair : List (Op ℚ) :=
  [Op.drawQuad_textured ⟨0, 0, 0⟩ ⟨1, 1⟩ ⟨500, 2, 2⟩ 1 ⟨1, 1, 1, 1⟩,
   Op.drawQuad_textured ⟨1, 0, 0⟩ ⟨1, 1⟩ ⟨500, 2, 2⟩ 1 ⟨1, 1, 1, 1⟩]

/-- A scene of draw calls only: a quad of texture 7, a quad of texture 8, `n` coloured quads,
and a quad of texture 8 again. -/
def overflowSceneOf (n : Nat) : List (Op ℚ) :=
  [Op.drawQuad_textured ⟨0, 0, 0⟩ ⟨1, 1⟩ ⟨7, 2, 2⟩ 1 ⟨1, 1, 1, 1⟩,
   Op.drawQuad_textured ⟨0, 0, 0⟩ ⟨1, 1⟩ ⟨8, 2, 2⟩ 1 ⟨1, 1, 1, 1⟩] ++
  (List.replicate n (Op.drawQuad ⟨0, 0, 0⟩ ⟨1, 1⟩ ⟨1, 1, 1, 1⟩) ++
    [Op.drawQuad_textured ⟨0, 0, 0⟩ ⟨1, 1⟩ ⟨8, 2, 2⟩ 1 ⟨1, 1, 1, 1⟩])

/-- The scene `overflowSceneOf` with `MAXQUADS - 2` coloured quads: the batch is full when the
last call is issued. -/
def overflowScene : List (Op ℚ) := overflowSceneOf 999998

end engine

/-! ## Basic facts about the primitive steps -/

namespace engine

open Renderer

section basic

variable {α : Type} [Field α]

theorem MAXINDICES_eq : MAXINDICES = 6000000 := by decide

theorem MAXVERTICES_eq : MAXVERTICES = 4000000 := by decide

theorem writeQuad_eq (tr : Mat4 α) (c : Vec4 α) (tex tile : α) (s : RendererState α) :
    writeQuad tr c tex tile s =
      pushVertex ⟨(tr.mulVec (quadVertexPositions 3)).xyz, c, textureCoordMapping 3, tex, tile⟩
      (pushVertex ⟨(tr.mulVec (quadVertexPositions 2)).xyz, c, textureCoordMapping 2, tex, tile⟩
      (pushVertex ⟨(tr.mulVec (quadVertexPositions 1)).xyz, c, textureCoordMapping 1, tex, tile⟩
      (pushVertex ⟨(tr.mulVec (quadVertexPositions 0)).xyz, c, textureCoordMapping 0, tex, tile⟩
        s))) := rfl

/-- The quad body: the loop of four stores followed by `quadIndexCount += 6`. -/
theorem quadBody_fields (tr : Mat4 α) (c : Vec4 α) (tex tile : α) (s : RendererState α) :
    let s' := bumpIndexCount (writeQuad tr c tex tile s)
    s'.quadIndexCount = u32 (s.quadIndexCount + 6) ∧
    s'.quadVertexBufferPtr = s.quadVertexBufferPtr + 4 ∧
    s'.textureSlots = s.textureSlots ∧
    s'.textureSlotIndex = s.textureSlotIndex ∧
    s'.whiteTexture = s.whiteTexture ∧
    s'.viewProjectionMatrix = s.viewProjectionMatrix ∧
    s'.vertices = s.vertices ∧
    s'.vertexCount = s.vertexCount ∧
    s'.log = s.log ++ [Event.vertexStore s.quadVertexBufferPtr,
      Event.vertexStore (s.quadVertexBufferPtr + 1),
      Event.vertexStore (s.quadVertexBufferPtr + 2),
      Event.vertexStore (s.quadVertexBufferPtr + 3)] := by
  simp [bumpIndexCount, writeQuad_eq, pushVertex]

/-- The arena after the quad body: the four cells at the cursor hold the new vertices, every
other cell is unchanged. -/
theorem quadBody_store (tr : Mat4 α) (c : Vec4 α) (tex tile : α) (s : RendererState α)
    (off : Nat) :
    (bumpIndexCount (writeQuad tr c tex tile s)).quadVertexBufferStore off =
      if off = s.quadVertexBufferPtr + 3 then
        ⟨(tr.mulVec (quadVertexPositions 3)).xyz, c, textureCoordMapping 3, tex, tile⟩
      else if off = s.quadVertexBufferPtr + 2 then
        ⟨(tr.mulVec (quadVertexPositions 2)).xyz, c, textureCoordMapping 2, tex, tile⟩
      else if off = s.quadVertexBufferPtr + 1 then
        ⟨(tr.mulVec (quadVertexPositions 1)).xyz, c, textureCoordMapping 1, tex, tile⟩
      else if off = s.quadVertexBufferPtr then
        ⟨(tr.mulVec (quadVertexPositions 0)).xyz, c, textureCoordMapping 0, tex, tile⟩
      else s.quadVertexBufferStore off := by
  simp [bumpIndexCount, writeQuad_eq, pushVertex, Function.update_apply]

end basic

section basicScene

variable {α : Type}

/-- The effect of `endScene` when there is something to draw. -/
theorem endScene_fields (s : RendererState α)
    (h : ¬ (s.quadIndexCount = 0 ∧ s.vertices.length = 0)) :
    let s' := endScene s
    s'.quadIndexCount = 0 ∧ s'.quadVertexBufferPtr = 0 ∧ s'.textureSlotIndex = 1 ∧
    s'.textureSlots = s.textureSlots ∧ s'.whiteTexture = s.whiteTexture ∧
    s'.quadVertexBufferStore = s.quadVertexBufferStore ∧
    s'.viewProjectionMatrix = s.viewProjectionMatrix ∧
    s'.vertices = [] ∧ s'.vertexCount = 0 ∧
    s'.log = s.log ++ ((List.range s.textureSlotIndex).map
        (fun i => Event.textureBind (s.textureSlots i) i) ++
      [Event.bufferData s.vertices.length, Event.shaderBind ShaderRef.lightingShader,
       Event.drawVAO (u32 s.vertices.length)]) := by
  rw [endScene, if_neg h]
  simp [emit, compileModel, submit]

theorem endScene_noop (s : RendererState α)
    (h : s.quadIndexCount = 0 ∧ s.vertices.length = 0) : endScene s = s := by
  rw [endScene, if_pos h]

end basicScene

end engine

namespace engine

open Renderer

section stepping

variable {α : Type} [Field α]

theorem drawCircle_eq (T : Trig α) (p : Vec3 α) (sz : Vec2 α) (c : Vec4 α)
    (s : RendererState α) :
    drawCircle T p sz c s =
      drawRotatedQuad T p sz (0 + ((2 : Nat) : α)) c
        (drawRotatedQuad T p sz (0 + ((1 : Nat) : α)) c
          (drawRotatedQuad T p sz (0 + ((0 : Nat) : α)) c s)) := rfl

theorem drawCircle_vec2_eq (T : Trig α) (p : Vec2 α) (sz : Vec2 α) (c : Vec4 α)
    (s : RendererState α) :
    drawCircle_vec2 T p sz c s =
      drawRotatedQuad_vec2 T p sz (0 + ((2 : Nat) : α)) c
        (drawRotatedQuad_vec2 T p sz (0 + ((1 : Nat) : α)) c
          (drawRotatedQuad_vec2 T p sz (0 + ((0 : Nat) : α)) c s)) := rfl

variable [DecidableEq α]

theorem drawCircle_textured_eq (T : Trig α) (p : Vec3 α) (sz : Vec2 α) (t : Texture)
    (s : RendererState α) :
    drawCircle_textured T p sz t s =
      drawRotatedQuad_textured T p sz (0 + ((2 : Nat) : α)) t 1 ⟨1, 1, 1, 1⟩
        (drawRotatedQuad_textured T p sz (0 + ((1 : Nat) : α)) t 1 ⟨1, 1, 1, 1⟩
          (drawRotatedQuad_textured T p sz (0 + ((0 : Nat) : α)) t 1 ⟨1, 1, 1, 1⟩ s)) := rfl

theorem drawCircle_vec2_textured_eq (T : Trig α) (p : Vec2 α) (sz : Vec2 α) (t : Texture)
    (s : RendererState α) :
    drawCircle_vec2_textured T p sz t s =
      drawRotatedQuad_vec2_textured T p sz (0 + ((2 : Nat) : α)) t 1 ⟨1, 1, 1, 1⟩
        (drawRotatedQuad_vec2_textured T p sz (0 + ((1 : Nat) : α)) t 1 ⟨1, 1, 1, 1⟩
          (drawRotatedQuad_vec2_textured T p sz (0 + ((0 : Nat) : α)) t 1 ⟨1, 1, 1, 1⟩ s)) :=
  rfl

/-- Induction principle for the drawing interface. A property `P` of states is preserved by
every call as soon as it is preserved by `endScene` and by the three phases every quad function
is made of: the overflow guard (`P` to `Q`), the texture resolution (`Q` to `R`, or nothing for
the coloured functions) and the quad body (`R` back to `P`). -/
theorem exec_preserves (T : Trig α) (P Q R : RendererState α → Prop)
    (hEnd : ∀ s, P s → P (endScene s))
    (hGuard : ∀ s, P s → Q (flushIfFull s))
    (hPlain : ∀ s, Q s → R s)
    (hResolve : ∀ t s, Q s → R (resolveTexture t s).2)
    (hBody : ∀ tr c tex tile s, R s → P (bumpIndexCount (writeQuad tr c tex tile s)))
    (op : Op α) (s : RendererState α) (h : P s) : P (op.exec T s) := by
  have hq : ∀ p sz c s, P s → P (drawQuad p sz c s) := fun p sz c s h =>
    hBody _ _ _ _ _ (hPlain _ (hGuard _ h))
  have hr : ∀ p sz r c s, P s → P (drawRotatedQuad T p sz r c s) := fun p sz r c s h =>
    hBody _ _ _ _ _ (hPlain _ (hGuard _ h))
  have hqt : ∀ p sz t n tint s, P s → P (drawQuad_textured p sz t n tint s) :=
    fun p sz t n tint s h => hBody _ _ _ _ _ (hResolve _ _ (hGuard _ h))
  have hrt : ∀ p sz r t n tint s, P s → P (drawRotatedQuad_textured T p sz r t n tint s) :=
    fun p sz r t n tint s h => hBody _ _ _ _ _ (hResolve _ _ (hGuard _ h))
  cases op with
  | drawQuad p sz c => exact hq _ _ _ _ h
  | drawQuad_vec2 p sz c => exact hq _ _ _ _ h
  | drawQuad_textured p sz t n tint => exact hqt p sz t n tint s h
  | drawQuad_vec2_textured p sz t n tint => exact hqt ⟨p.x, p.y, 0⟩ sz t n tint s h
  | drawRotatedQuad p sz r c => exact hr _ _ _ _ _ h
  | drawRotatedQuad_vec2 p sz r c => exact hr _ _ _ _ _ h
  | drawRotatedQuad_textured p sz r t n tint => exact hrt p sz r t n tint s h
  | drawRotatedQuad_vec2_textured p sz r t n tint =>
    exact hrt ⟨p.x, p.y, 0⟩ sz r t n tint s h
  | drawCircle p sz c =>
    show P (drawCircle T p sz c s)
    rw [drawCircle_eq]
    exact hr _ _ _ _ _ (hr _ _ _ _ _ (hr _ _ _ _ _ h))
  | drawCircle_vec2 p sz c =>
    show P (drawCircle_vec2 T p sz c s)
    rw [drawCircle_vec2_eq]
    exact hr _ _ _ _ _ (hr _ _ _ _ _ (hr _ _ _ _ _ h))
  | drawCircle_textured p sz t =>
    show P (drawCircle_textured T p sz t s)
    rw [drawCircle_textured_eq]
    exact hrt _ sz _ t 1 ⟨1, 1, 1, 1⟩ _ (hrt _ sz _ t 1 ⟨1, 1, 1, 1⟩ _
      (hrt _ sz _ t 1 ⟨1, 1, 1, 1⟩ _ h))
  | drawCircle_vec2_textured p sz t =>
    show P (drawCircle_vec2_textured T p sz t s)
    rw [drawCircle_vec2_textured_eq]
    exact hrt _ sz _ t 1 ⟨1, 1, 1, 1⟩ _ (hrt _ sz _ t 1 ⟨1, 1, 1, 1⟩ _
      (hrt _ sz _ t 1 ⟨1, 1, 1, 1⟩ _ h))
  | endScene => exact hEnd _ h

theorem run_nil (T : Trig α) (s : RendererState α) : run T [] s = s := rfl

theorem run_cons (T : Trig α) (op : Op α) (ops : List (Op α)) (s : RendererState α) :
    run T (op :: ops) s = run T ops (op.exec T s) := rfl

theorem run_append (T : Trig α) (ops₁ ops₂ : List (Op α)) (s : RendererState α) :
    run T (ops₁ ++ ops₂) s = run T ops₂ (run T ops₁ s) := by
  simp [run, List.foldl_append]

/-- A property preserved by every call holds after every sequence of calls. -/
theorem run_preserves (T : Trig α) (P : RendererState α → Prop)
    (hstep : ∀ (op : Op α) s, P s → P (op.exec T s))
    (ops : List (Op α)) (s : RendererState α) (h : P s) : P (run T ops s) := by
  induction ops generalizing s with
  | nil => exact h
  | cons op ops ih => exact ih _ (hstep op s h)

end stepping

end engine

namespace engine

open Renderer

section guard

variable {α : Type}

theorem flushIfFull_of_lt (s : RendererState α) (h : s.quadIndexCount < MAXINDICES) :
    flushIfFull s = s := by
  simp [flushIfFull, Nat.not_le.mpr h]

theorem flushIfFull_of_ge (s : RendererState α) (h : MAXINDICES ≤ s.quadIndexCount) :
    flushIfFull s = endScene s := by
  simp [flushIfFull, h]

end guard

section batching

variable {α : Type} [Field α] [DecidableEq α]

theorem resolveTexture_fields (t : Texture) (s : RendererState α) :
    let s' := (resolveTexture t s).2
    s'.quadIndexCount = s.quadIndexCount ∧ s'.quadVertexBufferPtr = s.quadVertexBufferPtr ∧
    s'.quadVertexBufferStore = s.quadVertexBufferStore ∧
    s'.whiteTexture = s.whiteTexture ∧ s'.vertices = s.vertices ∧
    s'.vertexCount = s.vertexCount ∧
    (s'.log = s.log ∨ s'.log = s.log ++ [Event.slotStore s.textureSlotIndex]) := by
  by_cases h : (scanSlots s.textureSlots t 1 (s.textureSlotIndex - 1) : α) = 0 <;>
    simp [resolveTexture, h]

/-- No call of the drawing interface adds an indexed draw call to the log. -/
theorem exec_no_indexed_draw (T : Trig α) (op : Op α) (s : RendererState α)
    (h : ∀ e ∈ s.log, Event.isDrawIndexed e = false) :
    ∀ e ∈ (op.exec T s).log, Event.isDrawIndexed e = false := by
  have hEnd : ∀ s : RendererState α, (∀ e ∈ s.log, Event.isDrawIndexed e = false) →
      ∀ e ∈ (endScene s).log, Event.isDrawIndexed e = false := by
    intro s h
    by_cases hc : s.quadIndexCount = 0 ∧ s.vertices.length = 0
    · rw [endScene_noop s hc]; exact h
    · intro e he
      rw [(endScene_fields s hc).2.2.2.2.2.2.2.2.2] at he
      simp only [List.mem_append, List.mem_map, List.mem_cons, List.mem_singleton,
        List.not_mem_nil, or_false] at he
      rcases he with he | ⟨i, -, rfl⟩ | rfl | rfl | rfl
      · exact h e he
      all_goals rfl
  refine exec_preserves T (fun s => ∀ e ∈ s.log, Event.isDrawIndexed e = false)
    (fun s => ∀ e ∈ s.log, Event.isDrawIndexed e = false)
    (fun s => ∀ e ∈ s.log, Event.isDrawIndexed e = false)
    hEnd ?_ (fun _ h => h) ?_ ?_ op s h
  · intro s h
    unfold flushIfFull
    split
    · exact hEnd s h
    · exact h
  · intro t s h e he
    rcases (resolveTexture_fields t s).2.2.2.2.2.2 with hl | hl
    · rw [hl] at he; exact h e he
    · rw [hl] at he
      simp only [List.mem_append, List.mem_singleton] at he
      rcases he with he | rfl
      · exact h e he
      · rfl
  · intro tr c tex tile s h e he
    rw [(quadBody_fields tr c tex tile s).2.2.2.2.2.2.2.2] at he
    simp only [List.mem_append, List.mem_cons, List.mem_singleton, List.not_mem_nil,
      or_false] at he
    rcases he with he | rfl | rfl | rfl | rfl
    · exact h e he
    all_goals rfl

/-- The log of any sequence of drawing calls, `endScene` included, contains no indexed draw
call: the only `drawIndexed` of the batch path is inside a commented-out block. -/
theorem trace_no_indexed_draw (T : Trig α) (ops : List (Op α)) (s : RendererState α) :
    indexedDrawCalls (trace T ops s) = 0 := by
  have h := run_preserves T (fun s => ∀ e ∈ s.log, Event.isDrawIndexed e = false)
    (exec_no_indexed_draw T) ops { s with log := [] } (by simp)
  unfold indexedDrawCalls trace
  rw [List.countP_eq_zero]
  intro e he
  simp [h e he]

omit [DecidableEq α] in
/-- One coloured `drawQuad` below capacity: no flush, four stores, six more indices. -/
theorem drawQuad_of_lt (p : Vec3 α) (sz : Vec2 α) (c : Vec4 α) (s : RendererState α)
    (h : s.quadIndexCount < MAXINDICES) :
    let s' := drawQuad p sz c s
    s'.quadIndexCount = s.quadIndexCount + 6 ∧
    s'.quadVertexBufferPtr = s.quadVertexBufferPtr + 4 ∧
    s'.textureSlots = s.textureSlots ∧ s'.textureSlotIndex = s.textureSlotIndex ∧
    s'.vertices = s.vertices ∧
    (∀ off, off < s.quadVertexBufferPtr →
      s'.quadVertexBufferStore off = s.quadVertexBufferStore off) := by
  have hb := quadBody_fields ((translate Mat4.identity p).mul
    (scale Mat4.identity ⟨sz.x, sz.y, 1⟩)) c 0 1 s
  have hu : u32 (s.quadIndexCount + 6) = s.quadIndexCount + 6 := by
    rw [MAXINDICES_eq] at h
    unfold u32
    omega
  simp only [drawQuad, flushIfFull_of_lt s h]
  refine ⟨by rw [hb.1, hu], hb.2.1, hb.2.2.1, hb.2.2.2.1, hb.2.2.2.2.2.2.1, ?_⟩
  intro off hoff
  rw [quadBody_store]
  simp [show off ≠ s.quadVertexBufferPtr + 3 by omega,
    show off ≠ s.quadVertexBufferPtr + 2 by omega,
    show off ≠ s.quadVertexBufferPtr + 1 by omega,
    show off ≠ s.quadVertexBufferPtr by omega]

/-- The number `n` of coloured `drawQuad` calls that fit below capacity accumulate without a
flush. -/
theorem run_replicate_drawQuad (T : Trig α) (p : Vec3 α) (sz : Vec2 α) (c : Vec4 α)
    (n : Nat) (s : RendererState α) (h : s.quadIndexCount + 6 * n ≤ MAXINDICES) :
    let s' := run T (List.replicate n (Op.drawQuad p sz c)) s
    s'.quadIndexCount = s.quadIndexCount + 6 * n ∧
    s'.quadVertexBufferPtr = s.quadVertexBufferPtr + 4 * n ∧
    s'.textureSlots = s.textureSlots ∧ s'.textureSlotIndex = s.textureSlotIndex ∧
    s'.vertices = s.vertices ∧
    (∀ off, off < s.quadVertexBufferPtr →
      s'.quadVertexBufferStore off = s.quadVertexBufferStore off) := by
  induction n generalizing s with
  | zero => simp [run_nil]
  | succ n ih =>
    have hlt : s.quadIndexCount < MAXINDICES := by omega
    have h1 := drawQuad_of_lt p sz c s hlt
    have h2 := ih (drawQuad p sz c s) (by rw [h1.1]; omega)
    simp only [List.replicate_succ, run_cons]
    rw [show Op.exec T (Op.drawQuad p sz c) s = drawQuad p sz c s from rfl]
    refine ⟨by rw [h2.1, h1.1]; ring, by rw [h2.2.1, h1.2.1]; ring, by rw [h2.2.2.1, h1.2.2.1],
      by rw [h2.2.2.2.1, h1.2.2.2.1], by rw [h2.2.2.2.2.1, h1.2.2.2.2.1], ?_⟩
    intro off hoff
    rw [h2.2.2.2.2.2 off (by rw [h1.2.1]; omega), h1.2.2.2.2.2 off hoff]

end batching

end engine

namespace engine

open Renderer

section cursor

variable {α : Type} [Field α] [DecidableEq α]

/-- The cursor invariant is preserved by every call, and so is, when tracked (`tracked`), the
bound on the recorded arena stores. -/
theorem exec_cursorInv (T : Trig α) (tracked : Prop) (op : Op α) (s : RendererState α)
    (h : CursorInv s ∧ (tracked → StoresInArena s.log)) :
    CursorInv (op.exec T s) ∧ (tracked → StoresInArena (op.exec T s).log) := by
  have hEnd : ∀ s : RendererState α, CursorInv s ∧ (tracked → StoresInArena s.log) →
      CursorInv (endScene s) ∧ (tracked → StoresInArena (endScene s).log) := by
    intro s h
    by_cases hc : s.quadIndexCount = 0 ∧ s.vertices.length = 0
    · rw [endScene_noop s hc]; exact h
    · have hf := endScene_fields s hc
      refine ⟨?_, ?_⟩
      · unfold CursorInv
        rw [hf.1, hf.2.1]
        simp
      · intro ht off he
        rw [hf.2.2.2.2.2.2.2.2.2] at he
        simp only [List.mem_append, List.mem_map, List.mem_cons, List.mem_singleton,
          List.not_mem_nil, or_false] at he
        rcases he with he | ⟨i, -, hi⟩ | hi | hi | hi
        · exact h.2 ht off he
        all_goals cases hi
  refine exec_preserves T (fun s => CursorInv s ∧ (tracked → StoresInArena s.log))
    (fun s => (CursorInv s ∧ (tracked → StoresInArena s.log)) ∧ s.quadIndexCount < MAXINDICES)
    (fun s => (CursorInv s ∧ (tracked → StoresInArena s.log)) ∧ s.quadIndexCount < MAXINDICES)
    hEnd ?_ (fun _ h => h) ?_ ?_ op s h
  · intro s h
    by_cases hlt : s.quadIndexCount < MAXINDICES
    · rw [flushIfFull_of_lt s hlt]; exact ⟨h, hlt⟩
    · have hge : MAXINDICES ≤ s.quadIndexCount := Nat.le_of_not_lt hlt
      rw [flushIfFull_of_ge s hge]
      refine ⟨hEnd s h, ?_⟩
      have hc : ¬ (s.quadIndexCount = 0 ∧ s.vertices.length = 0) := by
        rw [MAXINDICES_eq] at hge
        omega
      rw [(endScene_fields s hc).1, MAXINDICES_eq]
      omega
  · intro t s h
    have hf := resolveTexture_fields t s
    refine ⟨⟨?_, ?_⟩, ?_⟩
    · unfold CursorInv
      rw [hf.1, hf.2.1]
      exact h.1.1
    · intro ht off he
      rcases hf.2.2.2.2.2.2 with hl | hl
      · rw [hl] at he; exact h.1.2 ht off he
      · rw [hl] at he
        simp only [List.mem_append, List.mem_singleton] at he
        rcases he with he | hi
        · exact h.1.2 ht off he
        · cases hi
    · rw [hf.1]; exact h.2
  · intro tr c tex tile s h
    have hf := quadBody_fields tr c tex tile s
    obtain ⟨⟨⟨hp, hd, hle⟩, hst⟩, hlt⟩ := h
    rw [MAXINDICES_eq] at hle hlt
    have hu : u32 (s.quadIndexCount + 6) = s.quadIndexCount + 6 := by
      unfold u32
      omega
    refine ⟨?_, ?_⟩
    · unfold CursorInv
      rw [hf.1, hf.2.1, hu, MAXINDICES_eq]
      omega
    · intro ht off he
      rw [hf.2.2.2.2.2.2.2.2] at he
      simp only [List.mem_append, List.mem_cons, List.mem_singleton, List.not_mem_nil,
        or_false, Event.vertexStore.injEq] at he
      rw [MAXVERTICES_eq]
      rcases he with he | rfl | rfl | rfl | rfl
      · have := hst ht off he
        rw [MAXVERTICES_eq] at this
        exact this
      all_goals omega

/-- The cursor invariant and the store bound after a sequence of calls. -/
theorem run_cursorInv (T : Trig α) (tracked : Prop) (ops : List (Op α))
    (s : RendererState α) (h : CursorInv s ∧ (tracked → StoresInArena s.log)) :
    CursorInv (run T ops s) ∧ (tracked → StoresInArena (run T ops s).log) :=
  run_preserves T (fun s => CursorInv s ∧ (tracked → StoresInArena s.log))
    (exec_cursorInv T tracked) ops s h

omit [Field α] [DecidableEq α] in
/-- Both overloads of `beginScene` reset the index count, the cursor and the slot index, and
leave the slot table, the white texture and the 3D vertex list alone. -/
theorem beginSceneWith_fields (cam : SceneCamera α) (s : RendererState α) :
    (beginSceneWith cam s).quadIndexCount = 0 ∧ (beginSceneWith cam s).quadVertexBufferPtr = 0 ∧
    (beginSceneWith cam s).textureSlotIndex = 1 ∧
    (beginSceneWith cam s).textureSlots = s.textureSlots ∧
    (beginSceneWith cam s).whiteTexture = s.whiteTexture ∧
    (beginSceneWith cam s).vertices = s.vertices := by
  cases cam <;> simp [beginSceneWith, beginScene, beginScene_perspective, emit]

end cursor

section claims

variable {α : Type} [Field α] [DecidableEq α]

/-- C1, on the code as written. For every `N` with `N * 6 ≤ MAXINDICES`, the `N` `drawQuad`
calls made after `beginScene` leave `quadIndexCount = N * 6`, but the log of the whole scene,
`endScene` included, holds no indexed (2D quad) draw call at all, where the claim requires
exactly one, of index count `N * 6`. -/
theorem endScene_after_quads_issues_no_indexed_draw (T : Trig α)
    (cam : SceneCamera α) (s0 : RendererState α) (p : Vec3 α) (sz : Vec2 α)
    (c : Vec4 α) (n : Nat) (h : n * 6 ≤ MAXINDICES) :
    (run T (List.replicate n (Op.drawQuad p sz c)) (beginSceneWith cam s0)).quadIndexCount
        = n * 6 ∧
    indexedDrawCalls (trace T (quadsThenEnd n p sz c) (beginSceneWith cam s0)) = 0 ∧
    Event.drawIndexed (some (n * 6)) ∉ trace T (quadsThenEnd n p sz c) (beginSceneWith cam s0) := by
  have hb := beginSceneWith_fields cam s0
  have hr := run_replicate_drawQuad T p sz c n (beginSceneWith cam s0) (by rw [hb.1]; omega)
  have h0 := trace_no_indexed_draw T (quadsThenEnd n p sz c) (beginSceneWith cam s0)
  refine ⟨by rw [hr.1, hb.1]; omega, h0, ?_⟩
  intro hmem
  unfold indexedDrawCalls at h0
  rw [List.countP_eq_zero] at h0
  exact h0 _ hmem rfl

/-- C2, on the code as written. For every `N` with `N * 6 > MAXINDICES`, the log of
`beginScene`, `N` `drawQuad` calls and `endScene` holds no indexed (2D quad) draw call, where
the claim requires `ceil(N * 6 / MAXINDICES)` of them, a positive number. The other half of the
claim holds: every `endScene` that passes the nothing-to-draw test, called by the user or by
the overflow guard, leaves the write cursor at the arena start. -/
theorem overflow_issues_no_indexed_draw (T : Trig α)
    (cam : SceneCamera α) (s0 : RendererState α) (p : Vec3 α) (sz : Vec2 α)
    (c : Vec4 α) (n : Nat) (h : MAXINDICES < n * 6) :
    indexedDrawCalls (trace T (quadsThenEnd n p sz c) (beginSceneWith cam s0)) = 0 ∧
    2 ≤ (n * 6 + MAXINDICES - 1) / MAXINDICES ∧
    (∀ s : RendererState α, ¬ (s.quadIndexCount = 0 ∧ s.vertices.length = 0) →
      (endScene s).quadVertexBufferPtr = 0) ∧
    (∀ s : RendererState α, MAXINDICES ≤ s.quadIndexCount →
      (flushIfFull s).quadVertexBufferPtr = 0) := by
  refine ⟨trace_no_indexed_draw T _ _, ?_, fun s hs => (endScene_fields s hs).2.1, ?_⟩
  · rw [MAXINDICES_eq] at h ⊢
    omega
  · intro s hs
    rw [flushIfFull_of_ge s hs]
    refine (endScene_fields s ?_).2.1
    rw [MAXINDICES_eq] at hs
    omega

/-- C3. In every state reached from `beginScene` by a sequence of `drawQuad`, `drawRotatedQuad`,
`drawCircle` (all overloads) and `endScene` calls, the write cursor is at most the arena end, it
equals `4 * (quadIndexCount / 6)`, `quadIndexCount` is a multiple of 6 not above `MAXINDICES`,
and every vertex store made on the way was at an offset below `MAXVERTICES`. -/
theorem cursor_stays_in_arena (T : Trig α) (cam : SceneCamera α)
    (s0 : RendererState α) (ops : List (Op α)) :
    (run T ops (beginSceneWith cam s0)).quadVertexBufferPtr ≤ MAXVERTICES ∧
    (run T ops (beginSceneWith cam s0)).quadVertexBufferPtr
      = 4 * ((run T ops (beginSceneWith cam s0)).quadIndexCount / 6) ∧
    6 ∣ (run T ops (beginSceneWith cam s0)).quadIndexCount ∧
    (run T ops (beginSceneWith cam s0)).quadIndexCount ≤ MAXINDICES ∧
    ∀ offset, Event.vertexStore offset ∈ trace T ops (beginSceneWith cam s0) →
      offset < MAXVERTICES := by
  have hb := beginSceneWith_fields cam s0
  have h1 := (run_cursorInv T False ops (beginSceneWith cam s0)
    ⟨by unfold CursorInv; rw [hb.1, hb.2.1]; simp, False.elim⟩).1
  have h2 := (run_cursorInv T True ops { beginSceneWith cam s0 with log := [] }
    ⟨by unfold CursorInv; simp [hb.1, hb.2.1], fun _ => by simp [StoresInArena]⟩).2 trivial
  obtain ⟨hp, hd, hle⟩ := h1
  refine ⟨?_, hp, hd, hle, h2⟩
  rw [hp, MAXVERTICES_eq]
  rw [MAXINDICES_eq] at hle
  omega

end claims

end engine

namespace engine

open Renderer

section calls

variable {α : Type} [Field α] [DecidableEq α]

/-- Every call other than `endScene` is the succession of its quad submissions. -/
theorem exec_eq_calls (T : Trig α) (op : Op α) (s : RendererState α)
    (h : op.isEndScene = false) :
    op.exec T s = (op.calls T).foldl (fun s q => submitQuad q s) s := by
  cases op <;> first | rfl | cases h

theorem exec_endScene (T : Trig α) (s : RendererState α) :
    (Op.endScene : Op α).exec T s = endScene s := rfl

omit [DecidableEq α] in
theorem calls_length (T : Trig α) (op : Op α) : (op.calls T).length = op.quads := by
  cases op <;> rfl

omit [DecidableEq α] in
theorem calls_texture (T : Trig α) (op : Op α) (q : QuadCall α) (h : q ∈ op.calls T) :
    q.texture = op.texture? := by
  cases op <;> simp [Op.calls, List.range_succ] at h <;> rcases h with rfl | rfl | rfl <;> rfl

end calls

section slots

variable {α : Type} [Field α] [DecidableEq α]

theorem sameID_iff (a b : Texture) : a.sameID b = true ↔ a.rendererID = b.rendererID := by
  simp [Texture.sameID]

omit [DecidableEq α] in
/-- The scan yields `0.f` when no visited slot holds the texture. -/
theorem scanSlots_none (slots : Nat → Texture) (t : Texture) (i n : Nat)
    (h : ∀ k, i ≤ k → k < i + n → (slots k).rendererID ≠ t.rendererID) :
    (scanSlots slots t i n : α) = 0 := by
  induction n generalizing i with
  | zero => rfl
  | succ n ih =>
    have h0 : (slots i).sameID t = false := by
      rw [Bool.eq_false_iff, Ne, sameID_iff]
      exact h i (Nat.le_refl i) (by omega)
    rw [scanSlots, h0]
    simp only [Bool.false_eq_true, if_false]
    exact ih (i + 1) (fun k hk1 hk2 => h k (by omega) (by omega))

/-- The scan yields the first visited slot that holds the texture. -/
theorem scanSlots_found (slots : Nat → Texture) (t : Texture) (i n k : Nat)
    (hk1 : i ≤ k) (hk2 : k < i + n) (hid : (slots k).rendererID = t.rendererID)
    (hmin : ∀ k', i ≤ k' → k' < k → (slots k').rendererID ≠ t.rendererID) :
    (scanSlots slots t i n : α) = (k : α) := by
  induction n generalizing i with
  | zero => omega
  | succ n ih =>
    by_cases hik : i = k
    · subst hik
      rw [scanSlots, (sameID_iff _ _).mpr hid]
      simp
    · have h0 : (slots i).sameID t = false := by
        rw [Bool.eq_false_iff, Ne, sameID_iff]
        exact hmin i (Nat.le_refl i) (by omega)
      rw [scanSlots, h0]
      simp only [Bool.false_eq_true, if_false]
      exact ih (i + 1) (by omega) (by omega) (fun k' h1 h2 => hmin k' (by omega) h2)

omit [Field α] [DecidableEq α] in
/-- With distinct bound slots, a texture identity is bound to at most one slot. -/
theorem InSlot_unique (s : RendererState α) (id j k : Nat) (hd : SlotsDistinct s)
    (hj : InSlot s id j) (hk : InSlot s id k) : j = k := by
  rcases Nat.lt_trichotomy j k with h | h | h
  · exact absurd (hj.2.2.trans hk.2.2.symm) (hd j k hj.1 h hk.2.1)
  · exact h
  · exact absurd (hk.2.2.trans hj.2.2.symm) (hd k j hk.1 h hj.2.1)

variable [CharZero α]

/-- Resolution of a texture that is already bound: the scan returns its slot and nothing
changes. -/
theorem resolveTexture_found (t : Texture) (s : RendererState α) (k : Nat)
    (hd : SlotsDistinct s) (hk : InSlot s t.rendererID k) :
    resolveTexture t s = ((k : α), s) := by
  have hscan : (scanSlots s.textureSlots t 1 (s.textureSlotIndex - 1) : α) = (k : α) := by
    refine scanSlots_found _ _ _ _ _ hk.1 (by have := hk.2.1; omega) hk.2.2 ?_
    intro k' h1 h2
    have := hd k' k h1 h2 hk.2.1
    rwa [hk.2.2] at this
  have hne : (k : α) ≠ 0 := by
    have := hk.1
    exact Nat.cast_ne_zero.mpr (by omega)
  simp [resolveTexture, hscan, hne]

omit [CharZero α] in
/-- Resolution of a texture that is not bound yet: it is stored at `textureSlotIndex`, which is
incremented. -/
theorem resolveTexture_fresh (t : Texture) (s : RendererState α)
    (h : ∀ k, ¬ InSlot s t.rendererID k) :
    resolveTexture t s = ((s.textureSlotIndex : α),
      { s with
        textureSlots := Function.update s.textureSlots s.textureSlotIndex t
        textureSlotIndex := u32 (s.textureSlotIndex + 1)
        log := s.log ++ [Event.slotStore s.textureSlotIndex] }) := by
  have hscan : (scanSlots s.textureSlots t 1 (s.textureSlotIndex - 1) : α) = 0 := by
    refine scanSlots_none _ _ _ _ ?_
    intro k h1 h2 hid
    exact h k ⟨h1, by omega, hid⟩
  simp [resolveTexture, hscan]

end slots

end engine

namespace engine

open Renderer

section noflush

variable {α : Type} [Field α] [DecidableEq α] [CharZero α]

/-- The texture-resolution phase on a state satisfying the scene invariant and below
capacity. The resolved `texID` is the slot `k` the texture is bound to afterwards. -/
theorem resolveTexture_spec (t : Texture) (s : RendererState α) (hInv : SceneInv s)
    (hlt : s.quadIndexCount < MAXINDICES) :
    ∃ k : Nat, (resolveTexture t s).1 = (k : α) ∧ InSlot (resolveTexture t s).2 t.rendererID k ∧
      SlotsDistinct (resolveTexture t s).2 ∧
      s.textureSlotIndex ≤ (resolveTexture t s).2.textureSlotIndex ∧
      (resolveTexture t s).2.textureSlotIndex ≤ s.textureSlotIndex + 1 ∧
      (∀ i, i < s.textureSlotIndex →
        (resolveTexture t s).2.textureSlots i = s.textureSlots i) ∧
      ((∃ k0, InSlot s t.rendererID k0) →
        (resolveTexture t s).2 = s ∧ InSlot s t.rendererID k) ∧
      ((¬ ∃ k0, InSlot s t.rendererID k0) →
        k = s.textureSlotIndex ∧
        (resolveTexture t s).2.textureSlotIndex = s.textureSlotIndex + 1 ∧
        (resolveTexture t s).2.textureSlots s.textureSlotIndex = t ∧
        (resolveTexture t s).2.log = s.log ++ [Event.slotStore s.textureSlotIndex]) := by
  obtain ⟨⟨_, _, hle⟩, h1, hidx, hd⟩ := hInv
  by_cases hf : ∃ k0, InSlot s t.rendererID k0
  · obtain ⟨k, hk⟩ := hf
    rw [resolveTexture_found t s k hd hk]
    exact ⟨k, rfl, hk, hd, Nat.le_refl _, Nat.le_succ _, fun _ _ => rfl,
      fun _ => ⟨rfl, hk⟩, fun hn => absurd ⟨k, hk⟩ hn⟩
  · have hf' : ∀ k, ¬ InSlot s t.rendererID k := fun k hk => hf ⟨k, hk⟩
    rw [resolveTexture_fresh t s hf']
    have hu : u32 (s.textureSlotIndex + 1) = s.textureSlotIndex + 1 := by
      rw [MAXINDICES_eq] at hlt
      unfold u32
      omega
    refine ⟨s.textureSlotIndex, rfl, ⟨h1, ?_, ?_⟩, ?_, ?_, ?_, ?_, fun h => absurd h hf,
      fun _ => ⟨rfl, hu, ?_, rfl⟩⟩
    · show s.textureSlotIndex < u32 (s.textureSlotIndex + 1)
      omega
    · show (Function.update s.textureSlots s.textureSlotIndex t s.textureSlotIndex).rendererID
        = t.rendererID
      rw [Function.update_same]
    · intro i j hi hij hj
      change j < u32 (s.textureSlotIndex + 1) at hj
      show (Function.update s.textureSlots s.textureSlotIndex t i).rendererID
        ≠ (Function.update s.textureSlots s.textureSlotIndex t j).rendererID
      have hi' : i ≠ s.textureSlotIndex := by omega
      by_cases hjs : j = s.textureSlotIndex
      · subst hjs
        rw [Function.update_same, Function.update_noteq hi']
        intro heq
        exact hf' i ⟨hi, hij, heq⟩
      · rw [Function.update_noteq hjs, Function.update_noteq hi']
        exact hd i j hi hij (by omega)
    · show s.textureSlotIndex ≤ u32 (s.textureSlotIndex + 1)
      omega
    · show u32 (s.textureSlotIndex + 1) ≤ s.textureSlotIndex + 1
      omega
    · intro i hi
      show Function.update s.textureSlots s.textureSlotIndex t i = s.textureSlots i
      rw [Function.update_noteq (by omega)]
    · show Function.update s.textureSlots s.textureSlotIndex t s.textureSlotIndex = t
      rw [Function.update_same]

/-- One quad submission below capacity, on a state satisfying the scene invariant: no flush
happens, the invariant is kept, four cells are written at the cursor, earlier cells and bound
slots are untouched, and a textured submission writes the slot its texture is bound to. -/
theorem submitQuad_noflush (q : QuadCall α) (s : RendererState α) (hInv : SceneInv s)
    (hlt : s.quadIndexCount < MAXINDICES) :
    SceneInv (submitQuad q s) ∧
    (submitQuad q s).quadIndexCount = s.quadIndexCount + 6 ∧
    (submitQuad q s).quadVertexBufferPtr = s.quadVertexBufferPtr + 4 ∧
    s.textureSlotIndex ≤ (submitQuad q s).textureSlotIndex ∧
    (∀ i, i < s.textureSlotIndex → (submitQuad q s).textureSlots i = s.textureSlots i) ∧
    (∀ off, off < s.quadVertexBufferPtr →
      (submitQuad q s).quadVertexBufferStore off = s.quadVertexBufferStore off) ∧
    (q.texture = none → (submitQuad q s).textureSlotIndex = s.textureSlotIndex) ∧
    (∀ t, q.texture = some t →
      ∃ k : Nat, InSlot (submitQuad q s) t.rendererID k ∧
        (∀ m, m < 4 →
          ((submitQuad q s).quadVertexBufferStore (s.quadVertexBufferPtr + m)).texID
            = (k : α)) ∧
        ((∃ k0, InSlot s t.rendererID k0) →
          (submitQuad q s).textureSlotIndex = s.textureSlotIndex ∧ InSlot s t.rendererID k) ∧
        ((¬ ∃ k0, InSlot s t.rendererID k0) →
          k = s.textureSlotIndex ∧
          (submitQuad q s).textureSlotIndex = s.textureSlotIndex + 1 ∧
          (submitQuad q s).textureSlots s.textureSlotIndex = t)) := by
  have hInv' := hInv
  obtain ⟨⟨hp, hdv, hle⟩, h1, hidx, hd⟩ := hInv
  have hu : u32 (s.quadIndexCount + 6) = s.quadIndexCount + 6 := by
    rw [MAXINDICES_eq] at hlt
    unfold u32
    omega
  have hcur : ∀ qic ptr : Nat, ptr = s.quadVertexBufferPtr + 4 → qic = s.quadIndexCount + 6 →
      ptr = 4 * (qic / 6) ∧ 6 ∣ qic ∧ qic ≤ MAXINDICES := by
    intro qic ptr h1 h2
    rw [MAXINDICES_eq] at hlt ⊢
    omega
  have hcell : ∀ (tr : Mat4 α) (c : Vec4 α) (tex tile : α) (s1 : RendererState α) (m : Nat),
      m < 4 → ((bumpIndexCount (writeQuad tr c tex tile s1)).quadVertexBufferStore
        (s1.quadVertexBufferPtr + m)).texID = tex := by
    intro tr c tex tile s1 m hm
    rw [quadBody_store]
    have : m = 0 ∨ m = 1 ∨ m = 2 ∨ m = 3 := by omega
    rcases this with rfl | rfl | rfl | rfl <;> simp
  have hbelow : ∀ (tr : Mat4 α) (c : Vec4 α) (tex tile : α) (s1 : RendererState α) (off : Nat),
      off < s1.quadVertexBufferPtr →
      (bumpIndexCount (writeQuad tr c tex tile s1)).quadVertexBufferStore off
        = s1.quadVertexBufferStore off := by
    intro tr c tex tile s1 off hoff
    rw [quadBody_store]
    simp [show off ≠ s1.quadVertexBufferPtr + 3 by omega,
      show off ≠ s1.quadVertexBufferPtr + 2 by omega,
      show off ≠ s1.quadVertexBufferPtr + 1 by omega,
      show off ≠ s1.quadVertexBufferPtr by omega]
  cases hq : q.texture with
  | none =>
    have he : submitQuad q s = bumpIndexCount (writeQuad q.transform q.color 0 q.tileCount s) := by
      simp only [submitQuad, hq, flushIfFull_of_lt s hlt]
    have hf := quadBody_fields q.transform q.color 0 q.tileCount s
    rw [he]
    refine ⟨⟨hcur _ _ hf.2.1 (by rw [hf.1, hu]), by rw [hf.2.2.2.1]; exact h1, ?_, ?_⟩,
      by rw [hf.1, hu], hf.2.1, by rw [hf.2.2.2.1], fun i _ => by rw [hf.2.2.1],
      fun off hoff => hbelow _ _ _ _ _ off hoff, fun _ => hf.2.2.2.1,
      fun t ht => by cases ht⟩
    · rw [hf.2.2.2.1, hf.1, hu]; omega
    · intro i j hi hij hj
      rw [hf.2.2.2.1] at hj
      rw [hf.2.2.1]
      exact hd i j hi hij hj
  | some t =>
    have he : submitQuad q s = bumpIndexCount (writeQuad q.transform q.color
        (resolveTexture t s).1 q.tileCount (resolveTexture t s).2) := by
      simp only [submitQuad, hq, flushIfFull_of_lt s hlt]
    obtain ⟨k, hk1, hk2, hk3, hk4, hk5, hk6, hk7, hk8⟩ := resolveTexture_spec t s hInv' hlt
    have hr := resolveTexture_fields t s
    have hf := quadBody_fields q.transform q.color (resolveTexture t s).1 q.tileCount
      (resolveTexture t s).2
    rw [he]
    have hin : ∀ id j, InSlot (resolveTexture t s).2 id j →
        InSlot (bumpIndexCount (writeQuad q.transform q.color (resolveTexture t s).1
          q.tileCount (resolveTexture t s).2)) id j := by
      intro id j hj
      unfold InSlot
      rw [hf.2.2.2.1, hf.2.2.1]
      exact hj
    refine ⟨⟨hcur _ _ (by rw [hf.2.1, hr.2.1]) (by rw [hf.1, hr.1, hu]),
        by rw [hf.2.2.2.1]; omega, ?_, ?_⟩,
      by rw [hf.1, hr.1, hu], by rw [hf.2.1, hr.2.1], by rw [hf.2.2.2.1]; exact hk4,
      fun i hi => by rw [hf.2.2.1]; exact hk6 i hi,
      fun off hoff => by rw [hbelow _ _ _ _ _ off (by rw [hr.2.1]; exact hoff), hr.2.2.1],
      fun h => (by cases h), ?_⟩
    · rw [hf.2.2.2.1, hf.1, hr.1, hu]; omega
    · intro i j hi hij hj
      rw [hf.2.2.2.1] at hj
      rw [hf.2.2.1]
      exact hk3 i j hi hij hj
    · intro t' ht'
      cases ht'
      refine ⟨k, hin _ _ hk2, ?_, ?_, ?_⟩
      · intro m hm
        rw [← hr.2.1, hcell _ _ _ _ _ m hm, hk1]
      · intro hex
        refine ⟨?_, (hk7 hex).2⟩
        rw [hf.2.2.2.1, (hk7 hex).1]
      · intro hex
        refine ⟨(hk8 hex).1, ?_, ?_⟩
        · rw [hf.2.2.2.1]; exact (hk8 hex).2.1
        · rw [hf.2.2.1]; exact (hk8 hex).2.2.1

end noflush

end engine

namespace engine

open Renderer

section noflushRuns

variable {α : Type} [Field α] [DecidableEq α] [CharZero α]

omit [Field α] [DecidableEq α] [CharZero α] in
/-- A binding persists when the slot index does not decrease and bound slots are kept. -/
theorem InSlot_mono (s s' : RendererState α) (id j : Nat)
    (hidx : s.textureSlotIndex ≤ s'.textureSlotIndex)
    (hslots : ∀ i, i < s.textureSlotIndex → s'.textureSlots i = s.textureSlots i)
    (h : InSlot s id j) : InSlot s' id j :=
  ⟨h.1, Nat.lt_of_lt_of_le h.2.1 hidx, by rw [hslots j h.2.1]; exact h.2.2⟩

/-- A succession of quad submissions that fits below capacity, all with the same texture
argument: no flush happens; when the texture is already bound to slot `k`, every submission
writes `k` and the slot index does not move. -/
theorem submitQuads_noflush (qs : List (QuadCall α)) (tex : Option Texture)
    (htex : ∀ q ∈ qs, q.texture = tex) (s : RendererState α) (hInv : SceneInv s)
    (hcap : s.quadIndexCount + 6 * qs.length ≤ MAXINDICES) :
    SceneInv (qs.foldl (fun s q => submitQuad q s) s) ∧
    (qs.foldl (fun s q => submitQuad q s) s).quadIndexCount
      = s.quadIndexCount + 6 * qs.length ∧
    (qs.foldl (fun s q => submitQuad q s) s).quadVertexBufferPtr
      = s.quadVertexBufferPtr + 4 * qs.length ∧
    s.textureSlotIndex ≤ (qs.foldl (fun s q => submitQuad q s) s).textureSlotIndex ∧
    (∀ i, i < s.textureSlotIndex →
      (qs.foldl (fun s q => submitQuad q s) s).textureSlots i = s.textureSlots i) ∧
    (∀ off, off < s.quadVertexBufferPtr →
      (qs.foldl (fun s q => submitQuad q s) s).quadVertexBufferStore off
        = s.quadVertexBufferStore off) ∧
    (tex = none →
      (qs.foldl (fun s q => submitQuad q s) s).textureSlotIndex = s.textureSlotIndex) ∧
    (∀ t k, tex = some t → InSlot s t.rendererID k →
      (qs.foldl (fun s q => submitQuad q s) s).textureSlotIndex = s.textureSlotIndex ∧
      ∀ m, m < 4 * qs.length →
        ((qs.foldl (fun s q => submitQuad q s) s).quadVertexBufferStore
          (s.quadVertexBufferPtr + m)).texID = (k : α)) := by
  induction qs generalizing s with
  | nil =>
    refine ⟨hInv, rfl, rfl, Nat.le_refl _, fun _ _ => rfl, fun _ _ => rfl, fun _ => rfl, ?_⟩
    intro t k _ _
    exact ⟨rfl, fun m hm => absurd hm (by simp)⟩
  | cons q qs ih =>
    simp only [List.length_cons] at hcap
    have hlt : s.quadIndexCount < MAXINDICES := by omega
    obtain ⟨a1, a2, a3, a4, a5, a6, a7, a8⟩ := submitQuad_noflush q s hInv hlt
    obtain ⟨b1, b2, b3, b4, b5, b6, b7, b8⟩ := ih (fun q' hq' => htex q' (List.mem_cons_of_mem _ hq'))
      (submitQuad q s) a1 (by rw [a2]; omega)
    have hq : q.texture = tex := htex q (List.mem_cons_self _ _)
    simp only [List.foldl_cons, List.length_cons]
    refine ⟨b1, by rw [b2, a2]; ring, by rw [b3, a3]; ring, Nat.le_trans a4 b4,
      fun i hi => by rw [b5 i (Nat.lt_of_lt_of_le hi a4), a5 i hi],
      fun off hoff => by rw [b6 off (by rw [a3]; omega), a6 off hoff],
      fun hn => by rw [b7 hn, a7 (hq.trans hn)], ?_⟩
    intro t k ht hk
    obtain ⟨k', c1, c2, c3, -⟩ := a8 t (hq.trans ht)
    have hkk : k' = k := InSlot_unique s _ _ _ hInv.2.2.2 (c3 ⟨k, hk⟩).2 hk
    subst hkk
    obtain ⟨d1, d2⟩ := b8 t k' ht c1
    refine ⟨by rw [d1, (c3 ⟨k', hk⟩).1], ?_⟩
    intro m hm
    by_cases hm4 : m < 4
    · rw [b6 _ (by rw [a3]; omega)]
      exact c2 m hm4
    · have := d2 (m - 4) (by omega)
      rw [a3] at this
      rw [show s.quadVertexBufferPtr + m = s.quadVertexBufferPtr + 4 + (m - 4) by omega]
      exact this

/-- A call other than `endScene` whose quads fit below capacity: no flush happens, the scene
invariant is kept, `4 * quads` cells are written at the cursor, and a textured call writes, in
all of them, the slot its texture is bound to afterwards. -/
theorem exec_noflush (T : Trig α) (op : Op α) (s : RendererState α)
    (hne : op.isEndScene = false) (hInv : SceneInv s)
    (hcap : s.quadIndexCount + 6 * op.quads ≤ MAXINDICES) :
    SceneInv (op.exec T s) ∧
    (op.exec T s).quadIndexCount = s.quadIndexCount + 6 * op.quads ∧
    (op.exec T s).quadVertexBufferPtr = s.quadVertexBufferPtr + 4 * op.quads ∧
    s.textureSlotIndex ≤ (op.exec T s).textureSlotIndex ∧
    (∀ i, i < s.textureSlotIndex → (op.exec T s).textureSlots i = s.textureSlots i) ∧
    (∀ off, off < s.quadVertexBufferPtr →
      (op.exec T s).quadVertexBufferStore off = s.quadVertexBufferStore off) ∧
    (op.texture? = none → (op.exec T s).textureSlotIndex = s.textureSlotIndex) ∧
    (∀ t, op.texture? = some t →
      ∃ k : Nat, InSlot (op.exec T s) t.rendererID k ∧
        (∀ m, m < 4 * op.quads →
          ((op.exec T s).quadVertexBufferStore (s.quadVertexBufferPtr + m)).texID = (k : α)) ∧
        ((∃ k0, InSlot s t.rendererID k0) →
          (op.exec T s).textureSlotIndex = s.textureSlotIndex ∧ InSlot s t.rendererID k) ∧
        ((¬ ∃ k0, InSlot s t.rendererID k0) →
          k = s.textureSlotIndex ∧
          (op.exec T s).textureSlotIndex = s.textureSlotIndex + 1 ∧
          (op.exec T s).textureSlots s.textureSlotIndex = t)) := by
  have hlen := calls_length T op
  have htex := calls_texture T op
  rw [exec_eq_calls T op s hne]
  rw [← hlen] at hcap ⊢
  obtain ⟨a1, a2, a3, a4, a5, a6, a7, -⟩ :=
    submitQuads_noflush (op.calls T) op.texture? htex s hInv hcap
  refine ⟨a1, a2, a3, a4, a5, a6, a7, ?_⟩
  intro t ht
  cases hc : op.calls T with
  | nil =>
    exfalso
    rw [hc] at hlen
    cases op <;> simp [Op.quads, Op.isEndScene] at hlen hne
  | cons q qs =>
    rw [hc] at htex hcap
    simp only [List.length_cons] at hcap
    have hlt : s.quadIndexCount < MAXINDICES := by omega
    have hq : q.texture = some t := (htex q (List.mem_cons_self _ _)).trans ht
    obtain ⟨b1, b2, b3, b4, b5, b6, -, b8⟩ := submitQuad_noflush q s hInv hlt
    obtain ⟨k, c1, c2, c3, c4⟩ := b8 t hq
    obtain ⟨d1, d2, d3, d4, d5, d6, -, d8⟩ := submitQuads_noflush qs (some t)
      (fun q' hq' => (htex q' (List.mem_cons_of_mem _ hq')).trans ht) (submitQuad q s) b1
      (by rw [b2]; omega)
    obtain ⟨e1, e2⟩ := d8 t k rfl c1
    simp only [List.foldl_cons, List.length_cons]
    refine ⟨k, InSlot_mono _ _ _ _ d4 d5 c1, ?_, ?_, ?_⟩
    · intro m hm
      by_cases hm4 : m < 4
      · rw [d6 _ (by rw [b3]; omega)]
        exact c2 m hm4
      · have := e2 (m - 4) (by omega)
        rw [b3] at this
        rw [show s.quadVertexBufferPtr + m = s.quadVertexBufferPtr + 4 + (m - 4) by omega]
        exact this
    · intro hex
      exact ⟨by rw [e1, (c3 hex).1], (c3 hex).2⟩
    · intro hex
      refine ⟨(c4 hex).1, by rw [e1, (c4 hex).2.1], ?_⟩
      rw [d5 _ (by rw [(c4 hex).2.1]; omega)]
      exact (c4 hex).2.2

end noflushRuns

end engine

namespace engine

open Renderer

section sceneInv

variable {α : Type} [Field α] [DecidableEq α] [CharZero α]

omit [CharZero α] in
/-- A property preserved by `endScene` and by the quad submissions of a call is preserved by
the call. -/
theorem exec_preserves_calls (T : Trig α) (P : RendererState α → Prop) (op : Op α)
    (hEnd : ∀ s, P s → P (endScene s))
    (hCall : ∀ q ∈ op.calls T, ∀ s, P s → P (submitQuad q s))
    (s : RendererState α) (h : P s) : P (op.exec T s) := by
  by_cases he : op.isEndScene = false
  · rw [exec_eq_calls T op s he]
    have key : ∀ qs : List (QuadCall α), (∀ q ∈ qs, ∀ s, P s → P (submitQuad q s)) →
        ∀ s, P s → P (qs.foldl (fun s q => submitQuad q s) s) := by
      intro qs
      induction qs with
      | nil => exact fun _ s h => h
      | cons q qs ih =>
        intro hqs s h
        exact ih (fun q' hq' => hqs q' (List.mem_cons_of_mem _ hq')) _
          (hqs q (List.mem_cons_self _ _) s h)
    exact key _ hCall s h
  · cases op <;> first | exact absurd rfl he | exact hEnd s h

omit [Field α] [DecidableEq α] [CharZero α] in
theorem endScene_sceneInv (s : RendererState α) (h : SceneInv s) : SceneInv (endScene s) := by
  by_cases hc : s.quadIndexCount = 0 ∧ s.vertices.length = 0
  · rw [endScene_noop s hc]; exact h
  · have hf := endScene_fields s hc
    refine ⟨?_, ?_, ?_, ?_⟩
    · unfold CursorInv
      rw [hf.1, hf.2.1]
      simp
    · rw [hf.2.2.1]
    · rw [hf.2.2.1]; omega
    · intro i j hi hij hj
      rw [hf.2.2.1] at hj
      omega

omit [CharZero α] in
/-- At capacity, a quad submission is the flush followed by the same submission. -/
theorem submitQuad_of_ge (q : QuadCall α) (s : RendererState α)
    (h : MAXINDICES ≤ s.quadIndexCount) : submitQuad q s = submitQuad q (endScene s) := by
  have hc : ¬ (s.quadIndexCount = 0 ∧ s.vertices.length = 0) := by
    rw [MAXINDICES_eq] at h
    omega
  have h0 : (endScene s).quadIndexCount < MAXINDICES := by
    rw [(endScene_fields s hc).1, MAXINDICES_eq]
    omega
  simp only [submitQuad, flushIfFull_of_ge s h, flushIfFull_of_lt _ h0]

theorem submitQuad_sceneInv (q : QuadCall α) (s : RendererState α) (h : SceneInv s) :
    SceneInv (submitQuad q s) := by
  by_cases hlt : s.quadIndexCount < MAXINDICES
  · exact (submitQuad_noflush q s h hlt).1
  · have hge : MAXINDICES ≤ s.quadIndexCount := Nat.le_of_not_lt hlt
    have hc : ¬ (s.quadIndexCount = 0 ∧ s.vertices.length = 0) := by
      rw [MAXINDICES_eq] at hge
      omega
    rw [submitQuad_of_ge q s hge]
    refine (submitQuad_noflush q _ (endScene_sceneInv s h) ?_).1
    rw [(endScene_fields s hc).1, MAXINDICES_eq]
    omega

/-- The scene invariant holds in every state reached from `beginScene`. -/
theorem run_sceneInv (T : Trig α) (cam : SceneCamera α) (s0 : RendererState α)
    (ops : List (Op α)) : SceneInv (run T ops (beginSceneWith cam s0)) := by
  have hb := beginSceneWith_fields cam s0
  refine run_preserves T SceneInv ?_ ops _ ?_
  · intro op s h
    exact exec_preserves_calls T SceneInv op endScene_sceneInv
      (fun q _ s h => submitQuad_sceneInv q s h) s h
  · refine ⟨?_, ?_, ?_, ?_⟩
    · unfold CursorInv
      rw [hb.1, hb.2.1]
      simp
    · rw [hb.2.2.1]
    · rw [hb.2.2.1]; omega
    · intro i j hi hij hj
      rw [hb.2.2.1] at hj
      omega

omit [Field α] [DecidableEq α] [CharZero α] in
theorem isTexturedQuadOf_spec (id : Nat) (op : Op α) (h : op.isTexturedQuadOf id) :
    op.isEndScene = false ∧ op.quads = 1 ∧ ∃ t, op.texture? = some t ∧ t.rendererID = id := by
  cases op <;> first | exact ⟨rfl, rfl, _, rfl, h⟩ | exact h.elim

end sceneInv

end engine

namespace engine

open Renderer

section slotTable

variable {α : Type} [Field α] [DecidableEq α] [CharZero α]

omit [Field α] [DecidableEq α] [CharZero α] in
/-- Distinct bound slots whose identities are drawn from `ids` are at most as many as the
distinct members of `ids`. -/
theorem slotIndex_le_card (ids : List Nat) (s : RendererState α) (hd : SlotsDistinct s)
    (hin : SlotIDsIn ids s) : s.textureSlotIndex - 1 ≤ ids.dedup.length := by
  have h := Finset.card_le_card_of_injOn (s := Finset.Ico 1 s.textureSlotIndex)
    (t := ids.toFinset) (fun i => (s.textureSlots i).rendererID)
    (by
      intro i hi
      rw [Finset.mem_Ico] at hi
      rw [List.mem_toFinset]
      exact hin i hi.1 hi.2)
    (by
      intro i hi j hj hij
      rw [Finset.mem_coe, Finset.mem_Ico] at hi hj
      rcases Nat.lt_trichotomy i j with h | h | h
      · exact absurd hij (hd i j hi.1 h hj.2)
      · exact h
      · exact absurd hij.symm (hd j i hj.1 h hi.2))
  rw [Nat.card_Ico, List.card_toFinset] at h
  exact h

omit [CharZero α] in
theorem submitQuad_whiteTexture (q : QuadCall α) (s : RendererState α) :
    (submitQuad q s).whiteTexture = s.whiteTexture := by
  have hfl : (flushIfFull s).whiteTexture = s.whiteTexture := by
    unfold flushIfFull
    split
    · by_cases hc : s.quadIndexCount = 0 ∧ s.vertices.length = 0
      · rw [endScene_noop s hc]
      · exact (endScene_fields s hc).2.2.2.2.1
    · rfl
  unfold submitQuad
  split
  · rw [(quadBody_fields _ _ _ _ _).2.2.2.2.1, hfl]
  · rw [(quadBody_fields _ _ _ _ _).2.2.2.2.1, (resolveTexture_fields _ _).2.2.2.1, hfl]

/-- The slot stores of a quad submission below capacity: at most one, at the slot index, which
it increments. -/
theorem submitQuad_slotStores (q : QuadCall α) (s : RendererState α) (hInv : SceneInv s)
    (hlt : s.quadIndexCount < MAXINDICES) (i : Nat)
    (hi : Event.slotStore i ∈ (submitQuad q s).log) :
    Event.slotStore i ∈ s.log ∨
      (i = s.textureSlotIndex ∧ (submitQuad q s).textureSlotIndex = s.textureSlotIndex + 1) := by
  have hbody : ∀ (tex : α) (s1 : RendererState α),
      Event.slotStore i ∈ (bumpIndexCount (writeQuad q.transform q.color tex q.tileCount s1)).log →
      Event.slotStore i ∈ s1.log := by
    intro tex s1 h
    rw [(quadBody_fields _ _ _ _ _).2.2.2.2.2.2.2.2] at h
    simpa using h
  cases hq : q.texture with
  | none =>
    have he : submitQuad q s = bumpIndexCount (writeQuad q.transform q.color 0 q.tileCount s) := by
      simp only [submitQuad, hq, flushIfFull_of_lt s hlt]
    rw [he] at hi
    exact Or.inl (hbody _ _ hi)
  | some t =>
    have he : submitQuad q s = bumpIndexCount (writeQuad q.transform q.color
        (resolveTexture t s).1 q.tileCount (resolveTexture t s).2) := by
      simp only [submitQuad, hq, flushIfFull_of_lt s hlt]
    obtain ⟨k, -, -, -, -, -, -, hk7, hk8⟩ := resolveTexture_spec t s hInv hlt
    have hi' : Event.slotStore i ∈ (resolveTexture t s).2.log := by
      rw [he] at hi
      exact hbody _ _ hi
    by_cases hex : ∃ k0, InSlot s t.rendererID k0
    · rw [(hk7 hex).1] at hi'
      exact Or.inl hi'
    · rw [(hk8 hex).2.2.2] at hi'
      simp only [List.mem_append, List.mem_singleton, Event.slotStore.injEq] at hi'
      rcases hi' with hi' | hi'
      · exact Or.inl hi'
      · refine Or.inr ⟨hi', ?_⟩
        rw [he, (quadBody_fields _ _ _ _ _).2.2.2.1]
        exact (hk8 hex).2.1

omit [Field α] [DecidableEq α] [CharZero α] in
theorem mem_textureIDs (ops : List (Op α)) (op : Op α) (t : Texture) (hop : op ∈ ops)
    (ht : op.texture? = some t) : t.rendererID ∈ textureIDs ops := by
  unfold textureIDs
  rw [List.mem_map]
  exact ⟨t, List.mem_filterMap.mpr ⟨op, hop, ht⟩, rfl⟩

omit [CharZero α] in
/-- A property preserved by each call of a sequence holds after the sequence. -/
theorem run_preserves_mem (T : Trig α) (P : RendererState α → Prop) (ops : List (Op α))
    (hstep : ∀ op ∈ ops, ∀ s, P s → P (op.exec T s))
    (s : RendererState α) (h : P s) : P (run T ops s) := by
  induction ops generalizing s with
  | nil => exact h
  | cons op ops ih =>
    exact ih (fun o ho => hstep o (List.mem_cons_of_mem _ ho)) _
      (hstep op (List.mem_cons_self _ _) s h)

omit [Field α] [DecidableEq α] [CharZero α] in
theorem endScene_slotTable (ids : List Nat) (tracked white : Prop) (s : RendererState α)
    (h : SceneInv s ∧ SlotIDsIn ids s ∧ (white → s.textureSlots 0 = s.whiteTexture) ∧
      (tracked → ∀ i, Event.slotStore i ∈ s.log → i ≤ ids.dedup.length)) :
    SceneInv (endScene s) ∧ SlotIDsIn ids (endScene s) ∧
      (white → (endScene s).textureSlots 0 = (endScene s).whiteTexture) ∧
      (tracked → ∀ i, Event.slotStore i ∈ (endScene s).log → i ≤ ids.dedup.length) := by
  by_cases hc : s.quadIndexCount = 0 ∧ s.vertices.length = 0
  · rw [endScene_noop s hc]; exact h
  · have he := endScene_fields s hc
    refine ⟨endScene_sceneInv s h.1, ?_, ?_, ?_⟩
    · intro i hi1 hi2
      rw [he.2.2.1] at hi2
      omega
    · intro hwt
      rw [he.2.2.2.1, he.2.2.2.2.1]
      exact h.2.2.1 hwt
    · intro ht i hi
      rw [he.2.2.2.2.2.2.2.2.2] at hi
      simp only [List.mem_append, List.mem_map, List.mem_cons, List.mem_singleton,
        List.not_mem_nil, or_false] at hi
      rcases hi with hi | ⟨_, -, hi⟩ | hi | hi | hi
      · exact h.2.2.2 ht i hi
      all_goals cases hi

/-- The invariant behind the slot-table bound: the scene invariant, bound identities drawn from
`ids`, the white texture in slot 0 (when it is there at the start) and, when tracked, every
recorded slot store at an index not above the number of distinct members of `ids`. -/
theorem submitQuad_slotTable (ids : List Nat) (tracked white : Prop) (q : QuadCall α)
    (hq : ∀ t, q.texture = some t → t.rendererID ∈ ids) (s : RendererState α)
    (h : SceneInv s ∧ SlotIDsIn ids s ∧ (white → s.textureSlots 0 = s.whiteTexture) ∧
      (tracked → ∀ i, Event.slotStore i ∈ s.log → i ≤ ids.dedup.length)) :
    SceneInv (submitQuad q s) ∧ SlotIDsIn ids (submitQuad q s) ∧
      (white → (submitQuad q s).textureSlots 0 = (submitQuad q s).whiteTexture) ∧
      (tracked → ∀ i, Event.slotStore i ∈ (submitQuad q s).log → i ≤ ids.dedup.length) := by
  have key : ∀ s : RendererState α, s.quadIndexCount < MAXINDICES →
      (SceneInv s ∧ SlotIDsIn ids s ∧ (white → s.textureSlots 0 = s.whiteTexture) ∧
        (tracked → ∀ i, Event.slotStore i ∈ s.log → i ≤ ids.dedup.length)) →
      SceneInv (submitQuad q s) ∧ SlotIDsIn ids (submitQuad q s) ∧
        (white → (submitQuad q s).textureSlots 0 = (submitQuad q s).whiteTexture) ∧
        (tracked → ∀ i, Event.slotStore i ∈ (submitQuad q s).log → i ≤ ids.dedup.length) := by
    intro s hlt ⟨hInv, hids, hw, hlog⟩
    obtain ⟨a1, -, -, a4, a5, -, a7, a8⟩ := submitQuad_noflush q s hInv hlt
    have hids' : SlotIDsIn ids (submitQuad q s) := by
      intro i hi1 hi2
      by_cases hlt' : i < s.textureSlotIndex
      · rw [a5 i hlt']
        exact hids i hi1 hlt'
      · cases hqt : q.texture with
        | none => rw [a7 hqt] at hi2; omega
        | some t =>
          obtain ⟨k, -, -, b3, b4⟩ := a8 t hqt
          by_cases hex : ∃ k0, InSlot s t.rendererID k0
          · rw [(b3 hex).1] at hi2; omega
          · have hi : i = s.textureSlotIndex := by
              have := (b4 hex).2.1
              omega
            rw [hi, (b4 hex).2.2]
            exact hq t hqt
    refine ⟨a1, hids', ?_, ?_⟩
    · intro hwt
      rw [submitQuad_whiteTexture, a5 0 (by have := hInv.2.1; omega)]
      exact hw hwt
    · intro ht i hi
      rcases submitQuad_slotStores q s hInv hlt i hi with h | ⟨h1, h2⟩
      · exact hlog ht i h
      · have := slotIndex_le_card ids (submitQuad q s) a1.2.2.2 hids'
        omega
  by_cases hlt : s.quadIndexCount < MAXINDICES
  · exact key s hlt h
  · have hge : MAXINDICES ≤ s.quadIndexCount := Nat.le_of_not_lt hlt
    have hc : ¬ (s.quadIndexCount = 0 ∧ s.vertices.length = 0) := by
      rw [MAXINDICES_eq] at hge
      omega
    have he := endScene_fields s hc
    rw [submitQuad_of_ge q s hge]
    exact key (endScene s) (by rw [he.1, MAXINDICES_eq]; omega)
      (endScene_slotTable ids tracked white s h)

/-- The slot-table invariant after a sequence of calls whose textures have their identities in
`ids`. -/
theorem run_slotTable (T : Trig α) (ids : List Nat) (tracked white : Prop)
    (ops : List (Op α))
    (hops : ∀ op ∈ ops, ∀ t, op.texture? = some t → t.rendererID ∈ ids)
    (s : RendererState α)
    (h : SceneInv s ∧ SlotIDsIn ids s ∧ (white → s.textureSlots 0 = s.whiteTexture) ∧
      (tracked → ∀ i, Event.slotStore i ∈ s.log → i ≤ ids.dedup.length)) :
    SceneInv (run T ops s) ∧ SlotIDsIn ids (run T ops s) ∧
      (white → (run T ops s).textureSlots 0 = (run T ops s).whiteTexture) ∧
      (tracked → ∀ i, Event.slotStore i ∈ (run T ops s).log → i ≤ ids.dedup.length) := by
  refine run_preserves_mem T (fun s => SceneInv s ∧ SlotIDsIn ids s ∧
    (white → s.textureSlots 0 = s.whiteTexture) ∧
    (tracked → ∀ i, Event.slotStore i ∈ s.log → i ≤ ids.dedup.length)) ops ?_ s h
  intro op hop s hs
  refine exec_preserves_calls T _ op (endScene_slotTable ids tracked white) ?_ s hs
  intro q hq s hs
  refine submitQuad_slotTable ids tracked white q ?_ s hs
  intro t ht
  exact hops op hop t ((calls_texture T op q hq).symm.trans ht)

/-- In a scene that submits at most `MAXTEXTURESLOTS - 1` distinct texture identities the slot
index stays within the table and no store into `textureSlots` leaves it. -/
theorem run_storesInSlotTable (T : Trig α) (cam : SceneCamera α) (s0 : RendererState α)
    (ops : List (Op α)) (hd : (textureIDs ops).dedup.length ≤ MAXTEXTURESLOTS - 1) :
    (run T ops (beginSceneWith cam s0)).textureSlotIndex ≤ MAXTEXTURESLOTS ∧
    StoresInSlotTable (trace T ops (beginSceneWith cam s0)) := by
  have hb := beginSceneWith_fields cam s0
  have hInv := run_sceneInv T cam s0 []
  rw [run_nil] at hInv
  have hops : ∀ op ∈ ops, ∀ t, op.texture? = some t → t.rendererID ∈ textureIDs ops :=
    fun op hop t ht => mem_textureIDs ops op t hop ht
  have hids : SlotIDsIn (textureIDs ops) (beginSceneWith cam s0) := by
    intro i hi1 hi2
    rw [hb.2.2.1] at hi2
    omega
  obtain ⟨a1, a2, -, -⟩ := run_slotTable T (textureIDs ops) False False ops hops
    (beginSceneWith cam s0) ⟨hInv, hids, False.elim, False.elim⟩
  obtain ⟨-, -, -, b4⟩ := run_slotTable T (textureIDs ops) True False ops hops
    { beginSceneWith cam s0 with log := [] }
    ⟨hInv, hids, False.elim, fun _ i hi => by simp at hi⟩
  have hcard := slotIndex_le_card (textureIDs ops) _ a1.2.2.2 a2
  have hM : MAXTEXTURESLOTS = 32 := rfl
  rw [hM] at hd ⊢
  refine ⟨by omega, ?_⟩
  intro i hi
  have := b4 trivial i hi
  rw [hM]
  omega

end slotTable

end engine

namespace engine

open Renderer

section dedup

variable {α : Type} [Field α] [DecidableEq α] [CharZero α]

/-- Textured quads of one texture identity that is already bound to slot `j`: without flush,
every call writes `j` and the slot index stays put. -/
theorem run_sameTexture_found (T : Trig α) (id j : Nat) (ops : List (Op α))
    (hops : ∀ op ∈ ops, op.isTexturedQuadOf id) (s : RendererState α) (hInv : SceneInv s)
    (hcap : s.quadIndexCount + 6 * ops.length ≤ MAXINDICES) (hj : InSlot s id j) :
    SceneInv (run T ops s) ∧ InSlot (run T ops s) id j ∧
    (run T ops s).textureSlotIndex = s.textureSlotIndex ∧
    (∀ off, off < s.quadVertexBufferPtr →
      (run T ops s).quadVertexBufferStore off = s.quadVertexBufferStore off) ∧
    (∀ m, m < 4 * ops.length →
      ((run T ops s).quadVertexBufferStore (s.quadVertexBufferPtr + m)).texID = (j : α)) := by
  induction ops generalizing s with
  | nil => exact ⟨hInv, hj, rfl, fun _ _ => rfl, fun m hm => absurd hm (by simp)⟩
  | cons op ops ih =>
    simp only [List.length_cons] at hcap
    obtain ⟨hne, hq, t, ht, hid⟩ := isTexturedQuadOf_spec id op (hops op (List.mem_cons_self _ _))
    obtain ⟨a1, a2, a3, a4, a5, a6, -, a8⟩ := exec_noflush T op s hne hInv (by rw [hq]; omega)
    rw [hq] at a2 a3
    obtain ⟨k, b1, b2, b3, -⟩ := a8 t ht
    rw [hid] at b1 b3
    have hkj : k = j := InSlot_unique s _ _ _ hInv.2.2.2 (b3 ⟨j, hj⟩).2 hj
    subst hkj
    obtain ⟨c1, c2, c3, c4, c5⟩ := ih (fun o ho => hops o (List.mem_cons_of_mem _ ho))
      (op.exec T s) a1 (by rw [a2]; omega) b1
    rw [run_cons]
    refine ⟨c1, c2, by rw [c3, (b3 ⟨k, hj⟩).1],
      fun off hoff => by rw [c4 off (by rw [a3]; omega), a6 off hoff], ?_⟩
    intro m hm
    simp only [List.length_cons] at hm
    by_cases hm4 : m < 4
    · rw [c4 _ (by rw [a3]; omega)]
      exact b2 m (by rw [hq]; omega)
    · have := c5 (m - 4) (by omega)
      rw [a3] at this
      rw [show s.quadVertexBufferPtr + m = s.quadVertexBufferPtr + 4 * 1 + (m - 4) by omega]
      exact this

/-- Textured quads of one texture identity, at least one, without flush: they all write the
same slot `j`, which is the slot the identity was bound to, or else the next free slot, taken by
the first call. -/
theorem run_sameTexture (T : Trig α) (id : Nat) (ops : List (Op α)) (hne : ops ≠ [])
    (hops : ∀ op ∈ ops, op.isTexturedQuadOf id) (s : RendererState α) (hInv : SceneInv s)
    (hcap : s.quadIndexCount + 6 * ops.length ≤ MAXINDICES) :
    ∃ j : Nat, SceneInv (run T ops s) ∧ InSlot (run T ops s) id j ∧
      (∀ m, m < 4 * ops.length →
        ((run T ops s).quadVertexBufferStore (s.quadVertexBufferPtr + m)).texID = (j : α)) ∧
      ((∃ k0, InSlot s id k0) →
        (run T ops s).textureSlotIndex = s.textureSlotIndex ∧ InSlot s id j) ∧
      ((¬ ∃ k0, InSlot s id k0) →
        j = s.textureSlotIndex ∧ (run T ops s).textureSlotIndex = s.textureSlotIndex + 1) := by
  cases ops with
  | nil => exact absurd rfl hne
  | cons op ops =>
    simp only [List.length_cons] at hcap
    obtain ⟨hne, hq, t, ht, hid⟩ := isTexturedQuadOf_spec id op (hops op (List.mem_cons_self _ _))
    obtain ⟨a1, a2, a3, a4, a5, a6, -, a8⟩ := exec_noflush T op s hne hInv (by rw [hq]; omega)
    rw [hq] at a2 a3
    obtain ⟨k, b1, b2, b3, b4⟩ := a8 t ht
    rw [hid] at b1 b3 b4
    obtain ⟨c1, c2, c3, c4, c5⟩ := run_sameTexture_found T id k ops
      (fun o ho => hops o (List.mem_cons_of_mem _ ho)) (op.exec T s) a1 (by rw [a2]; omega) b1
    rw [run_cons]
    refine ⟨k, c1, c2, ?_, fun hex => ⟨by rw [c3, (b3 hex).1], (b3 hex).2⟩,
      fun hex => ⟨(b4 hex).1, by rw [c3, (b4 hex).2.1]⟩⟩
    intro m hm
    simp only [List.length_cons] at hm
    by_cases hm4 : m < 4
    · rw [c4 _ (by rw [a3]; omega)]
      exact b2 m (by rw [hq]; omega)
    · have := c5 (m - 4) (by omega)
      rw [a3] at this
      rw [show s.quadVertexBufferPtr + m = s.quadVertexBufferPtr + 4 * 1 + (m - 4) by omega]
      exact this

/-- C4, as the code behaves. Texture deduplication, while the slot table has room. Let a scene
submit at most `MAXTEXTURESLOTS - 1` distinct texture identities. In a state `s` of it reached
from `beginScene`, let `K ≥ 1` textured `drawQuad` / `drawRotatedQuad` calls of one texture
identity follow, with room for `K` more quads (so that no flush intervenes). Then there is one
slot `j` of the table, `1 ≤ j < MAXTEXTURESLOTS`, such that: if the identity was bound in `s`,
`j` is that slot and `textureSlotIndex` is unchanged after every one of the calls; if it was
not, `j` is the next free slot `s.textureSlotIndex` and `textureSlotIndex` is one more after the
first call and after every later call; after each call `j` is the only bound slot holding the
identity, the four vertices of the call carry `texID = j`, and the bound slots hold pairwise
distinct identities, as they do in `s`; and no store into `textureSlots` made in the scene
leaves the table. -/
theorem texture_deduplication (T : Trig α) (cam : SceneCamera α)
    (s0 : RendererState α) (pre : List (Op α)) (id : Nat) (ops : List (Op α))
    (hK : 1 ≤ ops.length) (hops : ∀ op ∈ ops, op.isTexturedQuadOf id)
    (hcap : (run T pre (beginSceneWith cam s0)).quadIndexCount + 6 * ops.length ≤ MAXINDICES)
    (hd : (textureIDs (pre ++ ops)).dedup.length ≤ MAXTEXTURESLOTS - 1) :
    ∃ j : Nat, 1 ≤ j ∧ j < MAXTEXTURESLOTS ∧
      ((∃ k0, InSlot (run T pre (beginSceneWith cam s0)) id k0) →
        InSlot (run T pre (beginSceneWith cam s0)) id j ∧
        ∀ k, 1 ≤ k → k ≤ ops.length →
          (run T (ops.take k) (run T pre (beginSceneWith cam s0))).textureSlotIndex
            = (run T pre (beginSceneWith cam s0)).textureSlotIndex) ∧
      ((¬ ∃ k0, InSlot (run T pre (beginSceneWith cam s0)) id k0) →
        j = (run T pre (beginSceneWith cam s0)).textureSlotIndex ∧
        ∀ k, 1 ≤ k → k ≤ ops.length →
          (run T (ops.take k) (run T pre (beginSceneWith cam s0))).textureSlotIndex
            = (run T pre (beginSceneWith cam s0)).textureSlotIndex + 1) ∧
      (∀ k, 1 ≤ k → k ≤ ops.length →
        InSlot (run T (ops.take k) (run T pre (beginSceneWith cam s0))) id j ∧
        (∀ i, InSlot (run T (ops.take k) (run T pre (beginSceneWith cam s0))) id i → i = j) ∧
        (∀ m, m < 4 →
          ((run T (ops.take k) (run T pre (beginSceneWith cam s0))).quadVertexBufferStore
            ((run T pre (beginSceneWith cam s0)).quadVertexBufferPtr + 4 * (k - 1) + m)).texID
              = (j : α)) ∧
        SlotsDistinct (run T (ops.take k) (run T pre (beginSceneWith cam s0)))) ∧
      SlotsDistinct (run T pre (beginSceneWith cam s0)) ∧
      StoresInSlotTable (trace T (pre ++ ops) (beginSceneWith cam s0)) := by
  have hInv := run_sceneInv T cam s0 pre
  have hroom := run_storesInSlotTable T cam s0 (pre ++ ops) hd
  obtain ⟨hidx, hstores⟩ := hroom
  rw [run_append] at hidx
  generalize run T pre (beginSceneWith cam s0) = s at hInv hcap hidx ⊢
  have hpre : ∀ k, 1 ≤ k → k ≤ ops.length →
      ∃ j : Nat, SceneInv (run T (ops.take k) s) ∧ InSlot (run T (ops.take k) s) id j ∧
      (∀ m, m < 4 * k →
        ((run T (ops.take k) s).quadVertexBufferStore (s.quadVertexBufferPtr + m)).texID
          = (j : α)) ∧
      ((∃ k0, InSlot s id k0) →
        (run T (ops.take k) s).textureSlotIndex = s.textureSlotIndex ∧ InSlot s id j) ∧
      ((¬ ∃ k0, InSlot s id k0) →
        j = s.textureSlotIndex ∧
        (run T (ops.take k) s).textureSlotIndex = s.textureSlotIndex + 1) := by
    intro k hk1 hk2
    have hlen : (ops.take k).length = k := by rw [List.length_take]; omega
    have := run_sameTexture T id (ops.take k)
      (by intro h; rw [h] at hlen; simp at hlen; omega)
      (fun o ho => hops o (List.mem_of_mem_take ho)) s hInv (by rw [hlen]; omega)
    rw [hlen] at this
    exact this
  obtain ⟨j, -, hj2, -, hj4, hj5⟩ := hpre 1 (Nat.le_refl 1) hK
  have hsame : ∀ k j', 1 ≤ k → k ≤ ops.length →
      ((∃ k0, InSlot s id k0) → InSlot s id j') →
      ((¬ ∃ k0, InSlot s id k0) → j' = s.textureSlotIndex) → j' = j := by
    intro k j' _ _ h1 h2
    by_cases hex : ∃ k0, InSlot s id k0
    · exact InSlot_unique s _ _ _ hInv.2.2.2 (h1 hex) (hj4 hex).2
    · rw [h2 hex, (hj5 hex).1]
  have hjlt : j < MAXTEXTURESLOTS := by
    obtain ⟨j', -, h2, -, h4, h5⟩ := hpre ops.length hK (Nat.le_refl _)
    have hjj : j' = j :=
      hsame ops.length j' hK (Nat.le_refl _) (fun hex => (h4 hex).2) (fun hex => (h5 hex).1)
    rw [List.take_length, hjj] at h2
    exact Nat.lt_of_lt_of_le h2.2.1 hidx
  refine ⟨j, hj2.1, hjlt, ?_, ?_, ?_, hInv.2.2.2, hstores⟩
  · intro hex
    refine ⟨(hj4 hex).2, ?_⟩
    intro k hk1 hk2
    obtain ⟨j', -, -, -, h4, -⟩ := hpre k hk1 hk2
    exact (h4 hex).1
  · intro hex
    refine ⟨(hj5 hex).1, ?_⟩
    intro k hk1 hk2
    obtain ⟨j', -, -, -, -, h5⟩ := hpre k hk1 hk2
    exact (h5 hex).2
  · intro k hk1 hk2
    obtain ⟨j', h1, h2, h3, h4, h5⟩ := hpre k hk1 hk2
    have hjj : j' = j := hsame k j' hk1 hk2 (fun hex => (h4 hex).2) (fun hex => (h5 hex).1)
    subst hjj
    refine ⟨h2, fun i hi => InSlot_unique _ _ _ _ h1.2.2.2 hi h2, ?_, h1.2.2.2⟩
    intro m hm
    have := h3 (4 * (k - 1) + m) (by omega)
    rw [← Nat.add_assoc] at this
    exact this

end dedup

set_option maxRecDepth 100000 in
/-- C4 refuted as stated: `beginScene` on the freshly constructed renderer and 31 textured quads
with pairwise distinct textures fill the table (`textureSlotIndex = 32 = MAXTEXTURESLOTS`). Two
textured `drawQuad` calls with one further texture follow, with room in the batch. The first of
them does not find the texture and stores it at `textureSlots[32]`: there is no free slot, and
the store is outside the table. -/
theorem texture_appended_past_table :
    1 ≤ lateTexturePair.length ∧
    (∀ op ∈ lateTexturePair, op.isTexturedQuadOf 500) ∧
    (run sampleTrig (manyTextures 31) (beginSceneWith sampleCamera sampleState)).quadIndexCount
      + 6 * lateTexturePair.length ≤ MAXINDICES ∧
    (run sampleTrig (manyTextures 31)
      (beginSceneWith sampleCamera sampleState)).textureSlotIndex = MAXTEXTURESLOTS ∧
    Event.slotStore MAXTEXTURESLOTS ∈ trace sampleTrig (lateTexturePair.take 1)
      (run sampleTrig (manyTextures 31) (beginSceneWith sampleCamera sampleState)) ∧
    ¬ StoresInSlotTable (trace sampleTrig (manyTextures 31 ++ lateTexturePair)
      (beginSceneWith sampleCamera sampleState)) := by
  have hmem : Event.slotStore MAXTEXTURESLOTS ∈ trace sampleTrig
      (manyTextures 31 ++ lateTexturePair) (beginSceneWith sampleCamera sampleState) := by
    decide
  refine ⟨by decide, ?_, by decide, rfl, by decide,
    fun h => absurd (h MAXTEXTURESLOTS hmem) (by decide)⟩
  intro op hop
  simp only [lateTexturePair, List.mem_cons, List.mem_singleton, List.not_mem_nil,
    or_false] at hop
  rcases hop with rfl | rfl <;> rfl

end engine

namespace engine

open Renderer

section stability

variable {α : Type} [Field α] [DecidableEq α] [CharZero α]

omit [Field α] [DecidableEq α] [CharZero α] in
theorem totalQuads_cons (op : Op α) (ops : List (Op α)) :
    totalQuads (op :: ops) = op.quads + totalQuads ops := by
  simp [totalQuads]

/-- A sequence of calls without `endScene` whose quads fit below capacity: no flush happens, the
scene invariant is kept, the slot index does not decrease and bound slots are kept. -/
theorem run_noflush (T : Trig α) (ops : List (Op α)) (s : RendererState α)
    (hne : ∀ op ∈ ops, op.isEndScene = false) (hInv : SceneInv s)
    (hcap : s.quadIndexCount + 6 * totalQuads ops ≤ MAXINDICES) :
    SceneInv (run T ops s) ∧
    s.textureSlotIndex ≤ (run T ops s).textureSlotIndex ∧
    (∀ i, i < s.textureSlotIndex → (run T ops s).textureSlots i = s.textureSlots i) := by
  induction ops generalizing s with
  | nil => exact ⟨hInv, Nat.le_refl _, fun _ _ => rfl⟩
  | cons op ops ih =>
    rw [totalQuads_cons] at hcap
    obtain ⟨a1, a2, -, a4, a5, -⟩ := exec_noflush T op s (hne op (List.mem_cons_self _ _)) hInv
      (by omega)
    obtain ⟨b1, b2, b3⟩ := ih (op.exec T s) (fun o ho => hne o (List.mem_cons_of_mem _ ho)) a1
      (by rw [a2]; omega)
    rw [run_cons]
    exact ⟨b1, Nat.le_trans a4 b2, fun i hi => by rw [b3 i (Nat.lt_of_lt_of_le hi a4), a5 i hi]⟩

omit [CharZero α] in
theorem texIDWritten_zero (T : Trig α) (op : Op α) (ops : List (Op α))
    (s : RendererState α) (a : Nat) :
    texIDWritten T (op :: ops) s 0 a =
      ((op.exec T s).quadVertexBufferStore ((op.exec T s).quadVertexBufferPtr - 1 - a)).texID := by
  simp [texIDWritten, run_cons, run_nil]

omit [CharZero α] in
theorem texIDWritten_succ (T : Trig α) (op : Op α) (ops : List (Op α))
    (s : RendererState α) (i a : Nat) :
    texIDWritten T (op :: ops) s (i + 1) a = texIDWritten T ops (op.exec T s) i a := by
  simp [texIDWritten, run_cons]

/-- Without flush, the `texID` a textured call writes is a slot its texture identity is still
bound to when the whole sequence has run. -/
theorem texIDWritten_bound (T : Trig α) (ops : List (Op α)) (s : RendererState α)
    (hne : ∀ op ∈ ops, op.isEndScene = false) (hInv : SceneInv s)
    (hcap : s.quadIndexCount + 6 * totalQuads ops ≤ MAXINDICES)
    (i : Nat) (opi : Op α) (ti : Texture) (hi : ops[i]? = some opi)
    (hti : opi.texture? = some ti) :
    ∃ k : Nat, InSlot (run T ops s) ti.rendererID k ∧
      ∀ a, a < 4 * opi.quads → texIDWritten T ops s i a = (k : α) := by
  induction ops generalizing s i with
  | nil => simp at hi
  | cons op ops ih =>
    rw [totalQuads_cons] at hcap
    obtain ⟨a1, a2, a3, a4, a5, a6, -, a8⟩ := exec_noflush T op s
      (hne op (List.mem_cons_self _ _)) hInv (by omega)
    have hne' : ∀ o ∈ ops, o.isEndScene = false := fun o ho => hne o (List.mem_cons_of_mem _ ho)
    have hcap' : (op.exec T s).quadIndexCount + 6 * totalQuads ops ≤ MAXINDICES := by
      rw [a2]; omega
    cases i with
    | zero =>
      simp only [List.getElem?_cons_zero, Option.some.injEq] at hi
      subst hi
      obtain ⟨k, b1, b2, -⟩ := a8 ti hti
      obtain ⟨c1, c2, c3⟩ := run_noflush T ops (op.exec T s) hne' a1 hcap'
      refine ⟨k, ?_, ?_⟩
      · rw [run_cons]
        exact InSlot_mono _ _ _ _ c2 c3 b1
      · intro a ha
        rw [texIDWritten_zero, a3]
        have := b2 (4 * op.quads - 1 - a) (by omega)
        rw [show s.quadVertexBufferPtr + 4 * op.quads - 1 - a
          = s.quadVertexBufferPtr + (4 * op.quads - 1 - a) by omega]
        exact this
    | succ i =>
      simp only [List.getElem?_cons_succ] at hi
      obtain ⟨k, b1, b2⟩ := ih (op.exec T s) hne' a1 hcap' i hi
      refine ⟨k, by rw [run_cons]; exact b1, ?_⟩
      intro a ha
      rw [texIDWritten_succ]
      exact b2 a ha

end stability

end engine

namespace engine

open Renderer

section stabilityClaims

variable {α : Type} [Field α] [DecidableEq α]

/-- A textured `drawQuad` issued at capacity: the guard flushes, which resets the slot index, so
the texture is bound to slot 1 whatever slot it had before, and the quad is written at the arena
start with `texID = 1`. -/
theorem drawQuad_textured_at_capacity (p : Vec3 α) (sz : Vec2 α) (t : Texture) (n : α)
    (tint : Vec4 α) (s : RendererState α) (h : MAXINDICES ≤ s.quadIndexCount) :
    (drawQuad_textured p sz t n tint s).quadVertexBufferPtr = 4 ∧
    ∀ m, m < 4 → ((drawQuad_textured p sz t n tint s).quadVertexBufferStore m).texID = 1 := by
  have hc : ¬ (s.quadIndexCount = 0 ∧ s.vertices.length = 0) := by
    rw [MAXINDICES_eq] at h
    omega
  have he := endScene_fields s hc
  have hfresh : ∀ k, ¬ InSlot (endScene s) t.rendererID k := by
    intro k hk
    have := hk.2.1
    rw [he.2.2.1] at this
    have := hk.1
    omega
  have hr := resolveTexture_fresh (α := α) t (endScene s) hfresh
  simp only [drawQuad_textured, flushIfFull_of_ge s h, hr]
  refine ⟨?_, ?_⟩
  · rw [(quadBody_fields _ _ _ _ _).2.1]
    simp [he.2.1]
  · intro m hm
    rw [quadBody_store]
    have : m = 0 ∨ m = 1 ∨ m = 2 ∨ m = 3 := by omega
    rcases this with rfl | rfl | rfl | rfl <;> simp [he.2.1, he.2.2.1]

end stabilityClaims

theorem overflowScene_take (n : Nat) :
    (overflowSceneOf n).take 2 =
      [Op.drawQuad_textured ⟨0, 0, 0⟩ ⟨1, 1⟩ ⟨7, 2, 2⟩ 1 ⟨1, 1, 1, 1⟩,
       Op.drawQuad_textured ⟨0, 0, 0⟩ ⟨1, 1⟩ ⟨8, 2, 2⟩ 1 ⟨1, 1, 1, 1⟩] := rfl

theorem overflowScene_head (n : Nat) :
    (run sampleTrig ((overflowSceneOf n).take 2)
      (beginSceneWith sampleCamera sampleState)).quadIndexCount = 12 ∧
    texIDWritten sampleTrig (overflowSceneOf n) (beginSceneWith sampleCamera sampleState) 1 0 = 2 := by
  unfold texIDWritten
  rw [overflowScene_take]
  exact ⟨rfl, rfl⟩

theorem overflowScene_last (n : Nat) (hn : 12 + 6 * n = MAXINDICES) :
    texIDWritten sampleTrig (overflowSceneOf n) (beginSceneWith sampleCamera sampleState) (n + 2) 0
      = 1 := by
  have hlen : (overflowSceneOf n).length = n + 3 := by
    simp only [overflowSceneOf, List.length_append, List.length_replicate, List.length_cons,
      List.length_nil]
    omega
  have htake : (overflowSceneOf n).take (n + 2 + 1) = overflowSceneOf n :=
    List.take_of_length_le (by rw [hlen])
  have hfull := run_replicate_drawQuad sampleTrig (⟨0, 0, 0⟩ : Vec3 ℚ) ⟨1, 1⟩ ⟨1, 1, 1, 1⟩ n
    (run sampleTrig ((overflowSceneOf n).take 2) (beginSceneWith sampleCamera sampleState))
    (by rw [(overflowScene_head n).1, hn])
  have hcap := drawQuad_textured_at_capacity (⟨0, 0, 0⟩ : Vec3 ℚ) ⟨1, 1⟩ ⟨8, 2, 2⟩ 1 ⟨1, 1, 1, 1⟩
    (run sampleTrig (List.replicate n (Op.drawQuad ⟨0, 0, 0⟩ ⟨1, 1⟩ ⟨1, 1, 1, 1⟩))
      (run sampleTrig ((overflowSceneOf n).take 2) (beginSceneWith sampleCamera sampleState)))
    (by rw [hfull.1, (overflowScene_head n).1, hn])
  unfold texIDWritten
  rw [htake]
  have hrun : run sampleTrig (overflowSceneOf n) (beginSceneWith sampleCamera sampleState) =
      drawQuad_textured (⟨0, 0, 0⟩ : Vec3 ℚ) ⟨1, 1⟩ ⟨8, 2, 2⟩ 1 ⟨1, 1, 1, 1⟩
        (run sampleTrig (List.replicate n (Op.drawQuad ⟨0, 0, 0⟩ ⟨1, 1⟩ ⟨1, 1, 1, 1⟩))
          (run sampleTrig ((overflowSceneOf n).take 2)
            (beginSceneWith sampleCamera sampleState))) := by
    rw [overflowScene_take]
    unfold overflowSceneOf
    rw [run_append, run_append]
    rfl
  rw [hrun, hcap.1]
  exact hcap.2 3 (by omega)

/-- A scene whose last call is issued on a full batch assigns texture 8 two different slots. -/
theorem overflowScene_not_stable (n : Nat) (hn : 12 + 6 * n = MAXINDICES) :
    (∀ op ∈ overflowSceneOf n, op.isEndScene = false) ∧
    ¬ StableTexIDs sampleTrig (overflowSceneOf n) (beginSceneWith sampleCamera sampleState) := by
  refine ⟨?_, ?_⟩
  · intro op hop
    simp only [overflowSceneOf, List.mem_cons, List.mem_append, List.mem_replicate,
      List.mem_singleton, List.not_mem_nil, or_false] at hop
    rcases hop with (rfl | rfl) | ⟨-, rfl⟩ | rfl <;> rfl
  · intro h
    have hget : (overflowSceneOf n)[n + 2]? =
        some (Op.drawQuad_textured ⟨0, 0, 0⟩ ⟨1, 1⟩ ⟨8, 2, 2⟩ 1 ⟨1, 1, 1, 1⟩) := by
      unfold overflowSceneOf
      rw [List.getElem?_append_right (by simp)]
      rw [List.getElem?_append_right (by simp)]
      simp
    have hget1 : (overflowSceneOf n)[1]? =
        some (Op.drawQuad_textured ⟨0, 0, 0⟩ ⟨1, 1⟩ ⟨8, 2, 2⟩ 1 ⟨1, 1, 1, 1⟩) := by
      simp [overflowSceneOf]
    have h1 := h 1 (n + 2) (Op.drawQuad_textured ⟨0, 0, 0⟩ ⟨1, 1⟩ ⟨8, 2, 2⟩ 1 ⟨1, 1, 1, 1⟩)
      (Op.drawQuad_textured ⟨0, 0, 0⟩ ⟨1, 1⟩ ⟨8, 2, 2⟩ 1 ⟨1, 1, 1, 1⟩) ⟨8, 2, 2⟩ ⟨8, 2, 2⟩
      hget1 hget rfl rfl rfl 0 0 (by decide) (by decide)
    rw [(overflowScene_head n).2, overflowScene_last n hn] at h1
    exact absurd h1 (by norm_num)

section stabilityTheorems

variable {α : Type} [Field α] [DecidableEq α] [CharZero α]

/-- C5, as the code behaves. Let a scene submit at most `MAXTEXTURESLOTS - 1` distinct texture
identities. From any state of it reached after `beginScene`, over any sequence of draw calls
that contains no `endScene` and whose quads fit in the room left in the batch (so that no flush,
explicit or implicit, intervenes), any two textured draws of the same texture identity write the
same `texID` in all their vertices; and no store into `textureSlots` made in the scene leaves
the table. -/
theorem stable_slots_between_flushes (T : Trig α) (cam : SceneCamera α)
    (s0 : RendererState α) (pre ops : List (Op α))
    (hne : ∀ op ∈ ops, op.isEndScene = false)
    (hcap : (run T pre (beginSceneWith cam s0)).quadIndexCount + 6 * totalQuads ops ≤ MAXINDICES)
    (hd : (textureIDs (pre ++ ops)).dedup.length ≤ MAXTEXTURESLOTS - 1) :
    StableTexIDs T ops (run T pre (beginSceneWith cam s0)) ∧
    StoresInSlotTable (trace T (pre ++ ops) (beginSceneWith cam s0)) ∧
    (run T ops (run T pre (beginSceneWith cam s0))).textureSlotIndex ≤ MAXTEXTURESLOTS := by
  have hInv := run_sceneInv T cam s0 pre
  have hroom := run_storesInSlotTable T cam s0 (pre ++ ops) hd
  rw [run_append] at hroom
  refine ⟨?_, hroom.2, hroom.1⟩
  intro i j opi opj ti tj hi hj hti htj hid a b ha hb
  obtain ⟨k, hk1, hk2⟩ := texIDWritten_bound T ops _ hne hInv hcap i opi ti hi hti
  obtain ⟨k', hk1', hk2'⟩ := texIDWritten_bound T ops _ hne hInv hcap j opj tj hj htj
  rw [hid] at hk1
  have hSD := (run_noflush T ops _ hne hInv hcap).1.2.2.2
  rw [hk2 a ha, hk2' b hb, InSlot_unique _ _ _ _ hSD hk1 hk1']

end stabilityTheorems

/-- C5 refuted as stated: in `overflowScene`, made of draw calls only, the second call and the
last call draw the same texture (renderer ID 8); the second writes `texID = 2`, the last, issued
when the batch is full, writes `texID = 1`, because the implicit flush reset the slot index. -/
theorem slots_not_stable_across_overflow :
    (∀ op ∈ overflowScene, op.isEndScene = false) ∧
    ¬ StableTexIDs sampleTrig overflowScene (beginSceneWith sampleCamera sampleState) :=
  overflowScene_not_stable 999998 (by decide)

end engine

namespace engine

open Renderer

section slotTable

variable {α : Type} [Field α] [DecidableEq α] [CharZero α]

/-- C6, as the code behaves. Let the renderer hold the white placeholder in slot 0, as the
constructor leaves it. In every state reached from `beginScene` by a sequence of calls that
submits at most `MAXTEXTURESLOTS - 1` distinct texture identities, `1 ≤ textureSlotIndex ≤
MAXTEXTURESLOTS`, every store into `textureSlots` made on the way was at an index below
`MAXTEXTURESLOTS`, and slot 0 still holds the white placeholder. -/
theorem slot_table_bounded (T : Trig α) (cam : SceneCamera α) (s0 : RendererState α)
    (ops : List (Op α)) (h0 : s0.textureSlots 0 = s0.whiteTexture)
    (hd : (textureIDs ops).dedup.length ≤ MAXTEXTURESLOTS - 1) :
    1 ≤ (run T ops (beginSceneWith cam s0)).textureSlotIndex ∧
    (run T ops (beginSceneWith cam s0)).textureSlotIndex ≤ MAXTEXTURESLOTS ∧
    StoresInSlotTable (trace T ops (beginSceneWith cam s0)) ∧
    (run T ops (beginSceneWith cam s0)).textureSlots 0
      = (run T ops (beginSceneWith cam s0)).whiteTexture := by
  have hb := beginSceneWith_fields cam s0
  have hInv := run_sceneInv T cam s0 []
  rw [run_nil] at hInv
  have hops : ∀ op ∈ ops, ∀ t, op.texture? = some t → t.rendererID ∈ textureIDs ops :=
    fun op hop t ht => mem_textureIDs ops op t hop ht
  have hids : SlotIDsIn (textureIDs ops) (beginSceneWith cam s0) := by
    intro i hi1 hi2
    rw [hb.2.2.1] at hi2
    omega
  have hw : (beginSceneWith cam s0).textureSlots 0 = (beginSceneWith cam s0).whiteTexture := by
    rw [hb.2.2.2.1, hb.2.2.2.2.1]
    exact h0
  obtain ⟨a1, a2, a3, -⟩ := run_slotTable T (textureIDs ops) False True ops hops
    (beginSceneWith cam s0) ⟨hInv, hids, fun _ => hw, False.elim⟩
  obtain ⟨-, -, -, b4⟩ := run_slotTable T (textureIDs ops) True True ops hops
    { beginSceneWith cam s0 with log := [] }
    ⟨hInv, hids, fun _ => hw, fun _ i hi => by simp at hi⟩
  have hcard := slotIndex_le_card (textureIDs ops) _ a1.2.2.2 a2
  have hM : MAXTEXTURESLOTS = 32 := rfl
  rw [hM] at hd ⊢
  refine ⟨a1.2.1, by omega, ?_, a3 trivial⟩
  intro i hi
  have := b4 trivial i hi
  rw [hM]
  omega

end slotTable

set_option maxRecDepth 100000 in
/-- C6 refuted as stated: `beginScene` on the freshly constructed renderer followed by 32
textured `drawQuad` calls with pairwise distinct textures leaves `textureSlotIndex = 33`, above
`MAXTEXTURESLOTS = 32`, and the last call stores its texture at `textureSlots[32]`, one past the
end of the table. -/
theorem slot_table_overflows :
    (∀ op ∈ manyTextures 32, ∃ t, op.texture? = some t) ∧
    (run sampleTrig (manyTextures 32) (beginSceneWith sampleCamera sampleState)).textureSlotIndex
      = 33 ∧
    Event.slotStore 32 ∈ trace sampleTrig (manyTextures 32)
      (beginSceneWith sampleCamera sampleState) ∧
    ¬ StoresInSlotTable (trace sampleTrig (manyTextures 32)
      (beginSceneWith sampleCamera sampleState)) := by
  have hmem : Event.slotStore 32 ∈ trace sampleTrig (manyTextures 32)
      (beginSceneWith sampleCamera sampleState) := by decide
  refine ⟨?_, rfl, hmem, fun h => absurd (h 32 hmem) (by decide)⟩
  intro op hop
  simp only [manyTextures, List.mem_map] at hop
  obtain ⟨i, -, rfl⟩ := hop
  exact ⟨_, rfl⟩

end engine

namespace engine

open Renderer

section geometry

variable {α : Type} [Field α]

theorem quadVertexPositions_zw (i : Nat) :
    (quadVertexPositions i : Vec4 α).z = 0 ∧ (quadVertexPositions i : Vec4 α).w = 1 := by
  unfold quadVertexPositions
  split <;> exact ⟨rfl, rfl⟩

/-- The transform `translate * scale` applied to a corner `(x, y, 0, 1)`. -/
theorem quadTransform_apply (p : Vec3 α) (sz : Vec2 α) (v : Vec4 α) (hz : v.z = 0)
    (hw : v.w = 1) :
    (((translate Mat4.identity p).mul (scale Mat4.identity ⟨sz.x, sz.y, 1⟩)).mulVec v).xyz
      = ⟨p.x + v.x * sz.x, p.y + v.y * sz.y, p.z⟩ := by
  simp only [Mat4.mul, Mat4.mulVec, translate, scale, Mat4.identity, Vec4.smul, Vec4.add,
    Vec4.xyz, hz, hw, Vec3.mk.injEq]
  refine ⟨?_, ?_, ?_⟩ <;> ring

/-- The transform `translate * rotate * scale` applied to a corner `(x, y, 0, 1)`. -/
theorem rotatedQuadTransform_apply (T : Trig α) (p : Vec3 α) (sz : Vec2 α) (r : α)
    (v : Vec4 α) (hz : v.z = 0) (hw : v.w = 1) :
    ((((translate Mat4.identity p).mul (rotate T Mat4.identity (T.radians r) ⟨0, 0, 1⟩)).mul
      (scale Mat4.identity ⟨sz.x, sz.y, 1⟩)).mulVec v).xyz
      = ⟨p.x + (T.cos (T.radians r) * (v.x * sz.x) - T.sin (T.radians r) * (v.y * sz.y)),
         p.y + (T.sin (T.radians r) * (v.x * sz.x) + T.cos (T.radians r) * (v.y * sz.y)),
         p.z⟩ := by
  simp only [Mat4.mul, Mat4.mulVec, translate, scale, rotate, Mat4.identity, Vec4.smul,
    Vec4.add, Vec4.xyz, hz, hw, Vec3.mk.injEq]
  refine ⟨?_, ?_, ?_⟩ <;> ring

/-- C7. Quad geometry. When `quadIndexCount < MAXINDICES`, `drawQuad(p, s, c)` stores exactly
four vertices, at the cursor and the three cells after it; vertex `i` has position
`(p.x + corner_i.x * s.x, p.y + corner_i.y * s.y, p.z)`, colour `c`, the `i`-th canonical texture
coordinate, `texID = 0` and `tileCount = 1`, the corners being `(-0.5,-0.5)`, `(0.5,-0.5)`,
`(0.5,0.5)`, `(-0.5,0.5)` and the texture coordinates `(0,0)`, `(1,0)`, `(1,1)`, `(0,1)`; every
other cell is unchanged, the cursor advances by 4 and the index count by 6. For `p = (0,0,0)` and
`s = (2,2)` the four positions are `(-1,-1,0)`, `(1,-1,0)`, `(1,1,0)`, `(-1,1,0)`. -/
theorem drawQuad_geometry [CharZero α] (p : Vec3 α) (sz : Vec2 α) (c : Vec4 α)
    (s : RendererState α) (h : s.quadIndexCount < MAXINDICES) :
    (drawQuad p sz c s).quadVertexBufferPtr = s.quadVertexBufferPtr + 4 ∧
    (drawQuad p sz c s).quadIndexCount = s.quadIndexCount + 6 ∧
    (∀ i, i < 4 →
      (drawQuad p sz c s).quadVertexBufferStore (s.quadVertexBufferPtr + i) =
        { position := ⟨p.x + (quadVertexPositions i).x * sz.x,
                       p.y + (quadVertexPositions i).y * sz.y, p.z⟩
          color := c
          texCoord := textureCoordMapping i
          texID := 0
          tileCount := 1 }) ∧
    (∀ off, off < s.quadVertexBufferPtr ∨ s.quadVertexBufferPtr + 4 ≤ off →
      (drawQuad p sz c s).quadVertexBufferStore off = s.quadVertexBufferStore off) ∧
    (drawQuad p sz c s).log = s.log ++
      [Event.vertexStore s.quadVertexBufferPtr, Event.vertexStore (s.quadVertexBufferPtr + 1),
       Event.vertexStore (s.quadVertexBufferPtr + 2),
       Event.vertexStore (s.quadVertexBufferPtr + 3)] ∧
    ((List.range 4).map (fun i => ((quadVertexPositions i : Vec4 α).x,
        (quadVertexPositions i : Vec4 α).y))
      = [(-0.5, -0.5), (0.5, -0.5), (0.5, 0.5), (-0.5, 0.5)]) ∧
    ((List.range 4).map (fun i => (textureCoordMapping i : Vec2 α))
      = [⟨0, 0⟩, ⟨1, 0⟩, ⟨1, 1⟩, ⟨0, 1⟩]) ∧
    ((List.range 4).map (fun i =>
        ((drawQuad ⟨0, 0, 0⟩ ⟨2, 2⟩ c s).quadVertexBufferStore
          (s.quadVertexBufferPtr + i)).position)
      = [⟨-1, -1, 0⟩, ⟨1, -1, 0⟩, ⟨1, 1, 0⟩, ⟨-1, 1, 0⟩]) := by
  have hu : u32 (s.quadIndexCount + 6) = s.quadIndexCount + 6 := by
    rw [MAXINDICES_eq] at h
    unfold u32
    omega
  have hcell : ∀ (p : Vec3 α) (sz : Vec2 α) (i : Nat), i < 4 →
      (drawQuad p sz c s).quadVertexBufferStore (s.quadVertexBufferPtr + i) =
        { position := ⟨p.x + (quadVertexPositions i).x * sz.x,
                       p.y + (quadVertexPositions i).y * sz.y, p.z⟩
          color := c
          texCoord := textureCoordMapping i
          texID := 0
          tileCount := 1 } := by
    intro p sz i hi
    simp only [drawQuad, flushIfFull_of_lt s h]
    rw [quadBody_store]
    have : i = 0 ∨ i = 1 ∨ i = 2 ∨ i = 3 := by omega
    rcases this with rfl | rfl | rfl | rfl <;>
      simp [quadTransform_apply _ _ _ (quadVertexPositions_zw _).1 (quadVertexPositions_zw _).2]
  have hb := quadBody_fields ((translate Mat4.identity p).mul
    (scale Mat4.identity ⟨sz.x, sz.y, 1⟩)) c 0 1 s
  refine ⟨?_, ?_, hcell p sz, ?_, ?_, ?_, ?_, ?_⟩
  · simp only [drawQuad, flushIfFull_of_lt s h]
    exact hb.2.1
  · simp only [drawQuad, flushIfFull_of_lt s h]
    rw [hb.1, hu]
  · intro off hoff
    simp only [drawQuad, flushIfFull_of_lt s h]
    rw [quadBody_store]
    simp [show off ≠ s.quadVertexBufferPtr + 3 by omega,
      show off ≠ s.quadVertexBufferPtr + 2 by omega,
      show off ≠ s.quadVertexBufferPtr + 1 by omega,
      show off ≠ s.quadVertexBufferPtr by omega]
  · simp only [drawQuad, flushIfFull_of_lt s h]
    exact hb.2.2.2.2.2.2.2.2
  · rfl
  · rfl
  · simp only [List.range_succ, List.range_zero, List.nil_append, List.map_cons, List.map_nil,
      List.cons_append]
    rw [hcell _ _ 0 (by omega), hcell _ _ 1 (by omega), hcell _ _ 2 (by omega),
      hcell _ _ 3 (by omega)]
    simp only [quadVertexPositions, List.cons.injEq, Vec3.mk.injEq, and_true]
    norm_num

/-- The real trigonometric functions, with `glm::radians` as multiplication by `π / 180`. -/
theorem realTrig_quarter_turn :
    Real.cos ((90 : ℝ) * (Real.pi / 180)) = 0 ∧ Real.sin ((90 : ℝ) * (Real.pi / 180)) = 1 := by
  have h : (90 : ℝ) * (Real.pi / 180) = Real.pi / 2 := by ring
  rw [h]
  exact ⟨Real.cos_pi_div_two, Real.sin_pi_div_two⟩

/-- C8. Rotated quad composition order. Whatever the state, `drawRotatedQuad` stores at cell
`i` after the cursor left by the overflow guard the position
`p + Rz(angle) * (corner_i.x * s.x, corner_i.y * s.y, 0)`, with `angle = glm::radians(rotation)`:
the corner is scaled first, then rotated about the Z axis, then translated. Over the reals, with
`p = (0,0,0)`, rotation 90 degrees and size `(2,0)`, the corner `(-0.5,-0.5,0)` (vertex 0) is
mapped to `(0,-1,0)`. -/
theorem drawRotatedQuad_composition (T : Trig α) (p : Vec3 α) (sz : Vec2 α) (r : α)
    (c : Vec4 α) (s : RendererState α) :
    (∀ i, i < 4 →
      ((drawRotatedQuad T p sz r c s).quadVertexBufferStore
        ((flushIfFull s).quadVertexBufferPtr + i)).position =
        ⟨p.x + (T.cos (T.radians r) * ((quadVertexPositions i).x * sz.x)
              - T.sin (T.radians r) * ((quadVertexPositions i).y * sz.y)),
         p.y + (T.sin (T.radians r) * ((quadVertexPositions i).x * sz.x)
              + T.cos (T.radians r) * ((quadVertexPositions i).y * sz.y)),
         p.z⟩) ∧
    (∀ (c' : Vec4 ℝ) (s' : RendererState ℝ),
      (quadVertexPositions 0 : Vec4 ℝ) = ⟨-0.5, -0.5, 0, 1⟩ ∧
      ((drawRotatedQuad ⟨Real.cos, Real.sin, fun d => d * (Real.pi / 180)⟩ ⟨0, 0, 0⟩ ⟨2, 0⟩ 90
          c' s').quadVertexBufferStore ((flushIfFull s').quadVertexBufferPtr + 0)).position
        = ⟨0, -1, 0⟩) := by
  have hcell : ∀ {β : Type} [Field β] (T : Trig β) (p : Vec3 β) (sz : Vec2 β) (r : β)
      (c : Vec4 β) (s : RendererState β) (i : Nat), i < 4 →
      ((drawRotatedQuad T p sz r c s).quadVertexBufferStore
        ((flushIfFull s).quadVertexBufferPtr + i)).position =
        ⟨p.x + (T.cos (T.radians r) * ((quadVertexPositions i).x * sz.x)
              - T.sin (T.radians r) * ((quadVertexPositions i).y * sz.y)),
         p.y + (T.sin (T.radians r) * ((quadVertexPositions i).x * sz.x)
              + T.cos (T.radians r) * ((quadVertexPositions i).y * sz.y)),
         p.z⟩ := by
    intro β _ T p sz r c s i hi
    simp only [drawRotatedQuad]
    rw [quadBody_store]
    have : i = 0 ∨ i = 1 ∨ i = 2 ∨ i = 3 := by omega
    rcases this with rfl | rfl | rfl | rfl <;>
      simp [rotatedQuadTransform_apply _ _ _ _ _ (quadVertexPositions_zw _).1
        (quadVertexPositions_zw _).2]
  refine ⟨hcell T p sz r c s, ?_⟩
  intro c' s'
  refine ⟨rfl, ?_⟩
  rw [hcell _ _ _ _ _ _ 0 (by omega)]
  simp only [realTrig_quarter_turn.1, realTrig_quarter_turn.2, quadVertexPositions,
    Vec3.mk.injEq]
  norm_num

end geometry

end engine

namespace engine

open Renderer

section model

variable {α : Type} [Field α]

omit [Field α] in
theorem readAttrib_ok (which : AttribArray) (array : List α) (index : Int) (d : α)
    (h0 : 0 ≤ index) (h1 : index < array.length) :
    readAttrib which array index = Except.ok (array.getD index.toNat d) := by
  have hlt : index.toNat < array.length := by omega
  unfold readAttrib
  rw [if_pos h0, List.get?_eq_get hlt, List.getD_eq_getElem _ _ hlt]
  rfl

omit [Field α] in
theorem readAttrib_error (which : AttribArray) (array : List α) (index : Int)
    (h : index < 0 ∨ (array.length : Int) ≤ index) :
    readAttrib which array index
      = Except.error (Fault.outOfBoundsRead which index array.length) := by
  unfold readAttrib
  by_cases h0 : 0 ≤ index
  · have hge : array.length ≤ index.toNat := by omega
    rw [if_pos h0, List.get?_eq_none.mpr hge]
  · rw [if_neg h0]

omit [Field α] in
/-- A read followed by the rest of the run: the rest runs on the element read when the
subscript is inside the array; otherwise the read outside the array is the outcome, and the
rest is not followed. -/
theorem readAttrib_bind {β : Type} (which : AttribArray) (array : List α) (index : Int)
    (d : α) (f : α → Except Fault β) :
    (readAttrib which array index >>= f) =
      if 0 ≤ index ∧ index < array.length then f (array.getD index.toNat d)
      else Except.error (Fault.outOfBoundsRead which index array.length) := by
  split
  · rename_i h
    rw [readAttrib_ok which array index d h.1 h.2]
    rfl
  · rename_i h
    rw [readAttrib_error which array index (by omega)]
    rfl

/-- With its three indices in range, a mesh index yields the vertex of the specification. -/
theorem loadVertex_ok (s : RawShape α) (position : Vec3 α) (color : Vec4 α) (texID : Int)
    (m : MeshIndex) (h : m.inRange s.attrib) :
    loadVertex s position color texID m = Except.ok (specVertex s position color texID m) := by
  obtain ⟨⟨hv0, hv1⟩, ⟨hn0, hn1⟩, ⟨ht0, ht1⟩⟩ := h
  unfold loadVertex
  simp only [readAttrib_bind _ _ _ (0 : α)]
  rw [if_pos ⟨by omega, by omega⟩, if_pos ⟨by omega, by omega⟩, if_pos ⟨by omega, by omega⟩,
    if_pos ⟨by omega, by omega⟩, if_pos ⟨by omega, by omega⟩, if_pos ⟨by omega, by omega⟩,
    if_pos ⟨by omega, by omega⟩, if_pos ⟨by omega, by omega⟩]
  have e1 : (m.vertex_index * 3).toNat = 3 * m.vertex_index.toNat := by omega
  have e2 : (m.vertex_index * 3 + 1).toNat = 3 * m.vertex_index.toNat + 1 := by omega
  have e3 : (m.vertex_index * 3 + 2).toNat = 3 * m.vertex_index.toNat + 2 := by omega
  have e4 : (m.normal_index * 3).toNat = 3 * m.normal_index.toNat := by omega
  have e5 : (m.normal_index * 3 + 1).toNat = 3 * m.normal_index.toNat + 1 := by omega
  have e6 : (m.normal_index * 3 + 2).toNat = 3 * m.normal_index.toNat + 2 := by omega
  have e7 : (m.texcoord_index * 2).toNat = 2 * m.texcoord_index.toNat := by omega
  have e8 : (m.texcoord_index * 2 + 1).toNat = 2 * m.texcoord_index.toNat + 1 := by omega
  rw [e1, e2, e3, e4, e5, e6, e7, e8]
  rfl

/-- The inner loop on indices that are all in range appends their vertices in order. -/
theorem loadMesh_ok (s : RawShape α) (position : Vec3 α) (color : Vec4 α) (texID : Int)
    (indices : List MeshIndex) (vertices : List (PolyVertex α))
    (h : ∀ m ∈ indices, m.inRange s.attrib) :
    loadMesh s position color texID indices vertices
      = Except.ok (vertices ++ indices.map (specVertex s position color texID)) := by
  induction indices generalizing vertices with
  | nil => simp [loadMesh]
  | cons m rest ih =>
    rw [loadMesh, loadVertex_ok s position color texID m (h m (List.mem_cons_self _ _))]
    simp only []
    rw [ih _ (fun m' hm' => h m' (List.mem_cons_of_mem _ hm'))]
    simp

/-- The outer loop on shapes whose indices are all in range appends their vertices in order. -/
theorem loadShapes_ok (s : RawShape α) (position : Vec3 α) (color : Vec4 α) (texID : Int)
    (shapes : List Shape) (vertices : List (PolyVertex α))
    (h : ∀ shape ∈ shapes, ∀ m ∈ shape.indices, m.inRange s.attrib) :
    loadShapes s position color texID shapes vertices
      = Except.ok (vertices ++ shapes.flatMap
          (fun shape => shape.indices.map (specVertex s position color texID))) := by
  induction shapes generalizing vertices with
  | nil => simp [loadShapes]
  | cons shape rest ih =>
    rw [loadShapes, loadMesh_ok s position color texID shape.indices vertices
      (h shape (List.mem_cons_self _ _))]
    simp only []
    rw [ih _ (fun sh hsh => h sh (List.mem_cons_of_mem _ hsh))]
    simp

theorem specVertices_length (s : RawShape α) (position : Vec3 α) (color : Vec4 α)
    (texID : Int) (shapes : List Shape) :
    (shapes.flatMap (fun shape => shape.indices.map (specVertex s position color texID))).length
      = (shapes.map (fun shape => shape.indices.length)).sum := by
  induction shapes with
  | nil => rfl
  | cons shape rest ih => simp [List.flatMap_cons, ih]

/-- C9. For every raw shape whose mesh indices all reference in-range entries of the
position, normal and texcoord arrays, `loadModel` returns the caller's list extended by exactly
one `PolyVertex` per mesh index, shapes in order and indices in order, the entries already in
the list unchanged; the vertex of an index has position
`(vertices[3*vi], vertices[3*vi+1], vertices[3*vi+2])` plus the world position, normal
`normals[3*ni .. 3*ni+2]`, texture coordinate `texcoords[2*ti .. 2*ti+1]`, the supplied colour
and texture id; no rotation or scale enters. -/
theorem loadModel_appends_one_vertex_per_index (library : String → RawShape α)
    (path name : String) (vertices : List (PolyVertex α)) (position : Vec3 α)
    (color : Vec4 α) (texID : Int) (h : (library name).allInRange) :
    loadModel library path name vertices position color texID
      = Except.ok (vertices ++ specVertices (library name) position color texID) ∧
    (specVertices (library name) position color texID).length
      = ((library name).shapes.map (fun shape => shape.indices.length)).sum ∧
    (∀ a b c : MeshIndex, (library name).shapes = [⟨[a, b, c]⟩] →
      (specVertices (library name) position color texID).length = 3) ∧
    specVertices (library name) position color texID
      = (library name).shapes.flatMap (fun shape => shape.indices.map (fun m =>
          { position :=
              ⟨(library name).attrib.vertices.getD (3 * m.vertex_index.toNat) 0 + position.x,
               (library name).attrib.vertices.getD (3 * m.vertex_index.toNat + 1) 0
                 + position.y,
               (library name).attrib.vertices.getD (3 * m.vertex_index.toNat + 2) 0
                 + position.z⟩
            normal :=
              ⟨(library name).attrib.normals.getD (3 * m.normal_index.toNat) 0,
               (library name).attrib.normals.getD (3 * m.normal_index.toNat + 1) 0,
               (library name).attrib.normals.getD (3 * m.normal_index.toNat + 2) 0⟩
            color := color
            texCoord :=
              ⟨(library name).attrib.texcoords.getD (2 * m.texcoord_index.toNat) 0,
               (library name).attrib.texcoords.getD (2 * m.texcoord_index.toNat + 1) 0⟩
            texID := (texID : α) })) :=
  ⟨loadShapes_ok _ position color texID _ vertices h,
    specVertices_length _ position color texID _,
    fun a b c hs => by rw [specVertices, hs]; rfl, rfl⟩

end model

section firstRead
variable {α : Type} [Field α]

/-- A subscript inside its array is passed over by the search for the first one outside. -/
theorem find_outOfBounds_inside (w : AttribArray) (i : Int) (n : Nat) (rest : List Subscript)
    (h : 0 ≤ i ∧ i < n) :
    List.find? Subscript.outOfBounds (⟨w, i, n⟩ :: rest)
      = List.find? Subscript.outOfBounds rest := by
  refine List.find?_cons_of_neg _ ?_
  simp only [Subscript.outOfBounds, decide_eq_true_eq]
  omega

/-- A subscript outside its array ends the search for the first one outside. -/
theorem find_outOfBounds_outside (w : AttribArray) (i : Int) (n : Nat) (rest : List Subscript)
    (h : ¬ (0 ≤ i ∧ i < n)) :
    List.find? Subscript.outOfBounds (⟨w, i, n⟩ :: rest) = some ⟨w, i, n⟩ := by
  refine List.find?_cons_of_pos _ ?_
  simp only [Subscript.outOfBounds, decide_eq_true_eq]
  omega

omit [Field α] in
/-- The subscripts of a mesh index in range are all inside their arrays. -/
theorem find_outOfBounds_inRange (a : Attrib α) (m : MeshIndex) (h : m.inRange a) :
    List.find? Subscript.outOfBounds (m.subscripts a) = none := by
  obtain ⟨⟨hv0, hv1⟩, ⟨hn0, hn1⟩, ⟨ht0, ht1⟩⟩ := h
  unfold MeshIndex.subscripts
  rw [find_outOfBounds_inside _ _ _ _ ⟨by omega, by omega⟩,
    find_outOfBounds_inside _ _ _ _ ⟨by omega, by omega⟩,
    find_outOfBounds_inside _ _ _ _ ⟨by omega, by omega⟩,
    find_outOfBounds_inside _ _ _ _ ⟨by omega, by omega⟩,
    find_outOfBounds_inside _ _ _ _ ⟨by omega, by omega⟩,
    find_outOfBounds_inside _ _ _ _ ⟨by omega, by omega⟩,
    find_outOfBounds_inside _ _ _ _ ⟨by omega, by omega⟩,
    find_outOfBounds_inside _ _ _ _ ⟨by omega, by omega⟩]
  rfl

/-- With an index out of range, the run for a mesh index reaches the read made by the first of
its eight subscripts that is outside its array. -/
theorem loadVertex_firstOutOfBounds (s : RawShape α) (position : Vec3 α) (color : Vec4 α)
    (texID : Int) (m : MeshIndex) (h : ¬ m.inRange s.attrib) :
    ∃ x, (m.subscripts s.attrib).find? Subscript.outOfBounds = some x ∧
      loadVertex s position color texID m = Except.error x.fault := by
  unfold MeshIndex.inRange at h
  unfold loadVertex MeshIndex.subscripts
  simp only [readAttrib_bind _ _ _ (0 : α)]
  split_ifs with h1 h2 h3 h4 h5 h6 h7 h8
  · exfalso; omega
  · exact ⟨⟨_, _, _⟩, by rw [find_outOfBounds_inside _ _ _ _ h1,
      find_outOfBounds_inside _ _ _ _ h2, find_outOfBounds_inside _ _ _ _ h3,
      find_outOfBounds_inside _ _ _ _ h4, find_outOfBounds_inside _ _ _ _ h5,
      find_outOfBounds_inside _ _ _ _ h6, find_outOfBounds_inside _ _ _ _ h7,
      find_outOfBounds_outside _ _ _ _ h8], rfl⟩
  · exact ⟨⟨_, _, _⟩, by rw [find_outOfBounds_inside _ _ _ _ h1,
      find_outOfBounds_inside _ _ _ _ h2, find_outOfBounds_inside _ _ _ _ h3,
      find_outOfBounds_inside _ _ _ _ h4, find_outOfBounds_inside _ _ _ _ h5,
      find_outOfBounds_inside _ _ _ _ h6, find_outOfBounds_outside _ _ _ _ h7], rfl⟩
  · exact ⟨⟨_, _, _⟩, by rw [find_outOfBounds_inside _ _ _ _ h1,
      find_outOfBounds_inside _ _ _ _ h2, find_outOfBounds_inside _ _ _ _ h3,
      find_outOfBounds_inside _ _ _ _ h4, find_outOfBounds_inside _ _ _ _ h5,
      find_outOfBounds_outside _ _ _ _ h6], rfl⟩
  · exact ⟨⟨_, _, _⟩, by rw [find_outOfBounds_inside _ _ _ _ h1,
      find_outOfBounds_inside _ _ _ _ h2, find_outOfBounds_inside _ _ _ _ h3,
      find_outOfBounds_inside _ _ _ _ h4, find_outOfBounds_outside _ _ _ _ h5], rfl⟩
  · exact ⟨⟨_, _, _⟩, by rw [find_outOfBounds_inside _ _ _ _ h1,
      find_outOfBounds_inside _ _ _ _ h2, find_outOfBounds_inside _ _ _ _ h3,
      find_outOfBounds_outside _ _ _ _ h4], rfl⟩
  · exact ⟨⟨_, _, _⟩, by rw [find_outOfBounds_inside _ _ _ _ h1,
      find_outOfBounds_inside _ _ _ _ h2, find_outOfBounds_outside _ _ _ _ h3], rfl⟩
  · exact ⟨⟨_, _, _⟩, by rw [find_outOfBounds_inside _ _ _ _ h1,
      find_outOfBounds_outside _ _ _ _ h2], rfl⟩
  · exact ⟨⟨_, _, _⟩, by rw [find_outOfBounds_outside _ _ _ _ h1], rfl⟩

/-- With an index out of range among them, the inner loop reaches the read made by the first
subscript, in iteration order, that is outside its array. -/
theorem loadMesh_firstOutOfBounds (s : RawShape α) (position : Vec3 α) (color : Vec4 α)
    (texID : Int) (indices : List MeshIndex) (vertices : List (PolyVertex α))
    (h : ¬ ∀ m ∈ indices, m.inRange s.attrib) :
    ∃ x, (meshSubscripts s.attrib indices).find? Subscript.outOfBounds = some x ∧
      loadMesh s position color texID indices vertices = Except.error x.fault := by
  induction indices generalizing vertices with
  | nil => exact absurd (fun _ hm => absurd hm (List.not_mem_nil _)) h
  | cons m rest ih =>
    unfold meshSubscripts
    rw [List.flatMap_cons, List.find?_append]
    by_cases hm : m.inRange s.attrib
    · rw [loadMesh, loadVertex_ok s position color texID m hm,
        find_outOfBounds_inRange s.attrib m hm]
      refine ih _ ?_
      intro hrest
      refine h ?_
      intro m' hm'
      rcases List.mem_cons.mp hm' with rfl | hm'
      · exact hm
      · exact hrest m' hm'
    · obtain ⟨x, hx1, hx2⟩ := loadVertex_firstOutOfBounds s position color texID m hm
      rw [loadMesh, hx2, hx1]
      exact ⟨x, rfl, rfl⟩

omit [Field α] in
/-- Mesh indices that are all in range form no subscript outside its array. -/
theorem find_outOfBounds_mesh (a : Attrib α) (indices : List MeshIndex)
    (h : ∀ m ∈ indices, m.inRange a) :
    (meshSubscripts a indices).find? Subscript.outOfBounds = none := by
  rw [List.find?_eq_none]
  intro x hx
  unfold meshSubscripts at hx
  rw [List.mem_flatMap] at hx
  obtain ⟨m, hm, hx⟩ := hx
  exact List.find?_eq_none.mp (find_outOfBounds_inRange a m (h m hm)) x hx

/-- With an index out of range among them, the outer loop reaches the read made by the first
subscript, in iteration order, that is outside its array. -/
theorem loadShapes_firstOutOfBounds (s : RawShape α) (position : Vec3 α) (color : Vec4 α)
    (texID : Int) (shapes : List Shape) (vertices : List (PolyVertex α))
    (h : ¬ ∀ shape ∈ shapes, ∀ m ∈ shape.indices, m.inRange s.attrib) :
    ∃ x, (shapesSubscripts s.attrib shapes).find? Subscript.outOfBounds = some x ∧
      loadShapes s position color texID shapes vertices = Except.error x.fault := by
  induction shapes generalizing vertices with
  | nil => exact absurd (fun _ hm => absurd hm (List.not_mem_nil _)) h
  | cons shape rest ih =>
    unfold shapesSubscripts
    rw [List.flatMap_cons, List.find?_append]
    by_cases hs : ∀ m ∈ shape.indices, m.inRange s.attrib
    · rw [loadShapes, loadMesh_ok s position color texID shape.indices vertices hs,
        find_outOfBounds_mesh s.attrib shape.indices hs]
      refine ih _ ?_
      intro hrest
      refine h ?_
      intro sh hsh
      rcases List.mem_cons.mp hsh with rfl | hsh
      · exact hs
      · exact hrest sh hsh
    · obtain ⟨x, hx1, hx2⟩ := loadMesh_firstOutOfBounds s position color texID shape.indices
        vertices hs
      rw [loadShapes, hx2, hx1]
      exact ⟨x, rfl, rfl⟩

end firstRead

section firstReadClaim
variable {α : Type} [Field α]

/-- C10, as the code behaves. `loadModel` validates nothing and reports nothing. A run of it
performs a read outside an attribute array if and only if the raw shape contains a mesh index
whose vertex, normal or texcoord index points outside the corresponding array (negative ones
included). For such a raw shape the read is the one made by the first subscript, in iteration
order (shapes in order, mesh indices in order, the eight subscripts of an index in the order of
the source text), that is outside its array: every subscript before it is inside its array, and
it is negative or not below the size of its array. What the call does from that read on is
undefined in C++ and is not described. -/
theorem loadModel_unchecked (library : String → RawShape α) (path name : String)
    (vertices : List (PolyVertex α)) (position : Vec3 α) (color : Vec4 α) (texID : Int) :
    (ReadsPastBound (loadModel library path name vertices position color texID)
      ↔ ¬ (library name).allInRange) ∧
    (¬ (library name).allInRange →
      ∃ x before after,
        (library name).subscripts = before ++ x :: after ∧
        (∀ y ∈ before, y.outOfBounds = false) ∧
        (x.index < 0 ∨ (x.size : Int) ≤ x.index) ∧
        (library name).firstOutOfBounds = some x ∧
        loadModel library path name vertices position color texID
          = Except.error (Fault.outOfBoundsRead x.array x.index x.size)) := by
  have hfirst : ¬ (library name).allInRange →
      ∃ x before after,
        (library name).subscripts = before ++ x :: after ∧
        (∀ y ∈ before, y.outOfBounds = false) ∧
        (x.index < 0 ∨ (x.size : Int) ≤ x.index) ∧
        (library name).firstOutOfBounds = some x ∧
        loadModel library path name vertices position color texID
          = Except.error (Fault.outOfBoundsRead x.array x.index x.size) := by
    intro h
    obtain ⟨x, hx1, hx2⟩ := loadShapes_firstOutOfBounds (library name) position color texID
      (library name).shapes vertices h
    obtain ⟨hp, before, after, hsplit, hbefore⟩ := List.find?_eq_some.mp hx1
    refine ⟨x, before, after, hsplit, ?_, ?_, hx1, hx2⟩
    · intro y hy
      have := hbefore y hy
      simpa using this
    · simpa [Subscript.outOfBounds] using hp
  refine ⟨⟨?_, ?_⟩, hfirst⟩
  · rintro ⟨a, i, n, he, -⟩ hall
    have hok : loadModel library path name vertices position color texID
        = Except.ok (vertices ++ specVertices (library name) position color texID) :=
      loadShapes_ok _ position color texID _ vertices hall
    rw [hok] at he
    cases he
  · intro h
    obtain ⟨x, -, -, -, -, hb, -, hx⟩ := hfirst h
    exact ⟨x.array, x.index, x.size, hx, hb⟩

end firstReadClaim

/-- C10 refuted as stated: on `brokenTriangle`, whose third corner references position 3 of
3, `loadModel` reports nothing and reads `vertices[9]` in an array of 9 floats. -/
theorem loadModel_reads_past_bound :
    ¬ brokenTriangle.allInRange ∧
    loadModel (fun _ => brokenTriangle) "assets/models" "triangle" [] ⟨0, 0, 0⟩ ⟨1, 1, 1, 1⟩ 0
      = Except.error (Fault.outOfBoundsRead AttribArray.vertices 9 9) ∧
    ReadsPastBound
      (loadModel (fun _ => brokenTriangle) "assets/models" "triangle" [] ⟨0, 0, 0⟩
        ⟨1, 1, 1, 1⟩ 0) :=
  ⟨by decide, rfl, ⟨_, _, _, rfl, by decide⟩⟩

end engine

namespace engine

open Renderer

section sceneBoundary

variable {α : Type}

/-- The log of `endScene` grows exactly when the nothing-to-draw test fails. -/
theorem endScene_eq_self_iff (s : RendererState α) :
    endScene s = s ↔ (s.quadIndexCount = 0 ∧ s.vertices.length = 0) := by
  constructor
  · intro h
    by_contra hc
    have hl := (endScene_fields s hc).2.2.2.2.2.2.2.2.2
    rw [h] at hl
    have := congrArg List.length hl
    simp at this
  · exact endScene_noop s

theorem beginSceneWith_log (cam : SceneCamera α) (s : RendererState α) :
    ∀ e ∈ (beginSceneWith cam s).log, e ∈ s.log ∨ Event.isDraw e = false := by
  intro e he
  cases cam <;>
    simp only [beginSceneWith, beginScene, beginScene_perspective, emit, List.mem_append,
      List.mem_cons, List.mem_singleton, List.not_mem_nil, or_false, List.append_assoc] at he
  · rcases he with he | rfl | rfl
    · exact Or.inl he
    all_goals exact Or.inr rfl
  · rcases he with he | (rfl | rfl) | rfl | rfl
    · exact Or.inl he
    all_goals exact Or.inr rfl

/-- C11. Empty scene. For every renderer state whose 3D vertex list is empty, `beginScene`
(either overload) immediately followed by `endScene` issues no draw call of either kind, and
`endScene` returns the state `beginScene` left, unchanged; in general `endScene` leaves the
state as it is exactly when `quadIndexCount == 0` and the 3D vertex list is empty. -/
theorem empty_scene_issues_no_draw (cam : SceneCamera α) (s : RendererState α)
    (h : s.vertices = []) :
    endScene (beginSceneWith cam s) = beginSceneWith cam s ∧
    drawCalls (endScene (beginSceneWith cam { s with log := [] })).log = 0 ∧
    (∀ s' : RendererState α,
      endScene s' = s' ↔ (s'.quadIndexCount = 0 ∧ s'.vertices.length = 0)) := by
  have hnoop : ∀ s1 : RendererState α, s1.vertices = [] →
      endScene (beginSceneWith cam s1) = beginSceneWith cam s1 := by
    intro s1 h1
    have hb1 := beginSceneWith_fields cam s1
    exact endScene_noop _ ⟨hb1.1, by rw [hb1.2.2.2.2.2, h1]; rfl⟩
  refine ⟨hnoop s h, ?_, endScene_eq_self_iff⟩
  rw [hnoop { s with log := [] } h]
  unfold drawCalls
  rw [List.countP_eq_zero]
  intro e he
  rcases beginSceneWith_log cam _ e he with h1 | h1
  · exact absurd h1 (List.not_mem_nil _)
  · simp [h1]

/-- C12. For every state in which something was drawn (`quadIndexCount > 0` or a non-empty 3D
vertex list) and whose 3D vertex list has a length that `std::vector::size` can report and the
`unsigned int` `vertexCount` can hold (fewer than `2 ^ 32` vertices; a list of `2 ^ 32` vertices
of 13 floats each would occupy 208 GiB), `endScene` binds the texture slots
`0 .. textureSlotIndex - 1` in increasing order, uploads the 3D list, binds the lighting shader
and issues exactly one non-indexed draw call, whose vertex count is the length of the 3D list
(0 when only quads were drawn); it ends with the 3D list empty, `vertexCount = 0`,
`quadIndexCount = 0`, the cursor at the arena start and `textureSlotIndex = 1`. -/
theorem endScene_flushes (s : RendererState α)
    (h : 0 < s.quadIndexCount ∨ s.vertices ≠ [])
    (hfit : s.vertices.length < 4294967296) :
    (endScene s).log = s.log ++
      ((List.range s.textureSlotIndex).map (fun i => Event.textureBind (s.textureSlots i) i) ++
        [Event.bufferData s.vertices.length, Event.shaderBind ShaderRef.lightingShader,
         Event.drawVAO s.vertices.length]) ∧
    flushCount (endScene s).log = flushCount s.log + 1 ∧
    drawCalls (endScene s).log = drawCalls s.log + 1 ∧
    (s.vertices = [] → (endScene s).log = s.log ++
      ((List.range s.textureSlotIndex).map (fun i => Event.textureBind (s.textureSlots i) i) ++
        [Event.bufferData 0, Event.shaderBind ShaderRef.lightingShader, Event.drawVAO 0])) ∧
    (endScene s).vertices = [] ∧ (endScene s).vertexCount = 0 ∧
    (endScene s).quadIndexCount = 0 ∧ (endScene s).quadVertexBufferPtr = 0 ∧
    (endScene s).textureSlotIndex = 1 := by
  have hc : ¬ (s.quadIndexCount = 0 ∧ s.vertices.length = 0) := by
    rintro ⟨h1, h2⟩
    rcases h with h | h
    · omega
    · exact h (List.length_eq_zero.mp h2)
  have hf := endScene_fields s hc
  have hu : u32 s.vertices.length = s.vertices.length := Nat.mod_eq_of_lt hfit
  have hlog : (endScene s).log = s.log ++
      ((List.range s.textureSlotIndex).map (fun i => Event.textureBind (s.textureSlots i) i) ++
        [Event.bufferData s.vertices.length, Event.shaderBind ShaderRef.lightingShader,
         Event.drawVAO s.vertices.length]) := by
    rw [hf.2.2.2.2.2.2.2.2.2, hu]
  have hbinds : ∀ p : Event α → Bool, (∀ t i, p (Event.textureBind t i) = false) →
      List.countP p ((List.range s.textureSlotIndex).map
        (fun i => (Event.textureBind (s.textureSlots i) i : Event α))) = 0 := by
    intro p hp
    rw [List.countP_eq_zero]
    intro e he
    rw [List.mem_map] at he
    obtain ⟨i, -, rfl⟩ := he
    simp [hp]
  refine ⟨hlog, ?_, ?_, ?_, hf.2.2.2.2.2.2.2.1, hf.2.2.2.2.2.2.2.2.1, hf.1,
    hf.2.1, hf.2.2.1⟩
  · rw [hlog]
    unfold flushCount
    rw [List.countP_append, List.countP_append, hbinds _ (fun _ _ => rfl)]
    simp [Event.isDrawVAO]
  · rw [hlog]
    unfold drawCalls
    rw [List.countP_append, List.countP_append, hbinds _ (fun _ _ => rfl)]
    simp [Event.isDraw, Event.isDrawVAO, Event.isDrawIndexed]
  · intro he
    rw [hlog, he]
    rfl

/-- C13. The two `beginScene` overloads, called with cameras of the same view-projection
matrix on the same state, leave the same storage: the stored matrix is the camera matrix,
`quadIndexCount = 0`, the cursor at the arena start, `textureSlotIndex = 1`, every other field
unchanged. They differ in the log only: the orthographic overload binds the texture shader and
uploads the matrix to it, the perspective overload does so for the lighting shader first and
then for the texture shader. -/
theorem beginScene_overloads_agree (oc : OrthographicCamera α) (pc : PerspectiveCamera α)
    (s : RendererState α) (h : oc.viewProjectionMatrix = pc.viewProjectionMatrix) :
    beginScene_perspective pc s =
      { beginScene oc s with
        log := s.log ++
          [Event.shaderBind ShaderRef.lightingShader,
           Event.uniformMat4 ShaderRef.lightingShader pc.viewProjectionMatrix,
           Event.shaderBind ShaderRef.textureShader,
           Event.uniformMat4 ShaderRef.textureShader pc.viewProjectionMatrix] } ∧
    beginScene oc s =
      { s with
        viewProjectionMatrix := oc.viewProjectionMatrix
        quadIndexCount := 0
        quadVertexBufferPtr := 0
        textureSlotIndex := 1
        log := s.log ++
          [Event.shaderBind ShaderRef.textureShader,
           Event.uniformMat4 ShaderRef.textureShader oc.viewProjectionMatrix] } := by
  constructor
  · simp [beginScene_perspective, beginScene, emit, h]
  · simp [beginScene, emit]

end sceneBoundary

end engine

namespace engine

open Renderer

section circles

variable {α : Type} [Field α] [DecidableEq α]

omit [DecidableEq α] in
/-- The position `drawRotatedQuad` stores for corner `i`, at cell `i` after the cursor left by
the overflow guard. -/
theorem drawRotatedQuad_cell (T : Trig α) (p : Vec3 α) (sz : Vec2 α) (r : α) (c : Vec4 α)
    (s : RendererState α) (i : Nat) (hi : i < 4) :
    ((drawRotatedQuad T p sz r c s).quadVertexBufferStore
      ((flushIfFull s).quadVertexBufferPtr + i)).position =
      ⟨p.x + (T.cos (T.radians r) * ((quadVertexPositions i).x * sz.x)
            - T.sin (T.radians r) * ((quadVertexPositions i).y * sz.y)),
       p.y + (T.sin (T.radians r) * ((quadVertexPositions i).x * sz.x)
            + T.cos (T.radians r) * ((quadVertexPositions i).y * sz.y)),
       p.z⟩ := by
  simp only [drawRotatedQuad]
  rw [quadBody_store]
  have : i = 0 ∨ i = 1 ∨ i = 2 ∨ i = 3 := by omega
  rcases this with rfl | rfl | rfl | rfl <;>
    simp [rotatedQuadTransform_apply _ _ _ _ _ (quadVertexPositions_zw _).1
      (quadVertexPositions_zw _).2]

/-- One quad submission below capacity: six more indices, four more vertices, the cursor four
cells further. -/
theorem submitQuad_counts (q : QuadCall α) (s : RendererState α)
    (hlt : s.quadIndexCount < MAXINDICES) :
    (submitQuad q s).quadIndexCount = s.quadIndexCount + 6 ∧
    (submitQuad q s).quadVertexBufferPtr = s.quadVertexBufferPtr + 4 ∧
    vertexStores (submitQuad q s).log = vertexStores s.log + 4 := by
  have hu : u32 (s.quadIndexCount + 6) = s.quadIndexCount + 6 := by
    rw [MAXINDICES_eq] at hlt
    unfold u32
    omega
  have hbody : ∀ (tex : α) (s1 : RendererState α), s1.quadIndexCount = s.quadIndexCount →
      (bumpIndexCount (writeQuad q.transform q.color tex q.tileCount s1)).quadIndexCount
        = s.quadIndexCount + 6 ∧
      (bumpIndexCount (writeQuad q.transform q.color tex q.tileCount s1)).quadVertexBufferPtr
        = s1.quadVertexBufferPtr + 4 ∧
      vertexStores (bumpIndexCount (writeQuad q.transform q.color tex q.tileCount s1)).log
        = vertexStores s1.log + 4 := by
    intro tex s1 h1
    have hf := quadBody_fields q.transform q.color tex q.tileCount s1
    refine ⟨by rw [hf.1, h1, hu], hf.2.1, ?_⟩
    rw [hf.2.2.2.2.2.2.2.2]
    unfold vertexStores
    rw [List.countP_append]
    rfl
  cases hq : q.texture with
  | none =>
    have he : submitQuad q s = bumpIndexCount (writeQuad q.transform q.color 0 q.tileCount s) := by
      simp only [submitQuad, hq, flushIfFull_of_lt s hlt]
    rw [he]
    exact hbody 0 s rfl
  | some t =>
    have he : submitQuad q s = bumpIndexCount (writeQuad q.transform q.color
        (resolveTexture t s).1 q.tileCount (resolveTexture t s).2) := by
      simp only [submitQuad, hq, flushIfFull_of_lt s hlt]
    have hr := resolveTexture_fields t s
    obtain ⟨h1, h2, h3⟩ := hbody (resolveTexture t s).1 (resolveTexture t s).2 hr.1
    rw [he]
    refine ⟨h1, by rw [h2, hr.2.1], ?_⟩
    rw [h3]
    rcases hr.2.2.2.2.2.2 with hl | hl
    · rw [hl]
    · rw [hl]
      unfold vertexStores
      rw [List.countP_append]
      rfl

/-- A succession of quad submissions that fits below capacity. -/
theorem submitQuads_counts (qs : List (QuadCall α)) (s : RendererState α)
    (hcap : s.quadIndexCount + 6 * qs.length ≤ MAXINDICES) :
    (qs.foldl (fun s q => submitQuad q s) s).quadIndexCount
      = s.quadIndexCount + 6 * qs.length ∧
    (qs.foldl (fun s q => submitQuad q s) s).quadVertexBufferPtr
      = s.quadVertexBufferPtr + 4 * qs.length ∧
    vertexStores (qs.foldl (fun s q => submitQuad q s) s).log
      = vertexStores s.log + 4 * qs.length := by
  induction qs generalizing s with
  | nil => exact ⟨rfl, rfl, rfl⟩
  | cons q qs ih =>
    simp only [List.length_cons] at hcap
    obtain ⟨a1, a2, a3⟩ := submitQuad_counts q s (by omega)
    obtain ⟨b1, b2, b3⟩ := ih (submitQuad q s) (by rw [a1]; omega)
    simp only [List.foldl_cons, List.length_cons]
    exact ⟨by rw [b1, a1]; ring, by rw [b2, a2]; ring, by rw [b3, a3]; ring⟩

/-- C14. `drawCircle` is three successive `drawRotatedQuad` calls with the same position and
size and the rotations 0, 1 and 2; the textured `drawCircle` is three successive textured
`drawRotatedQuad` calls with the same texture and `tileCount = 1` (whatever their tint); the
`vec2` overloads are the `vec3` overloads at `z = 0`. With room for three quads in the batch,
each of them stores 12 vertices, moves the cursor by 12 and raises the index count by 18. -/
theorem drawCircle_is_three_rotated_quads (T : Trig α) (p : Vec3 α) (p2 : Vec2 α)
    (sz : Vec2 α) (c : Vec4 α) (t : Texture) (tint0 tint1 tint2 : Vec4 α)
    (s : RendererState α) (h : s.quadIndexCount + 18 ≤ MAXINDICES) :
    drawCircle T p sz c s =
      drawRotatedQuad T p sz 2 c (drawRotatedQuad T p sz 1 c (drawRotatedQuad T p sz 0 c s)) ∧
    drawCircle_textured T p sz t s =
      drawRotatedQuad_textured T p sz 2 t 1 tint2
        (drawRotatedQuad_textured T p sz 1 t 1 tint1
          (drawRotatedQuad_textured T p sz 0 t 1 tint0 s)) ∧
    drawCircle_vec2 T p2 sz c s = drawCircle T ⟨p2.x, p2.y, 0⟩ sz c s ∧
    drawCircle_vec2_textured T p2 sz t s = drawCircle_textured T ⟨p2.x, p2.y, 0⟩ sz t s ∧
    ((drawCircle T p sz c s).quadIndexCount = s.quadIndexCount + 18 ∧
      (drawCircle T p sz c s).quadVertexBufferPtr = s.quadVertexBufferPtr + 12 ∧
      vertexStores (drawCircle T p sz c s).log = vertexStores s.log + 12) ∧
    ((drawCircle_textured T p sz t s).quadIndexCount = s.quadIndexCount + 18 ∧
      (drawCircle_textured T p sz t s).quadVertexBufferPtr = s.quadVertexBufferPtr + 12 ∧
      vertexStores (drawCircle_textured T p sz t s).log = vertexStores s.log + 12) := by
  have e0 : (0 : α) + ((0 : Nat) : α) = 0 := by simp
  have e1 : (0 : α) + ((1 : Nat) : α) = 1 := by simp
  have e2 : (0 : α) + ((2 : Nat) : α) = 2 := by simp
  refine ⟨?_, ?_, rfl, rfl, ?_, ?_⟩
  · rw [drawCircle_eq, e0, e1, e2]
  · rw [drawCircle_textured_eq, e0, e1, e2]
    rfl
  · have := submitQuads_counts ((Op.drawCircle p sz c).calls T) s (by
      rw [calls_length]; exact h)
    rw [← exec_eq_calls T (Op.drawCircle p sz c) s rfl, calls_length] at this
    exact this
  · have := submitQuads_counts ((Op.drawCircle_textured p sz t).calls T) s (by
      rw [calls_length]; exact h)
    rw [← exec_eq_calls T (Op.drawCircle_textured p sz t) s rfl, calls_length] at this
    exact this

/-- C16. The textured overloads do not depend on `tintColor`: for any two tints, textured
`drawQuad` and textured `drawRotatedQuad` (both position types) return the same state; the four
vertices they store, at the cursor left by the overflow guard, have colour `(1,1,1,1)` and the
caller's `tileCount`. -/
theorem textured_draws_ignore_tint (T : Trig α) (p : Vec3 α) (p2 : Vec2 α) (sz : Vec2 α)
    (r : α) (t : Texture) (n : α) (tint tint' : Vec4 α) (s : RendererState α) :
    drawQuad_textured p sz t n tint s = drawQuad_textured p sz t n tint' s ∧
    drawQuad_vec2_textured p2 sz t n tint s = drawQuad_vec2_textured p2 sz t n tint' s ∧
    drawRotatedQuad_textured T p sz r t n tint s
      = drawRotatedQuad_textured T p sz r t n tint' s ∧
    drawRotatedQuad_vec2_textured T p2 sz r t n tint s
      = drawRotatedQuad_vec2_textured T p2 sz r t n tint' s ∧
    (∀ i, i < 4 →
      ((drawQuad_textured p sz t n tint s).quadVertexBufferStore
        ((flushIfFull s).quadVertexBufferPtr + i)).color = ⟨1, 1, 1, 1⟩ ∧
      ((drawQuad_textured p sz t n tint s).quadVertexBufferStore
        ((flushIfFull s).quadVertexBufferPtr + i)).tileCount = n ∧
      ((drawRotatedQuad_textured T p sz r t n tint s).quadVertexBufferStore
        ((flushIfFull s).quadVertexBufferPtr + i)).color = ⟨1, 1, 1, 1⟩ ∧
      ((drawRotatedQuad_textured T p sz r t n tint s).quadVertexBufferStore
        ((flushIfFull s).quadVertexBufferPtr + i)).tileCount = n) := by
  refine ⟨rfl, rfl, rfl, rfl, ?_⟩
  intro i hi
  have hp := (resolveTexture_fields t (flushIfFull s)).2.1
  have : i = 0 ∨ i = 1 ∨ i = 2 ∨ i = 3 := by omega
  simp only [drawQuad_textured, drawRotatedQuad_textured]
  rw [← hp]
  simp only [quadBody_store]
  rcases this with rfl | rfl | rfl | rfl <;> simp [DEFAULTCOLOR]

end circles

/-- C15, on the code as written. `drawRotatedQuad` passes its rotation through `glm::radians`
before building the rotation: over the reals the matrix used for the rotation value `r` has the
entries `cos (r * π / 180)` and `sin (r * π / 180)`, so that the corner `(0.5, -0.5)` of a quad
of size `(2, 0)` at the origin is stored at `(cos (r * π / 180), sin (r * π / 180), 0)`. For
`r = 1` this is not `(cos 1, sin 1, 0)`, the position one radian of rotation gives: the
parameter is taken in degrees, where the parameter documentation says radians. -/
theorem drawRotatedQuad_takes_degrees (r : ℝ) (c : Vec4 ℝ) (s : RendererState ℝ) :
    rotate ⟨Real.cos, Real.sin, fun d => d * (Real.pi / 180)⟩ Mat4.identity
        (r * (Real.pi / 180)) ⟨0, 0, 1⟩ =
      ⟨⟨Real.cos (r * (Real.pi / 180)), Real.sin (r * (Real.pi / 180)), 0, 0⟩,
       ⟨-Real.sin (r * (Real.pi / 180)), Real.cos (r * (Real.pi / 180)), 0, 0⟩,
       ⟨0, 0, 1, 0⟩, ⟨0, 0, 0, 1⟩⟩ ∧
    ((drawRotatedQuad ⟨Real.cos, Real.sin, fun d => d * (Real.pi / 180)⟩ ⟨0, 0, 0⟩ ⟨2, 0⟩ r
        c s).quadVertexBufferStore ((flushIfFull s).quadVertexBufferPtr + 1)).position
      = ⟨Real.cos (r * (Real.pi / 180)), Real.sin (r * (Real.pi / 180)), 0⟩ ∧
    ((drawRotatedQuad ⟨Real.cos, Real.sin, fun d => d * (Real.pi / 180)⟩ ⟨0, 0, 0⟩ ⟨2, 0⟩ 1
        c s).quadVertexBufferStore ((flushIfFull s).quadVertexBufferPtr + 1)).position
      ≠ ⟨Real.cos 1, Real.sin 1, 0⟩ := by
  have hcell : ∀ r : ℝ,
      ((drawRotatedQuad ⟨Real.cos, Real.sin, fun d => d * (Real.pi / 180)⟩ ⟨0, 0, 0⟩ ⟨2, 0⟩ r
        c s).quadVertexBufferStore ((flushIfFull s).quadVertexBufferPtr + 1)).position
      = ⟨Real.cos (r * (Real.pi / 180)), Real.sin (r * (Real.pi / 180)), 0⟩ := by
    intro r
    rw [drawRotatedQuad_cell _ _ _ _ _ _ 1 (by omega)]
    simp only [quadVertexPositions, Vec3.mk.injEq]
    norm_num
  refine ⟨?_, hcell r, ?_⟩
  · simp only [rotate, Mat4.identity, Vec4.smul, Vec4.add, Mat4.mk.injEq, Vec4.mk.injEq]
    norm_num
  · rw [hcell 1]
    intro heq
    have hcos : Real.cos (1 * (Real.pi / 180)) = Real.cos 1 := by
      have := congrArg Vec3.x heq
      exact this
    have hpi3 := Real.pi_gt_three
    have hpi4 := Real.pi_lt_four
    have hinj := Real.injOn_cos
      (show (1 * (Real.pi / 180)) ∈ Set.Icc 0 Real.pi from ⟨by positivity, by linarith⟩)
      (show (1 : ℝ) ∈ Set.Icc 0 Real.pi from ⟨by norm_num, by linarith⟩) hcos
    linarith

end engine

namespace engine

open Renderer

section flushes

variable {α : Type} [Field α] [DecidableEq α]

omit [Field α] [DecidableEq α] in
/-- A pass through the flush path of `endScene` adds one non-indexed draw call to the log. -/
theorem endScene_flushCount (s : RendererState α)
    (hc : ¬ (s.quadIndexCount = 0 ∧ s.vertices.length = 0)) :
    flushCount (endScene s).log = flushCount s.log + 1 := by
  rw [(endScene_fields s hc).2.2.2.2.2.2.2.2.2]
  unfold flushCount
  rw [List.countP_append, List.countP_append]
  have h0 : List.countP Event.isDrawVAO ((List.range s.textureSlotIndex).map
      (fun i => (Event.textureBind (s.textureSlots i) i : Event α))) = 0 := by
    rw [List.countP_eq_zero]
    intro e he
    rw [List.mem_map] at he
    obtain ⟨i, -, rfl⟩ := he
    simp [Event.isDrawVAO]
  rw [h0]
  simp [Event.isDrawVAO]

omit [DecidableEq α] in
/-- One coloured `drawQuad`: below capacity it adds six indices and no flush; at capacity it
flushes once and leaves six indices. -/
theorem drawQuad_flushCount (p : Vec3 α) (sz : Vec2 α) (c : Vec4 α) (s : RendererState α) :
    (s.quadIndexCount < MAXINDICES →
      (drawQuad p sz c s).quadIndexCount = s.quadIndexCount + 6 ∧
      flushCount (drawQuad p sz c s).log = flushCount s.log) ∧
    (MAXINDICES ≤ s.quadIndexCount →
      (drawQuad p sz c s).quadIndexCount = 6 ∧
      flushCount (drawQuad p sz c s).log = flushCount s.log + 1) := by
  have hbody : ∀ s1 : RendererState α, s1.quadIndexCount < MAXINDICES →
      (bumpIndexCount (writeQuad ((translate Mat4.identity p).mul
        (scale Mat4.identity ⟨sz.x, sz.y, 1⟩)) c 0 1 s1)).quadIndexCount
          = s1.quadIndexCount + 6 ∧
      flushCount (bumpIndexCount (writeQuad ((translate Mat4.identity p).mul
        (scale Mat4.identity ⟨sz.x, sz.y, 1⟩)) c 0 1 s1)).log = flushCount s1.log := by
    intro s1 hlt
    have hf := quadBody_fields ((translate Mat4.identity p).mul
      (scale Mat4.identity ⟨sz.x, sz.y, 1⟩)) c 0 1 s1
    have hu : u32 (s1.quadIndexCount + 6) = s1.quadIndexCount + 6 := by
      rw [MAXINDICES_eq] at hlt
      unfold u32
      omega
    refine ⟨by rw [hf.1, hu], ?_⟩
    rw [hf.2.2.2.2.2.2.2.2]
    unfold flushCount
    rw [List.countP_append]
    rfl
  constructor
  · intro hlt
    simp only [drawQuad, flushIfFull_of_lt s hlt]
    exact hbody s hlt
  · intro hge
    have hc : ¬ (s.quadIndexCount = 0 ∧ s.vertices.length = 0) := by
      rw [MAXINDICES_eq] at hge
      omega
    have h0 : (endScene s).quadIndexCount = 0 := (endScene_fields s hc).1
    simp only [drawQuad, flushIfFull_of_ge s hge]
    obtain ⟨h1, h2⟩ := hbody (endScene s) (by rw [h0, MAXINDICES_eq]; omega)
    exact ⟨by rw [h1, h0], by rw [h2, endScene_flushCount s hc]⟩

/-- The index count and the number of flushes after `k` coloured `drawQuad` calls started on an
empty batch. -/
theorem run_drawQuads_flushCount (T : Trig α) (p : Vec3 α) (sz : Vec2 α) (c : Vec4 α)
    (k : Nat) (s : RendererState α) (h0 : s.quadIndexCount = 0) :
    (k = 0 ∧ (run T (List.replicate k (Op.drawQuad p sz c)) s).quadIndexCount = 0 ∧
      flushCount (run T (List.replicate k (Op.drawQuad p sz c)) s).log = flushCount s.log) ∨
    (1 ≤ k ∧
      (run T (List.replicate k (Op.drawQuad p sz c)) s).quadIndexCount
        = 6 * ((k - 1) % MAXQUADS + 1) ∧
      flushCount (run T (List.replicate k (Op.drawQuad p sz c)) s).log
        = flushCount s.log + (k - 1) / MAXQUADS) := by
  induction k with
  | zero => exact Or.inl ⟨rfl, h0, rfl⟩
  | succ k ih =>
    right
    rw [List.replicate_succ', run_append, run_cons, run_nil]
    rw [show Op.exec T (Op.drawQuad p sz c) (run T (List.replicate k (Op.drawQuad p sz c)) s)
      = drawQuad p sz c (run T (List.replicate k (Op.drawQuad p sz c)) s) from rfl]
    obtain ⟨hlt, hge⟩ := drawQuad_flushCount p sz c
      (run T (List.replicate k (Op.drawQuad p sz c)) s)
    have hM : MAXQUADS = 1000000 := rfl
    rw [MAXINDICES_eq] at hlt hge
    rw [hM] at ih ⊢
    rcases ih with ⟨rfl, hq, hfc⟩ | ⟨hk, hq, hfc⟩
    · obtain ⟨a, b⟩ := hlt (by rw [hq]; omega)
      refine ⟨by omega, by rw [a, hq], by rw [b, hfc]; omega⟩
    · by_cases hcase : (k - 1) % 1000000 + 1 < 1000000
      · obtain ⟨a, b⟩ := hlt (by rw [hq]; omega)
        refine ⟨by omega, by rw [a, hq]; omega, by rw [b, hfc]; omega⟩
      · obtain ⟨a, b⟩ := hge (by rw [hq]; omega)
        refine ⟨by omega, by rw [a]; omega, by rw [b, hfc]; omega⟩

/-- C17. Flush count under overflow. For every `N ≥ 1`, in the scene made of `beginScene`, `N`
coloured `drawQuad` calls and `endScene`, the flush path of `endScene` (each pass issues one
non-indexed draw call) runs `ceil(N / MAXQUADS)` times: `floor((N - 1) / MAXQUADS)` times from
inside `drawQuad`, and once more in the final call, which sees
`quadIndexCount = 6 * (N - MAXQUADS * floor((N - 1) / MAXQUADS))`. This holds whatever the 3D
vertex list holds. -/
theorem flush_count_under_overflow (T : Trig α) (cam : SceneCamera α) (s0 : RendererState α)
    (p : Vec3 α) (sz : Vec2 α) (c : Vec4 α) (N : Nat) (hN : 1 ≤ N) :
    flushCount (trace T (quadsThenEnd N p sz c) (beginSceneWith cam s0))
      = (N + MAXQUADS - 1) / MAXQUADS ∧
    flushCount (trace T (List.replicate N (Op.drawQuad p sz c)) (beginSceneWith cam s0))
      = (N - 1) / MAXQUADS ∧
    (N + MAXQUADS - 1) / MAXQUADS = (N - 1) / MAXQUADS + 1 ∧
    (run T (List.replicate N (Op.drawQuad p sz c)) (beginSceneWith cam s0)).quadIndexCount
      = 6 * (N - MAXQUADS * ((N - 1) / MAXQUADS)) ∧
    0 < (run T (List.replicate N (Op.drawQuad p sz c)) (beginSceneWith cam s0)).quadIndexCount
      := by
  have hM : MAXQUADS = 1000000 := rfl
  have hq0 := (beginSceneWith_fields cam s0).1
  have hq0' : ({ beginSceneWith cam s0 with log := [] } : RendererState α).quadIndexCount = 0 :=
    hq0
  have h1 := run_drawQuads_flushCount T p sz c N (beginSceneWith cam s0) hq0
  have h2 := run_drawQuads_flushCount T p sz c N { beginSceneWith cam s0 with log := [] } hq0'
  rw [hM] at h1 h2 ⊢
  rcases h1 with ⟨rfl, -, -⟩ | ⟨-, a1, -⟩
  · omega
  rcases h2 with ⟨rfl, -, -⟩ | ⟨-, b1, b2⟩
  · omega
  have hfc0 : flushCount ({ beginSceneWith cam s0 with log := [] } : RendererState α).log = 0 :=
    rfl
  rw [hfc0] at b2
  refine ⟨?_, ?_, by omega, by rw [a1]; omega, by rw [a1]; omega⟩
  · unfold trace quadsThenEnd
    rw [run_append, run_cons, run_nil]
    rw [show Op.exec T (Op.endScene : Op α) (run T (List.replicate N (Op.drawQuad p sz c))
        { beginSceneWith cam s0 with log := [] })
      = endScene (run T (List.replicate N (Op.drawQuad p sz c))
        { beginSceneWith cam s0 with log := [] }) from rfl]
    rw [endScene_flushCount _ (by rw [b1]; omega), b2]
    omega
  · unfold trace
    rw [b2]
    omega

end flushes

section indexBuffer

/-- The loop of the constructor entered at iteration `a` (`i = 6 * a`, `offset = 4 * a`) with `n`
iterations left: it keeps the cells below `i`, fills the cells from `i` to `MAXINDICES` with the
quad pattern, and stores only between `i` and `MAXINDICES`. -/
theorem fillQuadIndices_spec (n a i offset : Nat) (qi : QuadIndices) (hi : i = 6 * a)
    (ho : offset = 4 * a) (h : 6 * (a + n) = MAXINDICES) :
    (∀ k, k < i → (fillQuadIndices i offset qi).data k = qi.data k) ∧
    (∀ k, i ≤ k → k < MAXINDICES →
      (fillQuadIndices i offset qi).data k = 4 * (k / 6) + quadCornerOrder (k % 6)) ∧
    (∀ pos ∈ (fillQuadIndices i offset qi).stores,
      pos ∈ qi.stores ∨ (i ≤ pos ∧ pos < MAXINDICES)) := by
  subst hi ho
  induction n generalizing a qi with
  | zero =>
    have hge : ¬ 6 * a < MAXINDICES := by omega
    rw [fillQuadIndices, if_neg hge]
    exact ⟨fun _ _ => rfl, fun k h1 h2 => by omega, fun pos hp => Or.inl hp⟩
  | succ n ih =>
    have hlt : 6 * a < MAXINDICES := by omega
    have hi : u32 (6 * a + 6) = 6 * (a + 1) := by
      rw [MAXINDICES_eq] at hlt
      unfold u32
      omega
    have ho : u32 (4 * a + 4) = 4 * (a + 1) := by
      rw [MAXINDICES_eq] at hlt
      unfold u32
      omega
    rw [fillQuadIndices, if_pos hlt, hi, ho]
    obtain ⟨h1, h2, h3⟩ := ih (a + 1)
      { data :=
          Function.update (Function.update (Function.update (Function.update (Function.update
            (Function.update qi.data (6 * a + 0) (4 * a + 0)) (6 * a + 1) (4 * a + 1))
            (6 * a + 2) (4 * a + 2)) (6 * a + 3) (4 * a + 2)) (6 * a + 4) (4 * a + 3))
            (6 * a + 5) (4 * a + 0)
        stores := qi.stores ++ [6 * a + 0, 6 * a + 1, 6 * a + 2, 6 * a + 3, 6 * a + 4,
          6 * a + 5] } (by omega)
    refine ⟨?_, ?_, ?_⟩
    · intro k hk
      rw [h1 k (by omega)]
      simp only [Function.update_apply]
      rw [if_neg (by omega), if_neg (by omega), if_neg (by omega), if_neg (by omega),
        if_neg (by omega), if_neg (by omega)]
    · intro k hk1 hk2
      by_cases hk : k < 6 * (a + 1)
      · rw [h1 k hk]
        simp only [Function.update_apply]
        have : k = 6 * a + 0 ∨ k = 6 * a + 1 ∨ k = 6 * a + 2 ∨ k = 6 * a + 3 ∨ k = 6 * a + 4
            ∨ k = 6 * a + 5 := by omega
        rcases this with rfl | rfl | rfl | rfl | rfl | rfl
        · rw [if_neg (by omega), if_neg (by omega), if_neg (by omega), if_neg (by omega),
            if_neg (by omega), if_pos rfl]
          rw [show (6 * a + 0) / 6 = a by omega, show (6 * a + 0) % 6 = 0 by omega]
          rfl
        · rw [if_neg (by omega), if_neg (by omega), if_neg (by omega), if_neg (by omega),
            if_pos rfl]
          rw [show (6 * a + 1) / 6 = a by omega, show (6 * a + 1) % 6 = 1 by omega]
          rfl
        · rw [if_neg (by omega), if_neg (by omega), if_neg (by omega), if_pos rfl]
          rw [show (6 * a + 2) / 6 = a by omega, show (6 * a + 2) % 6 = 2 by omega]
          rfl
        · rw [if_neg (by omega), if_neg (by omega), if_pos rfl]
          rw [show (6 * a + 3) / 6 = a by omega, show (6 * a + 3) % 6 = 3 by omega]
          rfl
        · rw [if_neg (by omega), if_pos rfl]
          rw [show (6 * a + 4) / 6 = a by omega, show (6 * a + 4) % 6 = 4 by omega]
          rfl
        · rw [if_pos rfl]
          rw [show (6 * a + 5) / 6 = a by omega, show (6 * a + 5) % 6 = 5 by omega]
          rfl
      · exact h2 k (by omega) hk2
    · intro pos hp
      rcases h3 pos hp with hp | hp
      · simp only [List.mem_append, List.mem_cons, List.mem_singleton, List.not_mem_nil,
          or_false] at hp
        rcases hp with hp | hp
        · exact Or.inl hp
        · exact Or.inr (by omega)
      · exact Or.inr (by omega)

/-- The whole loop of the constructor, from `i = 0` and `offset = 0`. -/
theorem fillQuadIndices_from_zero (qi : QuadIndices) :
    (∀ k, k < MAXINDICES →
      (fillQuadIndices 0 0 qi).data k = 4 * (k / 6) + quadCornerOrder (k % 6)) ∧
    (∀ pos ∈ (fillQuadIndices 0 0 qi).stores, pos ∈ qi.stores ∨ pos < MAXINDICES) := by
  have h := fillQuadIndices_spec MAXQUADS 0 0 0 qi rfl rfl (by decide)
  refine ⟨fun k hk => h.2.1 k (Nat.zero_le k) hk, ?_⟩
  intro pos hp
  rcases h.2.2 pos hp with hp | hp
  · exact Or.inl hp
  · exact Or.inr hp.2

/-- C18. Index-buffer precomputation. For every `k < MAXINDICES` the index the constructor
stores at position `k` is `4 * (k / 6) + [0,1,2,2,3,0][k % 6]`; every such index is below
`MAXVERTICES`; the loop stores only at positions below `MAXINDICES`; and the six indices of quad
`q` are `4q, 4q+1, 4q+2, 4q+2, 4q+3, 4q`, the triangles `(0,1,2)` and `(2,3,0)` over the
vertices `4q .. 4q+3` of that quad. -/
theorem quadIndices_pattern :
    (∀ k, k < MAXINDICES → quadIndices.data k = 4 * (k / 6) + quadCornerOrder (k % 6)) ∧
    (∀ k, k < MAXINDICES → quadIndices.data k < MAXVERTICES) ∧
    (∀ pos ∈ quadIndices.stores, pos < MAXINDICES) ∧
    (∀ q, q < MAXQUADS →
      (List.range 6).map (fun j => quadIndices.data (6 * q + j))
        = [4 * q, 4 * q + 1, 4 * q + 2, 4 * q + 2, 4 * q + 3, 4 * q]) ∧
    (List.range 6).map quadCornerOrder = [0, 1, 2, 2, 3, 0] := by
  have hdef : quadIndices = fillQuadIndices 0 0 ⟨fun _ => 0, []⟩ := rfl
  rw [hdef]
  obtain ⟨hdata, h3⟩ := fillQuadIndices_from_zero ⟨fun _ => 0, []⟩
  have hcorner : ∀ j, quadCornerOrder j ≤ 3 := by
    intro j
    unfold quadCornerOrder
    split <;> omega
  refine ⟨hdata, ?_, ?_, ?_, rfl⟩
  · intro k hk
    rw [hdata k hk, MAXVERTICES_eq]
    have := hcorner (k % 6)
    rw [MAXINDICES_eq] at hk
    omega
  · intro pos hp
    rcases h3 pos hp with hp | hp
    · exact absurd hp (List.not_mem_nil _)
    · exact hp
  · intro q hq
    have hM : MAXQUADS = 1000000 := rfl
    rw [hM] at hq
    simp only [List.range_succ, List.range_zero, List.nil_append, List.map_cons, List.map_nil,
      List.cons_append]
    rw [hdata (6 * q + 0) (by rw [MAXINDICES_eq]; omega),
      hdata (6 * q + 1) (by rw [MAXINDICES_eq]; omega),
      hdata (6 * q + 2) (by rw [MAXINDICES_eq]; omega),
      hdata (6 * q + 3) (by rw [MAXINDICES_eq]; omega),
      hdata (6 * q + 4) (by rw [MAXINDICES_eq]; omega),
      hdata (6 * q + 5) (by rw [MAXINDICES_eq]; omega)]
    rw [show (6 * q + 0) / 6 = q by omega, show (6 * q + 0) % 6 = 0 by omega,
      show (6 * q + 1) / 6 = q by omega, show (6 * q + 1) % 6 = 1 by omega,
      show (6 * q + 2) / 6 = q by omega, show (6 * q + 2) % 6 = 2 by omega,
      show (6 * q + 3) / 6 = q by omega, show (6 * q + 3) % 6 = 3 by omega,
      show (6 * q + 4) / 6 = q by omega, show (6 * q + 4) % 6 = 4 by omega,
      show (6 * q + 5) / 6 = q by omega, show (6 * q + 5) % 6 = 5 by omega]
    rfl

end indexBuffer

end engine

/-! ## Instances of the theorems on sample inputs -/

namespace engine

open Renderer

/-- One `drawQuad` on the freshly constructed renderer: `endScene` issues no indexed draw. -/
theorem endScene_after_quads_issues_no_indexed_draw_witness :
    1 * 6 ≤ MAXINDICES ∧
    (run sampleTrig (List.replicate 1 (Op.drawQuad ⟨0, 0, 0⟩ ⟨2, 2⟩ ⟨1, 1, 1, 1⟩))
      (beginSceneWith sampleCamera sampleState)).quadIndexCount = 1 * 6 ∧
    indexedDrawCalls (trace sampleTrig (quadsThenEnd 1 ⟨0, 0, 0⟩ ⟨2, 2⟩ ⟨1, 1, 1, 1⟩)
      (beginSceneWith sampleCamera sampleState)) = 0 ∧
    Event.drawIndexed (some (1 * 6)) ∉
      trace sampleTrig (quadsThenEnd 1 ⟨0, 0, 0⟩ ⟨2, 2⟩ ⟨1, 1, 1, 1⟩)
        (beginSceneWith sampleCamera sampleState) :=
  ⟨by decide, endScene_after_quads_issues_no_indexed_draw sampleTrig sampleCamera sampleState
    ⟨0, 0, 0⟩ ⟨2, 2⟩ ⟨1, 1, 1, 1⟩ 1 (by decide)⟩

/-- The scene of `MAXQUADS + 1` quads: no indexed draw, where two are claimed. -/
theorem overflow_issues_no_indexed_draw_witness :
    MAXINDICES < 1000001 * 6 ∧
    indexedDrawCalls (trace sampleTrig (quadsThenEnd 1000001 ⟨0, 0, 0⟩ ⟨2, 2⟩ ⟨1, 1, 1, 1⟩)
      (beginSceneWith sampleCamera sampleState)) = 0 ∧
    2 ≤ (1000001 * 6 + MAXINDICES - 1) / MAXINDICES :=
  ⟨by decide,
    (overflow_issues_no_indexed_draw sampleTrig sampleCamera sampleState ⟨0, 0, 0⟩ ⟨2, 2⟩
      ⟨1, 1, 1, 1⟩ 1000001 (by decide)).1,
    (overflow_issues_no_indexed_draw sampleTrig sampleCamera sampleState ⟨0, 0, 0⟩ ⟨2, 2⟩
      ⟨1, 1, 1, 1⟩ 1000001 (by decide)).2.1⟩

/-- Both calls of `sampleTexturedPair` are textured quads of renderer ID 7. -/
theorem sampleTexturedPair_textured :
    ∀ op ∈ sampleTexturedPair, op.isTexturedQuadOf 7 := by
  intro op hop
  simp only [sampleTexturedPair, List.mem_cons, List.mem_singleton, List.not_mem_nil,
    or_false] at hop
  rcases hop with rfl | rfl <;> rfl

/-- The two quads of `sampleTexturedPair` share one slot of the table. -/
theorem texture_deduplication_witness :
    1 ≤ sampleTexturedPair.length ∧
    (run sampleTrig [] (beginSceneWith sampleCamera sampleState)).quadIndexCount
      + 6 * sampleTexturedPair.length ≤ MAXINDICES ∧
    (textureIDs ([] ++ sampleTexturedPair)).dedup.length ≤ MAXTEXTURESLOTS - 1 ∧
    ∃ j : Nat, 1 ≤ j ∧ j < MAXTEXTURESLOTS ∧
      ∀ k, 1 ≤ k → k ≤ sampleTexturedPair.length →
        InSlot (run sampleTrig (sampleTexturedPair.take k)
          (run sampleTrig [] (beginSceneWith sampleCamera sampleState))) 7 j :=
  ⟨by decide, by decide, by decide,
    (texture_deduplication sampleTrig sampleCamera sampleState [] 7 sampleTexturedPair
      (by decide) sampleTexturedPair_textured (by decide) (by decide)).elim
      (fun j hj => ⟨j, hj.1, hj.2.1, fun k hk1 hk2 => (hj.2.2.2.2.1 k hk1 hk2).1⟩)⟩

/-- The scene `sampleTexturedPair` contains no `endScene`. -/
theorem sampleTexturedPair_draws :
    ∀ op ∈ sampleTexturedPair, op.isEndScene = false := by
  intro op hop
  simp only [sampleTexturedPair, List.mem_cons, List.mem_singleton, List.not_mem_nil,
    or_false] at hop
  rcases hop with rfl | rfl <;> rfl

/-- Slot assignment is stable over `sampleTexturedPair`. -/
theorem stable_slots_between_flushes_witness :
    (run sampleTrig [] (beginSceneWith sampleCamera sampleState)).quadIndexCount
      + 6 * totalQuads sampleTexturedPair ≤ MAXINDICES ∧
    (textureIDs ([] ++ sampleTexturedPair)).dedup.length ≤ MAXTEXTURESLOTS - 1 ∧
    StableTexIDs sampleTrig sampleTexturedPair
      (run sampleTrig [] (beginSceneWith sampleCamera sampleState)) ∧
    StoresInSlotTable (trace sampleTrig ([] ++ sampleTexturedPair)
      (beginSceneWith sampleCamera sampleState)) :=
  ⟨by decide, by decide,
    (stable_slots_between_flushes sampleTrig sampleCamera sampleState []
      sampleTexturedPair sampleTexturedPair_draws (by decide) (by decide)).1,
    (stable_slots_between_flushes sampleTrig sampleCamera sampleState []
      sampleTexturedPair sampleTexturedPair_draws (by decide) (by decide)).2.1⟩

/-- With 31 distinct textures the slot table is filled exactly, not overrun. -/
theorem slot_table_bounded_witness :
    sampleState.textureSlots 0 = sampleState.whiteTexture ∧
    (textureIDs (manyTextures 31)).dedup.length ≤ MAXTEXTURESLOTS - 1 ∧
    (run sampleTrig (manyTextures 31)
      (beginSceneWith sampleCamera sampleState)).textureSlotIndex ≤ MAXTEXTURESLOTS ∧
    StoresInSlotTable (trace sampleTrig (manyTextures 31)
      (beginSceneWith sampleCamera sampleState)) :=
  ⟨rfl, by decide,
    (slot_table_bounded sampleTrig sampleCamera sampleState (manyTextures 31) rfl
      (by decide)).2.1,
    (slot_table_bounded sampleTrig sampleCamera sampleState (manyTextures 31) rfl
      (by decide)).2.2.1⟩

/-- The quad of size 2 at the origin, drawn first in the scene begun on the freshly constructed
renderer. -/
theorem drawQuad_geometry_witness :
    sampleScene.quadIndexCount < MAXINDICES ∧
    (List.range 4).map (fun i =>
        ((drawQuad ⟨0, 0, 0⟩ ⟨2, 2⟩ ⟨1, 1, 1, 1⟩ sampleScene).quadVertexBufferStore
          (sampleScene.quadVertexBufferPtr + i)).position)
      = [⟨-1, -1, 0⟩, ⟨1, -1, 0⟩, ⟨1, 1, 0⟩, ⟨-1, 1, 0⟩] :=
  ⟨by decide,
    (drawQuad_geometry ⟨0, 0, 0⟩ ⟨2, 2⟩ ⟨1, 1, 1, 1⟩ sampleScene (by decide)).2.2.2.2.2.2.2⟩

/-- The raw shape `sampleTriangle` loads as three vertices. -/
theorem loadModel_appends_one_vertex_per_index_witness :
    sampleTriangle.allInRange ∧
    loadModel (fun _ => sampleTriangle) "assets/models" "triangle" [] ⟨1, 2, 3⟩ ⟨1, 1, 1, 1⟩ 5
      = Except.ok ([] ++ specVertices sampleTriangle ⟨1, 2, 3⟩ ⟨1, 1, 1, 1⟩ 5) ∧
    (specVertices sampleTriangle ⟨1, 2, 3⟩ ⟨1, 1, 1, 1⟩ 5).length = 3 :=
  ⟨by decide,
    (loadModel_appends_one_vertex_per_index (fun _ => sampleTriangle) "assets/models"
      "triangle" [] ⟨1, 2, 3⟩ ⟨1, 1, 1, 1⟩ 5 (by decide)).1,
    (loadModel_appends_one_vertex_per_index (fun _ => sampleTriangle) "assets/models"
      "triangle" [] ⟨1, 2, 3⟩ ⟨1, 1, 1, 1⟩ 5 (by decide)).2.2.1 _ _ _ rfl⟩

/-- On `brokenTriangle` the read outside the array is made by the subscript `vertices[9]`, the
first of the third corner, after the sixteen subscripts of the first two corners. -/
theorem loadModel_unchecked_witness :
    ¬ brokenTriangle.allInRange ∧
    brokenTriangle.firstOutOfBounds = some ⟨AttribArray.vertices, 9, 9⟩ ∧
    ∃ x before after,
      brokenTriangle.subscripts = before ++ x :: after ∧
      (∀ y ∈ before, y.outOfBounds = false) ∧
      (x.index < 0 ∨ (x.size : Int) ≤ x.index) ∧
      brokenTriangle.firstOutOfBounds = some x ∧
      loadModel (fun _ => brokenTriangle) "assets/models" "triangle" [] ⟨0, 0, 0⟩
        ⟨1, 1, 1, 1⟩ 0 = Except.error (Fault.outOfBoundsRead x.array x.index x.size) :=
  ⟨by decide, by decide,
    (loadModel_unchecked (fun _ => brokenTriangle) "assets/models" "triangle" [] ⟨0, 0, 0⟩
      ⟨1, 1, 1, 1⟩ 0).2 (by decide)⟩

/-- The freshly constructed renderer: `beginScene` then `endScene` draws nothing. -/
theorem empty_scene_issues_no_draw_witness :
    sampleState.vertices = [] ∧
    endScene (beginSceneWith sampleCamera sampleState) = beginSceneWith sampleCamera sampleState ∧
    drawCalls (endScene (beginSceneWith sampleCamera { sampleState with log := [] })).log = 0 :=
  ⟨rfl, (empty_scene_issues_no_draw sampleCamera sampleState rfl).1,
    (empty_scene_issues_no_draw sampleCamera sampleState rfl).2.1⟩

/-- A scene holding three 3D vertices: one draw call of three vertices. -/
theorem endScene_flushes_witness :
    (0 < (sceneWithVertices 3).quadIndexCount ∨ (sceneWithVertices 3).vertices ≠ []) ∧
    (sceneWithVertices 3).vertices.length < 4294967296 ∧
    (endScene (sceneWithVertices 3)).log = (sceneWithVertices 3).log ++
      ((List.range (sceneWithVertices 3).textureSlotIndex).map
          (fun i => Event.textureBind ((sceneWithVertices 3).textureSlots i) i) ++
        [Event.bufferData (sceneWithVertices 3).vertices.length,
         Event.shaderBind ShaderRef.lightingShader,
         Event.drawVAO (sceneWithVertices 3).vertices.length]) ∧
    (sceneWithVertices 3).vertices.length = 3 ∧
    (endScene (sceneWithVertices 3)).vertices = [] :=
  ⟨Or.inr (by decide), by decide,
    (endScene_flushes (sceneWithVertices 3) (Or.inr (by decide)) (by decide)).1, rfl,
    (endScene_flushes (sceneWithVertices 3) (Or.inr (by decide)) (by decide)).2.2.2.2.1⟩

/-- Two cameras with the identity matrix on the freshly constructed renderer. -/
theorem beginScene_overloads_agree_witness :
    (⟨Mat4.identity⟩ : OrthographicCamera ℚ).viewProjectionMatrix
      = (⟨Mat4.identity⟩ : PerspectiveCamera ℚ).viewProjectionMatrix ∧
    beginScene_perspective (⟨Mat4.identity⟩ : PerspectiveCamera ℚ) sampleState =
      { beginScene (⟨Mat4.identity⟩ : OrthographicCamera ℚ) sampleState with
        log := sampleState.log ++
          [Event.shaderBind ShaderRef.lightingShader,
           Event.uniformMat4 ShaderRef.lightingShader Mat4.identity,
           Event.shaderBind ShaderRef.textureShader,
           Event.uniformMat4 ShaderRef.textureShader Mat4.identity] } :=
  ⟨rfl, (beginScene_overloads_agree ⟨Mat4.identity⟩ ⟨Mat4.identity⟩ sampleState rfl).1⟩

/-- A circle drawn first in the scene begun on the freshly constructed renderer: 18 indices,
12 vertices. -/
theorem drawCircle_is_three_rotated_quads_witness :
    sampleScene.quadIndexCount + 18 ≤ MAXINDICES ∧
    (drawCircle sampleTrig ⟨0, 0, 0⟩ ⟨1, 1⟩ ⟨1, 1, 1, 1⟩ sampleScene).quadIndexCount
      = sampleScene.quadIndexCount + 18 ∧
    (drawCircle sampleTrig ⟨0, 0, 0⟩ ⟨1, 1⟩ ⟨1, 1, 1, 1⟩ sampleScene).quadVertexBufferPtr
      = sampleScene.quadVertexBufferPtr + 12 :=
  ⟨by decide,
    (drawCircle_is_three_rotated_quads sampleTrig ⟨0, 0, 0⟩ ⟨0, 0⟩ ⟨1, 1⟩ ⟨1, 1, 1, 1⟩
      sampleWhite ⟨1, 1, 1, 1⟩ ⟨1, 1, 1, 1⟩ ⟨1, 1, 1, 1⟩ sampleScene (by decide)).2.2.2.2.1.1,
    (drawCircle_is_three_rotated_quads sampleTrig ⟨0, 0, 0⟩ ⟨0, 0⟩ ⟨1, 1⟩ ⟨1, 1, 1, 1⟩
      sampleWhite ⟨1, 1, 1, 1⟩ ⟨1, 1, 1, 1⟩ ⟨1, 1, 1, 1⟩ sampleScene (by decide)).2.2.2.2.1.2.1⟩

/-- The scene of `MAXQUADS + 1` quads: one flush from inside `drawQuad`, one at the end. -/
theorem flush_count_under_overflow_witness :
    1 ≤ 1000001 ∧
    flushCount (trace sampleTrig (quadsThenEnd 1000001 ⟨0, 0, 0⟩ ⟨2, 2⟩ ⟨1, 1, 1, 1⟩)
      (beginSceneWith sampleCamera sampleState)) = (1000001 + MAXQUADS - 1) / MAXQUADS ∧
    (1000001 + MAXQUADS - 1) / MAXQUADS = 2 :=
  ⟨by decide,
    (flush_count_under_overflow sampleTrig sampleCamera sampleState ⟨0, 0, 0⟩ ⟨2, 2⟩
      ⟨1, 1, 1, 1⟩ 1000001 (by decide)).1, by decide⟩

end engine
